import Mathlib

/-!
Spy Cat Agency: mission / target lifecycle

A shallow embedding of the mission service of the repository
(`internal/application/services/mission_service.go`), of the entities it
works on (`internal/domain/entities`), of the three repositories it
calls (`internal/infrastructure/repositories`) and of `ValidateID`
(`internal/application/services/validation.go`).

Modelling conventions.

* The relational database is a value of type `Store`: three tables (lists of
  rows in insertion order) and the two id sequences.
* `time.Time` is an integer; the zero time is `0` (`IsZero`). Every
  operation receives the reading `now` of the clock.
* Every write receives a boolean `ok`: `false` means that the database
  refused this write (connection lost, constraint violated, ...), and the
  write then leaves the store as it was. The read of a target by its id,
  `TargetRepository.GetByID`, receives such a boolean too: the service reads
  a target again after it has written it, outside any transaction. A
  service operation receives an `Oracle`, which gives this boolean for each
  of these calls, numbered in program order.
* Every other query is answered from the store; it fails only when no row
  matches (`gorm.ErrRecordNotFound`).
* `Updates` and `Update` write the columns they name. `Save` writes the
  columns of the row after gorm has saved the associations of the entity:
  when the association `Cat` of a mission is set, the column `cat_id` is
  written from it.
* The declared association `Mission.Cat` gives `missions.cat_id` a foreign
  key to `spy_cats`: the database refuses to delete a cat to which a mission
  row refers.
* A target carries gorm's soft-delete column `DeletedAt`: every scoped
  query sees only the rows where it is unset.
* `strconv.ParseInt`, which `ValidateID` calls, follows Go's standard
  library: the digit loop of `ParseUint` with its `uint64` arithmetic and
  its range tests.
-/

namespace SpyCats

/-! ## Entities -/

/-- A `time.Time`, as an integer; `0` is the zero time. -/
abbrev Time := Int

/-- The method `time.Time.IsZero`. -/
def Time.IsZero (t : Time) : Bool := t == 0

/-- The entity `entities.SpyCat`; the salary, a `numeric(12,2)` column, is held in hundredths. -/
structure SpyCat where
  ID : Int
  Name : String
  YearsOfExperience : Int
  Breed : String
  Salary : Int
  MissionID : Option Int
  CreatedAt : Time
  UpdatedAt : Time
deriving DecidableEq, Repr

/-- The type `entities.TargetStatus`, a string type. -/
abbrev TargetStatus := String

def TargetStatusInit : TargetStatus := "init"
def TargetStatusInProgress : TargetStatus := "in_progress"
def TargetStatusCompleted : TargetStatus := "completed"

/-- The entity `entities.Target`. -/
structure Target where
  ID : Int
  MissionID : Int
  Name : String
  Country : String
  Notes : Option String
  Status : TargetStatus
  CreatedAt : Time
  UpdatedAt : Time
  DeletedAt : Option Time
deriving DecidableEq, Repr

def MinTargetsRequired : Nat := 1
def MaxTargetsAllowed : Nat := 3

/-- The entity `entities.Mission`; `Cat` and `Targets` are the preloaded associations. -/
structure Mission where
  ID : Int
  Name : String
  Description : String
  StartDate : Time
  EndDate : Time
  CatID : Option Int
  IsCompleted : Bool
  CompletedAt : Option Time
  CreatedAt : Time
  UpdatedAt : Time
  Cat : Option SpyCat
  Targets : List Target
deriving DecidableEq, Repr

/-- The errors of `Mission.Validate` and `Mission.ValidateTargets`. -/
inductive EntityErr where
  | atLeastOneTarget
  | moreThanThreeTargets
  | targetNameRequired
  | targetCountryRequired
  | targetNameTooLong
  | targetCountryTooLong
  | duplicateTargetNames
  | missionNameRequired
  | missionDescriptionRequired
deriving DecidableEq, Repr

/-- The body of the `for i, target := range m.Targets` loop of `ValidateTargets`,
run on the targets from position `i` on. -/
def Mission.validateTargetsLoop : List Target → Except EntityErr Unit
  | [] => .ok ()
  | target :: rest =>
    if target.Name = "" then .error .targetNameRequired
    else if target.Country = "" then .error .targetCountryRequired
    else if target.Name.utf8ByteSize > 100 then .error .targetNameTooLong
    else if target.Country.utf8ByteSize > 100 then .error .targetCountryTooLong
    else if rest.any (fun t => t.Name = target.Name) then .error .duplicateTargetNames
    else Mission.validateTargetsLoop rest

/-- The method `Mission.ValidateTargets`. -/
def Mission.ValidateTargets (m : Mission) : Except EntityErr Unit :=
  let targetCount := m.Targets.length
  if targetCount < MinTargetsRequired then .error .atLeastOneTarget
  else if targetCount > MaxTargetsAllowed then .error .moreThanThreeTargets
  else Mission.validateTargetsLoop m.Targets

/-- The method `Mission.Validate`. -/
def Mission.Validate (m : Mission) : Except EntityErr Unit :=
  match m.ValidateTargets with
  | .error e => .error e
  | .ok _ =>
    if m.Name = "" then .error .missionNameRequired
    else if m.Description = "" then .error .missionDescriptionRequired
    else .ok ()

/-- The method `Mission.CanAddTarget`. -/
def Mission.CanAddTarget (m : Mission) : Bool := m.Targets.length < MaxTargetsAllowed

/-- The method `Mission.HasMinimumTargets`. -/
def Mission.HasMinimumTargets (m : Mission) : Bool := m.Targets.length ≥ MinTargetsRequired

/-! ## The store -/

/-- The database: the tables `spy_cats`, `missions`, `targets` and the two id sequences. -/
structure Store where
  cats : List SpyCat
  missions : List Mission
  targets : List Target
  nextMissionID : Int
  nextTargetID : Int
deriving DecidableEq, Repr

/-- A store with the given cats, no mission and no target. -/
def Store.init (cats : List SpyCat) : Store :=
  { cats := cats, missions := [], targets := [], nextMissionID := 1, nextTargetID := 1 }

/-- An error of a database call. -/
inductive DBErr where
  | recordNotFound
  | failure
  | entity (e : EntityErr)
  | catAssigned
  | foreignKey
deriving DecidableEq, Repr

deriving instance DecidableEq for Except

/-- For each write of an operation and each of its reads of a target by id,
in program order: does the database carry it out? -/
abbrev Oracle := Nat → Bool

/-- The oracle of a run in which the database carries out every call. -/
def Oracle.allOk : Oracle := fun _ => true

/-- The oracle seen by a callee whose first call is call number `k` of its caller. -/
def Oracle.shift (db : Oracle) (k : Nat) : Oracle := fun i => db (i + k)

/-- The row of a mission: the entity without its preloaded associations. -/
def Mission.row (m : Mission) : Mission := { m with Cat := none, Targets := [] }

/-- A scoped query sees a target only while it is not soft-deleted. -/
def Target.visible (t : Target) : Bool := t.DeletedAt.isNone

/-- The targets preloaded for a mission: `mission_id = id`, not soft-deleted,
`ORDER BY targets.created_at ASC`. -/
def Store.targetsOf (s : Store) (id : Int) : List Target :=
  (s.targets.filter (fun t => t.MissionID = id ∧ t.visible)).insertionSort
    (fun a b => a.CreatedAt ≤ b.CreatedAt)

/-- The cat preloaded for a mission. -/
def Store.catOf (s : Store) (catID : Option Int) : Option SpyCat :=
  match catID with
  | none => none
  | some c => s.cats.find? (fun k => k.ID = c)

/-- The mission row with its associations preloaded. -/
def Store.preload (s : Store) (m : Mission) : Mission :=
  { m with Cat := s.catOf m.CatID, Targets := s.targetsOf m.ID }

/-! ## Repositories -/

namespace TargetRepository

/-- The method `TargetRepository.Create`: a zero id is taken from the sequence, zero timestamps are set. -/
def Create (ok : Bool) (now : Time) (target : Target) (s : Store) :
    Store × Except DBErr Target :=
  if ok then
    let t : Target :=
      { target with
        ID := if target.ID = 0 then s.nextTargetID else target.ID
        CreatedAt := if target.CreatedAt.IsZero then now else target.CreatedAt
        UpdatedAt := if target.UpdatedAt.IsZero then now else target.UpdatedAt }
    ({ s with
        targets := s.targets ++ [t]
        nextTargetID := if target.ID = 0 then s.nextTargetID + 1 else s.nextTargetID },
      .ok t)
  else (s, .error .failure)

/-- The method `TargetRepository.GetByID`; with `ok = false` the database
does not answer the query. -/
def GetByID (ok : Bool) (id : Int) (s : Store) : Except DBErr Target :=
  if ok then
    match s.targets.find? (fun t => t.ID = id ∧ t.visible) with
    | some t => .ok t
    | none => .error .recordNotFound
  else .error .failure

/-- The method `TargetRepository.Delete`: a soft delete. -/
def Delete (ok : Bool) (now : Time) (id : Int) (s : Store) : Store × Except DBErr Unit :=
  if ok then
    ({ s with targets := s.targets.map (fun t =>
        if t.ID = id ∧ t.visible then { t with DeletedAt := some now } else t) }, .ok ())
  else (s, .error .failure)

/-- The method `TargetRepository.DeleteByMissionID`: unscoped, the rows are removed. -/
def DeleteByMissionID (ok : Bool) (missionID : Int) (s : Store) : Store × Except DBErr Unit :=
  if ok then
    ({ s with targets := s.targets.filter (fun t => ¬ t.MissionID = missionID) }, .ok ())
  else (s, .error .failure)

/-- The method `TargetRepository.UpdateStatus`. -/
def UpdateStatus (ok : Bool) (now : Time) (id : Int) (status : TargetStatus) (s : Store) :
    Store × Except DBErr Unit :=
  if ok then
    ({ s with targets := s.targets.map (fun t =>
        if t.ID = id ∧ t.visible then { t with Status := status, UpdatedAt := now } else t) },
      .ok ())
  else (s, .error .failure)

/-- The method `TargetRepository.UpdateNotes`. -/
def UpdateNotes (ok : Bool) (now : Time) (id : Int) (notes : String) (s : Store) :
    Store × Except DBErr Unit :=
  if ok then
    ({ s with targets := s.targets.map (fun t =>
        if t.ID = id ∧ t.visible then { t with Notes := some notes, UpdatedAt := now } else t) },
      .ok ())
  else (s, .error .failure)

end TargetRepository

/-- The errors of `CatRepository.GetByID` and `CatRepository.Delete`, one
constructor for each message. -/
inductive CatErr where
  /-- The message "failed to get cat: ...". -/
  | failedGetCat (cause : DBErr)
  /-- The message "failed to find cat: ...". -/
  | failedFindCat (cause : DBErr)
  /-- The message "cannot delete cat: cat is currently assigned to mission ID ...". -/
  | assignedToMission (missionID : Int)
  /-- The message "failed to delete cat: ...". -/
  | failedDeleteCat (cause : DBErr)
deriving DecidableEq, Repr

namespace CatRepository

/-- The method `CatRepository.AssignToMission`. -/
def AssignToMission (ok : Bool) (now : Time) (catID missionID : Int) (s : Store) :
    Store × Except DBErr Unit :=
  if ok then
    ({ s with cats := s.cats.map (fun c =>
        if c.ID = catID then { c with MissionID := some missionID, UpdatedAt := now } else c) },
      .ok ())
  else (s, .error .failure)

/-- The method `CatRepository.UnassignFromMission`. -/
def UnassignFromMission (ok : Bool) (now : Time) (catID : Int) (s : Store) :
    Store × Except DBErr Unit :=
  if ok then
    ({ s with cats := s.cats.map (fun c =>
        if c.ID = catID then { c with MissionID := none, UpdatedAt := now } else c) },
      .ok ())
  else (s, .error .failure)

/-- The method `CatRepository.GetByID`. -/
def GetByID (id : Int) (s : Store) : Except CatErr SpyCat :=
  match s.cats.find? (fun c => c.ID = id) with
  | some c => .ok c
  | none => .error (.failedGetCat .recordNotFound)

/-- The method `CatRepository.Delete`: the cat is read, a cat with a mission
reference is refused, and the row is removed. The database refuses the
deletion while a mission row refers to the cat (the foreign key of
`missions.cat_id`), and when `ok = false`. -/
def Delete (ok : Bool) (id : Int) (s : Store) : Store × Except CatErr Unit :=
  match s.cats.find? (fun c => c.ID = id) with
  | none => (s, .error (.failedFindCat .recordNotFound))
  | some spyCat =>
    match spyCat.MissionID with
    | some missionID => (s, .error (.assignedToMission missionID))
    | none =>
      if s.missions.any (fun m => m.CatID = some id) then
        (s, .error (.failedDeleteCat .foreignKey))
      else if ok then ({ s with cats := s.cats.filter (fun c => ¬ c.ID = id) }, .ok ())
      else (s, .error (.failedDeleteCat .failure))

end CatRepository

namespace MissionRepository

/-- The method `MissionRepository.Create`: validates, then inserts the row without its targets. -/
def Create (ok : Bool) (now : Time) (mission : Mission) (s : Store) :
    Store × Except DBErr Mission :=
  match mission.Validate with
  | .error e => (s, .error (.entity e))
  | .ok _ =>
    if ok then
      let id := if mission.ID = 0 then s.nextMissionID else mission.ID
      let created := if mission.CreatedAt.IsZero then now else mission.CreatedAt
      let updated := if mission.UpdatedAt.IsZero then now else mission.UpdatedAt
      let missionCopy : Mission :=
        { mission with ID := id, CreatedAt := created, UpdatedAt := updated, Targets := [] }
      ({ s with
          missions := s.missions ++ [missionCopy.row]
          nextMissionID := if mission.ID = 0 then s.nextMissionID + 1 else s.nextMissionID },
        .ok { mission with ID := id, CreatedAt := created, UpdatedAt := updated })
    else (s, .error .failure)

/-- The method `MissionRepository.GetAll`. -/
def GetAll (s : Store) : Except DBErr (List Mission) :=
  .ok (s.missions.map s.preload)

/-- The method `MissionRepository.GetByID`. -/
def GetByID (id : Int) (s : Store) : Except DBErr Mission :=
  match s.missions.find? (fun m => m.ID = id) with
  | some m => .ok (s.preload m)
  | none => .error .recordNotFound

/-- The method `MissionRepository.CheckMissionExists`. -/
def CheckMissionExists (id : Int) (s : Store) : Except DBErr Bool :=
  .ok ((s.missions.filter (fun m => m.ID = id)).length > 0)

/-- The method `MissionRepository.Delete`. -/
def Delete (ok : Bool) (id : Int) (s : Store) : Store × Except DBErr Unit :=
  match s.missions.find? (fun m => m.ID = id) with
  | none => (s, .error .recordNotFound)
  | some mission =>
    match mission.CatID with
    | some _ => (s, .error .catAssigned)
    | none =>
      if ok then
        ({ s with missions := s.missions.filter (fun m => ¬ m.ID = id) }, .ok ())
      else (s, .error .failure)

/-- The method `MissionRepository.Update`, gorm's `Save`: the row with this
primary key is rewritten, and inserted when there is none. Before it writes
the row, `Save` saves the associations of the entity: when `Cat` is set, it
sets `CatID` to the id of that cat, in the entity and so in the row. The
rows of `Cat` and `Targets` themselves are inserted only if no row has
their id (the targets with `mission_id` set to the id of the mission): for
an entity that was read from the store nothing changes in these tables. -/
def Update (ok : Bool) (now : Time) (mission : Mission) (s : Store) :
    Store × Except DBErr Mission :=
  if ok then
    let saved : Mission :=
      { mission with
        CatID := match mission.Cat with
          | some cat => some cat.ID
          | none => mission.CatID
        UpdatedAt := now }
    if s.missions.any (fun m => m.ID = mission.ID) then
      ({ s with missions := s.missions.map (fun m =>
          if m.ID = mission.ID then saved.row else m) }, .ok saved)
    else
      ({ s with missions := s.missions ++ [saved.row] }, .ok saved)
  else (s, .error .failure)

/-- The method `MissionRepository.AssignCatToMission`. -/
def AssignCatToMission (ok : Bool) (now : Time) (missionID catID : Int) (s : Store) :
    Store × Except DBErr Unit :=
  if ok then
    ({ s with missions := s.missions.map (fun m =>
        if m.ID = missionID then
          { m with CatID := some catID, StartDate := now, UpdatedAt := now }
        else m) }, .ok ())
  else (s, .error .failure)

end MissionRepository

/-! ## Requests and responses (`internal/application/dto`) -/

structure CreateTargetRequest where
  Name : String
  Country : String
deriving DecidableEq, Repr

structure CreateMissionRequest where
  Name : String
  Description : String
  StartDate : Option Time
  EndDate : Option Time
  Targets : List CreateTargetRequest
deriving DecidableEq, Repr

structure AddTargetRequest where
  Name : String
  Country : String
  Notes : Option String
deriving DecidableEq, Repr

structure CatResponse where
  ID : Int
  Name : String
  YearsOfExperience : Int
  Breed : String
  Salary : Int
  MissionID : Option Int
  CreatedAt : Time
  UpdatedAt : Time
deriving DecidableEq, Repr

structure TargetResponse where
  ID : Int
  MissionID : Int
  Name : String
  Country : String
  Notes : Option String
  Status : String
  CreatedAt : Time
  UpdatedAt : Time
deriving DecidableEq, Repr

structure MissionResponse where
  ID : Int
  Name : String
  Description : String
  StartDate : Option Time
  EndDate : Option Time
  CatID : Option Int
  IsCompleted : Bool
  CompletedAt : Option Time
  CreatedAt : Time
  UpdatedAt : Time
  Cat : Option CatResponse
  Targets : List TargetResponse
deriving DecidableEq, Repr

/-- The method `CreateMissionRequest.ToModel`. -/
def CreateMissionRequest.ToModel (r : CreateMissionRequest) : Mission :=
  { ID := 0
    Name := r.Name
    Description := r.Description
    StartDate := match r.StartDate with | some d => d | none => 0
    EndDate := match r.EndDate with | some d => d | none => 0
    CatID := none
    IsCompleted := false
    CompletedAt := none
    CreatedAt := 0
    UpdatedAt := 0
    Cat := none
    Targets := r.Targets.map (fun targetReq =>
      { ID := 0, MissionID := 0, Name := targetReq.Name, Country := targetReq.Country,
        Notes := none, Status := TargetStatusInit, CreatedAt := 0, UpdatedAt := 0,
        DeletedAt := none }) }

/-- The method `AddTargetRequest.ToTargetModel`. -/
def AddTargetRequest.ToTargetModel (r : AddTargetRequest) (missionID : Int) : Target :=
  { ID := 0, MissionID := missionID, Name := r.Name, Country := r.Country, Notes := r.Notes,
    Status := TargetStatusInit, CreatedAt := 0, UpdatedAt := 0, DeletedAt := none }

/-- The `dto.TargetResponse` literal that the service builds from a target. -/
def TargetResponse.ofTarget (t : Target) : TargetResponse :=
  { ID := t.ID, MissionID := t.MissionID, Name := t.Name, Country := t.Country,
    Notes := t.Notes, Status := t.Status, CreatedAt := t.CreatedAt, UpdatedAt := t.UpdatedAt }

/-- The function `dto.MissionFromModel`. -/
def MissionFromModel (mission : Mission) : MissionResponse :=
  { ID := mission.ID
    Name := mission.Name
    Description := mission.Description
    CatID := mission.CatID
    IsCompleted := mission.IsCompleted
    CompletedAt := mission.CompletedAt
    CreatedAt := mission.CreatedAt
    UpdatedAt := mission.UpdatedAt
    StartDate := if ! mission.StartDate.IsZero then some mission.StartDate else none
    EndDate := if ! mission.EndDate.IsZero then some mission.EndDate else none
    Cat := match mission.Cat with
      | some cat => some
          { ID := cat.ID, Name := cat.Name, YearsOfExperience := cat.YearsOfExperience,
            Breed := cat.Breed, Salary := cat.Salary, MissionID := none,
            CreatedAt := cat.CreatedAt, UpdatedAt := cat.UpdatedAt }
      | none => none
    Targets := mission.Targets.map TargetResponse.ofTarget }

/-! ## The mission service (`internal/application/services`) -/

/-- The errors of the mission service, one constructor for each message. -/
inductive Err where
  /-- The message "mission name is required". -/
  | missionNameRequired
  /-- The message "mission name must be less than 100 characters". -/
  | missionNameTooLong
  /-- The message "mission description is required". -/
  | missionDescriptionRequired
  /-- The message "mission description must be less than 500 characters". -/
  | missionDescriptionTooLong
  /-- The message "mission end date must be after start date". -/
  | endBeforeStart
  /-- The message "failed to create mission: ...". -/
  | failedCreateMission (cause : DBErr)
  /-- The message "failed to create target: ...". -/
  | failedCreateTarget (cause : DBErr)
  /-- The message "failed to check mission existence: ...". -/
  | failedCheckExistence (cause : DBErr)
  /-- The message "mission with id ... not found". -/
  | missionIDNotFound
  /-- The message "failed to delete mission targets: ...". -/
  | failedDeleteTargets (cause : DBErr)
  /-- The message "failed to delete mission: ...". -/
  | failedDeleteMission (cause : DBErr)
  /-- The message "failed to assign cat in mission table: ...". -/
  | failedAssignMission (cause : DBErr)
  /-- The message "failed to assign mission to cat: ...". -/
  | failedAssignCat (cause : DBErr)
  /-- The message "failed to get updated mission: ...". -/
  | failedGetUpdatedMission (cause : DBErr)
  /-- The message "failed to get missions: ...". -/
  | failedGetMissions (cause : DBErr)
  /-- The message "mission not found: ...". -/
  | missionNotFound (cause : DBErr)
  /-- The message "mission already has the maximum number of targets (...)". -/
  | maxTargets
  /-- The message "target with name ... already exists in this mission". -/
  | targetNameExists
  /-- The message "target not found: ...". -/
  | targetNotFound (cause : DBErr)
  /-- The message "target does not belong to the specified mission". -/
  | targetNotInMission
  /-- The message "only targets in 'init' status can be deleted". -/
  | onlyInitDeletable
  /-- The message "mission must have at least one target". -/
  | atLeastOneTarget
  /-- The message "failed to delete target: ...". -/
  | failedDeleteTarget (cause : DBErr)
  /-- The message "target does not belong to the cat's mission". -/
  | notCatsMission
  /-- The message "target status is final and cannot be changed". -/
  | statusFinal
  /-- The message "target is final and cannot be modified". -/
  | targetFinal
  /-- The message "failed to update target status: ...". -/
  | failedUpdateStatus (cause : DBErr)
  /-- The message "failed to update target notes: ...". -/
  | failedUpdateNotes (cause : DBErr)
  /-- The message "failed to get updated target: ...". -/
  | failedGetUpdatedTarget (cause : DBErr)
  /-- The message "failed to get mission: ...". -/
  | failedGetMission (cause : DBErr)
  /-- The message "failed to complete mission: ...". -/
  | failedCompleteMission (cause : DBErr)
  /-- The message "failed to unassign cat from completed mission: ...". -/
  | failedUnassignCat (cause : DBErr)
deriving DecidableEq, Repr

/-- The function `unicode.IsSpace`, which `strings.TrimSpace` uses. -/
def isSpace (c : Char) : Bool :=
  c = '\t' || c = '\n' || c.val = 0x0B || c.val = 0x0C || c = '\r' || c = ' '
    || c.val = 0x85 || c.val = 0xA0 || c.val = 0x1680
    || (0x2000 ≤ c.val && c.val ≤ 0x200A)
    || c.val = 0x2028 || c.val = 0x2029 || c.val = 0x202F || c.val = 0x205F || c.val = 0x3000

/-- The function `strings.TrimSpace`. -/
def TrimSpace (s : String) : String :=
  String.mk ((s.data.dropWhile isSpace).reverse.dropWhile isSpace).reverse

/-- The errors of `strconv.ParseUint` and `strconv.ParseInt`. -/
inductive NumError where
  | ErrSyntax
  | ErrRange
deriving DecidableEq, Repr

/-- The largest `uint64`. -/
def maxUint64 : Nat := 2 ^ 64 - 1

/-- The largest value of 32 bits, `uint64(1)<<32 - 1`. -/
def maxVal32 : Nat := 2 ^ 32 - 1

/-- The loop of `strconv.ParseUint(s, 10, 32)` of Go's standard library, on
the characters that are left and the number `n` read so far; arithmetic is
that of `uint64`. A character that is no decimal digit ends it with
`ErrSyntax` (a letter is a digit of value 10 or more, which the base
refuses; a character outside ASCII consists of bytes that are neither). The
result is the pair of the value and the error that Go returns. -/
def parseUintLoop : List Char → Nat → Nat × Option NumError
  | [], n => (n, none)
  | c :: cs, n =>
    if 48 ≤ c.toNat ∧ c.toNat ≤ 57 then
      let d := c.toNat - 48
      if n ≥ maxUint64 / 10 + 1 then (maxVal32, some .ErrRange)
      else
        let n := (n * 10) % 2 ^ 64
        let n1 := (n + d) % 2 ^ 64
        if n1 < n ∨ n1 > maxVal32 then (maxVal32, some .ErrRange)
        else parseUintLoop cs n1
    else (0, some .ErrSyntax)

/-- The function `strconv.ParseUint(s, 10, 32)`, on the characters of `s`. -/
def ParseUint (s : List Char) : Nat × Option NumError :=
  if s = [] then (0, some .ErrSyntax) else parseUintLoop s 0

/-- The part of `strconv.ParseInt(s, 10, 32)` that follows the sign. -/
def parseIntUnsigned (neg : Bool) (s : List Char) : Int × Option NumError :=
  match ParseUint s with
  | (_, some .ErrSyntax) => (0, some .ErrSyntax)
  | (un, _) =>
    let cutoff : Nat := 2 ^ 31
    if ! neg && un ≥ cutoff then ((cutoff : Int) - 1, some .ErrRange)
    else if neg && un > cutoff then (- (cutoff : Int), some .ErrRange)
    else (if neg then - (un : Int) else (un : Int), none)

/-- The function `strconv.ParseInt(s, 10, 32)` of Go's standard library. -/
def ParseInt (s : String) : Int × Option NumError :=
  match s.data with
  | [] => (0, some .ErrSyntax)
  | c :: rest =>
    if c = '+' then parseIntUnsigned false rest
    else if c = '-' then parseIntUnsigned true rest
    else parseIntUnsigned false (c :: rest)

/-- The conversion `int32(x)` of an `int64`. -/
def int32 (x : Int) : Int := (x + 2 ^ 31) % 2 ^ 32 - 2 ^ 31

/-- The errors of `ValidateID`, one constructor for each message. -/
inductive ValidateErr where
  /-- The message "missing ... parameter". -/
  | missing (paramName : String)
  /-- The message "invalid ...: must be a valid integer". -/
  | invalidInteger (paramName : String)
  /-- The message "invalid ...: must be a positive integer". -/
  | notPositive (paramName : String)
deriving DecidableEq, Repr

/-- The method `ValidationService.ValidateID`. -/
def ValidateID (idStr paramName : String) : Except ValidateErr Int :=
  if idStr = "" then .error (.missing paramName)
  else
    match ParseInt idStr with
    | (_, some _) => .error (.invalidInteger paramName)
    | (id, none) =>
      if id ≤ 0 then .error (.notPositive paramName)
      else .ok (int32 id)

/-- The function `validateMissionName`. -/
def validateMissionName (name : String) : Except Err Unit :=
  let name := TrimSpace name
  if name = "" then .error .missionNameRequired
  else if name.utf8ByteSize > 100 then .error .missionNameTooLong
  else .ok ()

/-- The function `validateMissionDescription`. -/
def validateMissionDescription (description : String) : Except Err Unit :=
  let description := TrimSpace description
  if description = "" then .error .missionDescriptionRequired
  else if description.utf8ByteSize > 500 then .error .missionDescriptionTooLong
  else .ok ()

/-- The function `validateMissionDates`. -/
def validateMissionDates (startDate endDate : Time) : Except Err Unit :=
  if startDate.IsZero || endDate.IsZero then .ok ()
  else if endDate < startDate then .error .endBeforeStart
  else .ok ()

/-- The function `validateCreateMissionRequest`. -/
def validateCreateMissionRequest (req : CreateMissionRequest) : Except Err Unit :=
  match validateMissionName req.Name with
  | .error e => .error e
  | .ok _ =>
    match validateMissionDescription req.Description with
    | .error e => .error e
    | .ok _ =>
      match req.StartDate, req.EndDate with
      | some startDate, some endDate => validateMissionDates startDate endDate
      | _, _ => .ok ()

/-- The method `DB.RunTransaction`: the writes of `fn` are kept when it returns
no error and undone when it returns one. -/
def RunTransaction {α : Type} (fn : Store → Store × Except Err α) (s : Store) :
    Store × Except Err α :=
  match fn s with
  | (s1, .ok a) => (s1, .ok a)
  | (_, .error e) => (s, .error e)

namespace missionService

/-- The loop `for i := range mission.Targets` of `CreateMission`; the target at
position `i` is created by write number `k`. -/
def createTargets (db : Oracle) (now : Time) (missionID : Int) :
    Nat → List Target → Store → Store × Except Err (List Target)
  | _, [], s => (s, .ok [])
  | k, target :: rest, s =>
    match TargetRepository.Create (db k) now
        { target with MissionID := missionID, Status := TargetStatusInit, ID := 0 } s with
    | (s1, .error e) => (s1, .error (.failedCreateTarget e))
    | (s1, .ok created) =>
      match createTargets db now missionID (k + 1) rest s1 with
      | (s2, .error e) => (s2, .error e)
      | (s2, .ok more) => (s2, .ok (created :: more))

/-- The method `missionService.CreateMission`. Writes: 0 the mission row,
`1 + i` the target at position `i`. -/
def CreateMission (db : Oracle) (now : Time) (req : CreateMissionRequest) (s : Store) :
    Store × Except Err MissionResponse :=
  match validateCreateMissionRequest req with
  | .error e => (s, .error e)
  | .ok _ =>
    let mission := req.ToModel
    match RunTransaction (fun tx =>
        match MissionRepository.Create (db 0) now mission tx with
        | (tx1, .error e) => (tx1, .error (.failedCreateMission e))
        | (tx1, .ok createdMission) =>
          if mission.Targets.length > 0 then
            match createTargets db now createdMission.ID 1 mission.Targets tx1 with
            | (tx2, .error e) => (tx2, .error e)
            | (tx2, .ok targets) => (tx2, .ok { createdMission with Targets := targets })
          else (tx1, .ok createdMission)) s with
    | (s1, .error e) => (s1, .error e)
    | (s1, .ok createdMission) => (s1, .ok (MissionFromModel createdMission))

/-- The method `missionService.ListMissions`. -/
def ListMissions (s : Store) : Except Err (List MissionResponse) :=
  match MissionRepository.GetAll s with
  | .error e => .error (.failedGetMissions e)
  | .ok missions => .ok (missions.map MissionFromModel)

/-- The method `missionService.GetMission`. -/
def GetMission (id : Int) (s : Store) : Except Err MissionResponse :=
  match MissionRepository.GetByID id s with
  | .error e => .error (.failedGetMission e)
  | .ok mission => .ok (MissionFromModel mission)

/-- The method `missionService.DeleteMission`. Writes: 0 the deletion of the
targets, 1 the deletion of the mission. -/
def DeleteMission (db : Oracle) (id : Int) (s : Store) : Store × Except Err Unit :=
  match MissionRepository.CheckMissionExists id s with
  | .error e => (s, .error (.failedCheckExistence e))
  | .ok missionExists =>
    if ! missionExists then (s, .error .missionIDNotFound)
    else
      RunTransaction (fun tx =>
        match TargetRepository.DeleteByMissionID (db 0) id tx with
        | (tx1, .error e) => (tx1, .error (.failedDeleteTargets e))
        | (tx1, .ok _) =>
          match MissionRepository.Delete (db 1) id tx1 with
          | (tx2, .error e) => (tx2, .error (.failedDeleteMission e))
          | (tx2, .ok _) => (tx2, .ok ())) s

/-- The method `missionService.AssignCatToMission`. Writes: 0 the mission
row, 1 the cat row. -/
def AssignCatToMission (db : Oracle) (now : Time) (missionID catID : Int) (s : Store) :
    Store × Except Err MissionResponse :=
  match RunTransaction (fun tx =>
      match MissionRepository.AssignCatToMission (db 0) now missionID catID tx with
      | (tx1, .error e) => (tx1, .error (.failedAssignMission e))
      | (tx1, .ok _) =>
        match CatRepository.AssignToMission (db 1) now catID missionID tx1 with
        | (tx2, .error e) => (tx2, .error (.failedAssignCat e))
        | (tx2, .ok _) => (tx2, .ok ())) s with
  | (s1, .error e) => (s1, .error e)
  | (s1, .ok _) =>
    match MissionRepository.GetByID missionID s1 with
    | .error e => (s1, .error (.failedGetUpdatedMission e))
    | .ok mission => (s1, .ok (MissionFromModel mission))

/-- The method `missionService.AddTargetToMission`. Writes: 0 the creation of
the target. -/
def AddTargetToMission (db : Oracle) (now : Time) (missionID : Int) (req : AddTargetRequest)
    (s : Store) : Store × Except Err TargetResponse :=
  match MissionRepository.GetByID missionID s with
  | .error e => (s, .error (.missionNotFound e))
  | .ok mission =>
    if ! mission.CanAddTarget then (s, .error .maxTargets)
    else if mission.Targets.any (fun target => target.Name = req.Name) then
      (s, .error .targetNameExists)
    else
      let target := req.ToTargetModel missionID
      match TargetRepository.Create (db 0) now target s with
      | (s1, .error e) => (s1, .error (.failedCreateTarget e))
      | (s1, .ok createdTarget) => (s1, .ok (TargetResponse.ofTarget createdTarget))

/-- The method `missionService.DeleteTargetFromMission`. Calls: 0 the read
of the target, 1 the deletion. -/
def DeleteTargetFromMission (db : Oracle) (now : Time) (missionID targetID : Int)
    (s : Store) : Store × Except Err Unit :=
  match TargetRepository.GetByID (db 0) targetID s with
  | .error e => (s, .error (.targetNotFound e))
  | .ok target =>
    if target.MissionID ≠ missionID then (s, .error .targetNotInMission)
    else if target.Status ≠ "init" then (s, .error .onlyInitDeletable)
    else
      match MissionRepository.GetByID missionID s with
      | .error e => (s, .error (.missionNotFound e))
      | .ok mission =>
        if ! mission.HasMinimumTargets || mission.Targets.length ≤ 1 then
          (s, .error .atLeastOneTarget)
        else
          match TargetRepository.Delete (db 1) now targetID s with
          | (s1, .error e) => (s1, .error (.failedDeleteTarget e))
          | (s1, .ok _) => (s1, .ok ())

/-- The loop of `GetCatMission`: the first mission whose cat is `catID`. -/
def firstMissionOfCat (catID : Int) : List Mission → Option Mission
  | [] => none
  | mission :: rest =>
    match mission.CatID with
    | some c => if c = catID then some mission else firstMissionOfCat catID rest
    | none => firstMissionOfCat catID rest

/-- The method `missionService.GetCatMission`; `none` is the `nil, nil` result. -/
def GetCatMission (catID : Int) (s : Store) :
    Except Err (Option MissionResponse) :=
  match MissionRepository.GetAll s with
  | .error e => .error (.failedGetMissions e)
  | .ok missions =>
    match firstMissionOfCat catID missions with
    | some mission => .ok (some (MissionFromModel mission))
    | none => .ok none

/-- The method `missionService.checkAndCompleteMission`. Writes: 0 the
mission row, 1 the cat row. -/
def checkAndCompleteMission (db : Oracle) (now : Time) (missionID : Int) (s : Store) :
    Store × Except Err Unit :=
  match MissionRepository.GetByID missionID s with
  | .error e => (s, .error (.failedGetMission e))
  | .ok mission =>
    let allCompleted := mission.Targets.all (fun target => target.Status = "completed")
    if allCompleted && ! mission.IsCompleted then
      let assignedCatID := mission.CatID
      let mission : Mission :=
        { mission with
          IsCompleted := true
          CompletedAt := some now
          EndDate := if mission.EndDate.IsZero then now else mission.EndDate
          CatID := none }
      match MissionRepository.Update (db 0) now mission s with
      | (s1, .error e) => (s1, .error (.failedCompleteMission e))
      | (s1, .ok _) =>
        match assignedCatID with
        | some catID =>
          match CatRepository.UnassignFromMission (db 1) now catID s1 with
          | (s2, .error e) => (s2, .error (.failedUnassignCat e))
          | (s2, .ok _) => (s2, .ok ())
        | none => (s1, .ok ())
    else (s, .ok ())

/-- The test `mission.CatID == nil || *mission.CatID != catID`. -/
def notAssignedTo (mission : Mission) (catID : Int) : Bool :=
  match mission.CatID with
  | none => true
  | some c => c != catID

/-- The method `missionService.UpdateTargetStatus`. Calls: 0 the read of the
target, 1 the write of the status, 2 the second read of the target, 3 and 4
the writes of `checkAndCompleteMission`, whose error is printed and
dropped. -/
def UpdateTargetStatus (db : Oracle) (now : Time) (catID targetID : Int) (status : String)
    (s : Store) : Store × Except Err TargetResponse :=
  match TargetRepository.GetByID (db 0) targetID s with
  | .error e => (s, .error (.targetNotFound e))
  | .ok target =>
    match MissionRepository.GetByID target.MissionID s with
    | .error e => (s, .error (.missionNotFound e))
    | .ok mission =>
      if notAssignedTo mission catID then (s, .error .notCatsMission)
      else if target.Status = "completed" then (s, .error .statusFinal)
      else
        match TargetRepository.UpdateStatus (db 1) now targetID status s with
        | (s1, .error e) => (s1, .error (.failedUpdateStatus e))
        | (s1, .ok _) =>
          match TargetRepository.GetByID (db 2) targetID s1 with
          | .error e => (s1, .error (.failedGetUpdatedTarget e))
          | .ok updatedTarget =>
            let s2 :=
              if status = "completed" then
                (checkAndCompleteMission (db.shift 3) now target.MissionID s1).1
              else s1
            (s2, .ok (TargetResponse.ofTarget updatedTarget))

/-- The method `missionService.UpdateTargetNotes`. Calls: 0 the read of the
target, 1 the write of the notes, 2 the second read of the target. -/
def UpdateTargetNotes (db : Oracle) (now : Time) (catID targetID : Int) (notes : String)
    (s : Store) : Store × Except Err TargetResponse :=
  match TargetRepository.GetByID (db 0) targetID s with
  | .error e => (s, .error (.targetNotFound e))
  | .ok target =>
    match MissionRepository.GetByID target.MissionID s with
    | .error e => (s, .error (.missionNotFound e))
    | .ok mission =>
      if notAssignedTo mission catID then (s, .error .notCatsMission)
      else if target.Status = "completed" then (s, .error .targetFinal)
      else
        match TargetRepository.UpdateNotes (db 1) now targetID notes s with
        | (s1, .error e) => (s1, .error (.failedUpdateNotes e))
        | (s1, .ok _) =>
          match TargetRepository.GetByID (db 2) targetID s1 with
          | .error e => (s1, .error (.failedGetUpdatedTarget e))
          | .ok updatedTarget => (s1, .ok (TargetResponse.ofTarget updatedTarget))

end missionService

/-! ## Runs of the service -/

/-- A call of one of the mutating operations of the mission service. -/
inductive Op where
  | createMission (req : CreateMissionRequest)
  | deleteMission (id : Int)
  | assignCat (missionID catID : Int)
  | addTarget (missionID : Int) (req : AddTargetRequest)
  | deleteTarget (missionID targetID : Int)
  | updateStatus (catID targetID : Int) (status : String)
  | updateNotes (catID targetID : Int) (notes : String)
deriving DecidableEq, Repr

/-- The store after a call, and whether the call returned without error. -/
def Op.run (db : Oracle) (now : Time) (s : Store) : Op → Store × Bool
  | .createMission req =>
    let r := missionService.CreateMission db now req s
    (r.1, r.2.toBool)
  | .deleteMission id =>
    let r := missionService.DeleteMission db id s
    (r.1, r.2.toBool)
  | .assignCat missionID catID =>
    let r := missionService.AssignCatToMission db now missionID catID s
    (r.1, r.2.toBool)
  | .addTarget missionID req =>
    let r := missionService.AddTargetToMission db now missionID req s
    (r.1, r.2.toBool)
  | .deleteTarget missionID targetID =>
    let r := missionService.DeleteTargetFromMission db now missionID targetID s
    (r.1, r.2.toBool)
  | .updateStatus catID targetID status =>
    let r := missionService.UpdateTargetStatus db now catID targetID status s
    (r.1, r.2.toBool)
  | .updateNotes catID targetID notes =>
    let r := missionService.UpdateTargetNotes db now catID targetID notes s
    (r.1, r.2.toBool)

/-- The states reached from a store that holds only cats by calls of the
mission service, whatever their outcome. -/
inductive Reachable (cats : List SpyCat) : Store → Prop where
  | init : Reachable cats (Store.init cats)
  | step {s : Store} (op : Op) (db : Oracle) (now : Time) :
      Reachable cats s → Reachable cats (op.run db now s).1

/-- The states reached from a store that holds only cats by calls of the
mission service that return without error. -/
inductive ReachableOk (cats : List SpyCat) : Store → Prop where
  | init : ReachableOk cats (Store.init cats)
  | step {s : Store} (op : Op) (db : Oracle) (now : Time) :
      ReachableOk cats s → (op.run db now s).2 = true → ReachableOk cats (op.run db now s).1

open missionService

/-! ## Test data -/

def cat5 : SpyCat :=
  { ID := 5, Name := "Tom", YearsOfExperience := 3, Breed := "Siamese", Salary := 100000,
    MissionID := none, CreatedAt := 1, UpdatedAt := 1 }

def twoTargets : CreateMissionRequest :=
  { Name := "Op", Description := "d", StartDate := none, EndDate := none,
    Targets := [⟨"A", "X"⟩, ⟨"B", "Y"⟩] }

/-- One mission with the targets A and B, no cat. -/
def created : Store := (CreateMission Oracle.allOk 10 twoTargets (Store.init [cat5])).1

/-- Cat 5 is assigned to the mission. -/
def assigned : Store := (AssignCatToMission Oracle.allOk 11 1 5 created).1

/-- Target A is completed, target B is pending. -/
def oneDone : Store := (UpdateTargetStatus Oracle.allOk 12 5 1 "completed" assigned).1

/-- Both targets have status completed and the mission is not yet marked. -/
def bothDone : Store := (TargetRepository.UpdateStatus true 13 2 "completed" oneDone).1

/-- Target B is completed too: the mission is completed and cat 5 is free. -/
def allDone : Store := (UpdateTargetStatus Oracle.allOk 13 5 2 "completed" oneDone).1

/-- The mission row of `assigned`, without any target row. -/
def noTargets : Store := { assigned with targets := [] }

/-! ## Auxiliary definitions of the statements -/

/-- The row written by `checkAndCompleteMission` for the mission row `m`
whose preloaded cat is `cat`: `Save` writes `cat_id` from the preloaded cat,
so that the cat reference of the row is cleared only when no cat was
preloaded. -/
def completedRow (now : Time) (cat : Option SpyCat) (m : Mission) : Mission :=
  { m with
    IsCompleted := true
    CompletedAt := some now
    EndDate := if m.EndDate.IsZero then now else m.EndDate
    CatID := cat.map (fun c => c.ID)
    UpdatedAt := now
    Cat := none
    Targets := [] }

/-- The value of a target status in the order `init < in_progress < completed`
of the specification; `none` for any other string. -/
def statusRank (status : String) : Option Nat :=
  if status = "init" then some 0
  else if status = "in_progress" then some 1
  else if status = "completed" then some 2
  else none

/-- Target A is in progress, target B is pending. -/
def inProgress : Store := (UpdateTargetStatus Oracle.allOk 12 5 1 "in_progress" assigned).1

/-- Cat 5 reports target B with a status that is not one of the three. -/
def oddStatus : Store := (UpdateTargetStatus Oracle.allOk 13 5 2 "done" oneDone).1

/-- The rows written by the loop of `CreateMission` for the targets `ts`,
the first of them with id `n`. -/
def newTargets (now : Time) (missionID : Int) : Int → List Target → List Target
  | _, [] => []
  | n, t :: ts =>
    { t with
      MissionID := missionID
      Status := TargetStatusInit
      ID := n
      CreatedAt := if t.CreatedAt.IsZero then now else t.CreatedAt
      UpdatedAt := if t.UpdatedAt.IsZero then now else t.UpdatedAt } ::
      newTargets now missionID (n + 1) ts

/-- The mission row written by `CreateMission` for the request `req`. -/
def newMissionRow (now : Time) (id : Int) (req : CreateMissionRequest) : Mission :=
  { req.ToModel with ID := id, CreatedAt := now, UpdatedAt := now, Cat := none, Targets := [] }

/-- The store after an accepted `CreateMission`. -/
def Store.withMission (s : Store) (now : Time) (req : CreateMissionRequest) : Store :=
  { s with
    missions := s.missions ++ [newMissionRow now s.nextMissionID req]
    targets := s.targets ++ newTargets now s.nextMissionID s.nextTargetID req.ToModel.Targets
    nextMissionID := s.nextMissionID + 1
    nextTargetID := s.nextTargetID + req.ToModel.Targets.length }

/-- The entity that `CreateMission` hands to `MissionFromModel`. -/
def createdEntity (now : Time) (req : CreateMissionRequest) (s : Store) : Mission :=
  { req.ToModel with
    ID := s.nextMissionID
    CreatedAt := now
    UpdatedAt := now
    Targets := newTargets now s.nextMissionID s.nextTargetID req.ToModel.Targets }

/-- The row written by `AddTargetToMission`. -/
def addedTarget (now : Time) (missionID : Int) (req : AddTargetRequest) (s : Store) : Target :=
  { req.ToTargetModel missionID with ID := s.nextTargetID, CreatedAt := now, UpdatedAt := now }

/-- The store after the two accepted writes of `AssignCatToMission`. -/
def Store.withAssignment (s : Store) (now : Time) (missionID catID : Int) : Store :=
  (CatRepository.AssignToMission true now catID missionID
    (MissionRepository.AssignCatToMission true now missionID catID s).1).1

/-- The store after the two accepted writes of `DeleteMission`. -/
def Store.withoutMission (s : Store) (id : Int) : Store :=
  { s with
    targets := s.targets.filter (fun t => ¬ t.MissionID = id)
    missions := s.missions.filter (fun m => ¬ m.ID = id) }

/-- A target is added to the completed mission. -/
def reopened : Store := (AddTargetToMission Oracle.allOk 14 1 ⟨"C", "Z", none⟩ allDone).1

/-- The pending target B is deleted: only the completed target A is left. -/
def pendingDeleted : Store := (DeleteTargetFromMission Oracle.allOk 13 1 2 oneDone).1

/-- The number of targets of mission `id` among the rows `l` that a scoped query sees. -/
def targetCount (l : List Target) (id : Int) : Nat :=
  l.countP (fun t => decide (t.MissionID = id ∧ t.visible = true))

/-- The invariant of the stores that the service produces: the ids are below
the sequences, the target ids are distinct, and every mission has between
one and three targets. -/
structure Store.WellFormed (s : Store) : Prop where
  missionIDs : ∀ m ∈ s.missions, m.ID < s.nextMissionID
  targetMissions : ∀ t ∈ s.targets, t.MissionID < s.nextMissionID
  targetIDs : ∀ t ∈ s.targets, t.ID < s.nextTargetID
  nodup : (s.targets.map (fun t => t.ID)).Nodup
  count : ∀ m ∈ s.missions, 1 ≤ targetCount s.targets m.ID ∧ targetCount s.targets m.ID ≤ 3

/-- The test of the dates made by `CreateMission`, in elementary terms: when
both dates are given and neither is the zero time, the end date is not
before the start date. -/
def datesInOrder : Option Time → Option Time → Prop
  | some startDate, some endDate => startDate = 0 ∨ endDate = 0 ∨ startDate ≤ endDate
  | _, _ => True

instance : (a b : Option Time) → Decidable (datesInOrder a b)
  | some startDate, some endDate =>
    inferInstanceAs (Decidable (startDate = 0 ∨ endDate = 0 ∨ startDate ≤ endDate))
  | some _, none => isTrue trivial
  | none, _ => isTrue trivial

/-- The requests that `CreateMission` accepts, in elementary terms. Lengths
are counted in bytes, as Go's `len` does; the name and the description of the
mission are measured after `TrimSpace`, the names and countries of the
targets as they are given. -/
def CreateMissionRequest.Acceptable (req : CreateMissionRequest) : Prop :=
  TrimSpace req.Name ≠ "" ∧ (TrimSpace req.Name).utf8ByteSize ≤ 100 ∧
  TrimSpace req.Description ≠ "" ∧ (TrimSpace req.Description).utf8ByteSize ≤ 500 ∧
  1 ≤ req.Targets.length ∧ req.Targets.length ≤ 3 ∧
  (∀ t ∈ req.Targets, t.Name ≠ "" ∧ t.Country ≠ "" ∧
    t.Name.utf8ByteSize ≤ 100 ∧ t.Country.utf8ByteSize ≤ 100) ∧
  (req.Targets.map (fun t => t.Name)).Nodup ∧
  datesInOrder req.StartDate req.EndDate

instance (req : CreateMissionRequest) : Decidable req.Acceptable := by
  delta CreateMissionRequest.Acceptable
  exact inferInstance

/-- Both dates are given, the end date is the zero time and lies before the start date. -/
def endAtZeroTime : CreateMissionRequest :=
  { Name := "Op", Description := "d", StartDate := some 5, EndDate := some 0,
    Targets := [⟨"A", "X"⟩] }

/-- A name that is not empty and consists of two blanks. -/
def blankName : CreateMissionRequest :=
  { Name := "  ", Description := "d", StartDate := none, EndDate := none,
    Targets := [⟨"A", "X"⟩] }

/-- A second request, with one target. -/
def secondRequest : CreateMissionRequest :=
  { Name := "Op2", Description := "d", StartDate := none, EndDate := none,
    Targets := [⟨"C", "Z"⟩] }

/-- Two missions, no cat assigned. -/
def twoMissions : Store := (CreateMission Oracle.allOk 11 secondRequest created).1

/-- Cat 5 is assigned to mission 1 and then to mission 2. -/
def assignedTwice : Store :=
  (AssignCatToMission Oracle.allOk 13 2 5 (AssignCatToMission Oracle.allOk 12 1 5 twoMissions).1).1

/-- A target without name and without country is added to the mission of `created`. -/
def namelessTarget : Store := (AddTargetToMission Oracle.allOk 11 1 ⟨"", "", none⟩ created).1

/-- No two rows that a query sees for the same mission have the same name. -/
def Store.NamesUnique (s : Store) : Prop :=
  s.targets.Pairwise (fun a b =>
    a.MissionID = b.MissionID → a.visible = true → b.visible = true → a.Name ≠ b.Name)

/-- A target named `a` is added to the mission of `created`, which has a target named `A`. -/
def caseNames : Store := (AddTargetToMission Oracle.allOk 11 1 ⟨"a", "Z", none⟩ created).1

/-- A decimal digit. -/
def IsDigit (c : Char) : Prop := 48 ≤ c.toNat ∧ c.toNat ≤ 57

instance (c : Char) : Decidable (IsDigit c) := by
  delta IsDigit
  exact inferInstance

/-- The number written by a list of decimal digits, read after `n`. -/
def decimalFrom (n : Nat) (digits : List Char) : Nat :=
  digits.foldl (fun k c => k * 10 + (c.toNat - 48)) n

/-- The number written by a list of decimal digits. -/
def decimalValue (digits : List Char) : Nat := decimalFrom 0 digits

/-- The string `s` is a base-10 integer literal of value `v`: an optional sign
`+` or `-` followed by one or more decimal digits. -/
def IsDecimalLiteral (s : String) (v : Int) : Prop :=
  ∃ digits : List Char, digits ≠ [] ∧ (∀ c ∈ digits, IsDigit c) ∧
    ((s.data = digits ∧ v = decimalValue digits) ∨
     (s.data = '+' :: digits ∧ v = decimalValue digits) ∨
     (s.data = '-' :: digits ∧ v = - (decimalValue digits : Int)))

/-! ## Lemmas on the store -/

theorem mem_targetsOf {s : Store} {id : Int} {t : Target} :
    t ∈ s.targetsOf id ↔ t ∈ s.targets ∧ t.MissionID = id ∧ t.visible = true := by
  unfold Store.targetsOf
  rw [(List.perm_insertionSort _ _).mem_iff]
  simp [List.mem_filter]

theorem length_targetsOf (s : Store) (id : Int) :
    (s.targetsOf id).length
      = (s.targets.filter (fun t => t.MissionID = id ∧ t.visible)).length := by
  unfold Store.targetsOf
  exact List.length_insertionSort _ _

theorem find?_map_sameID (l : List Mission) (id : Int) (g : Mission → Mission)
    (hg : ∀ m, (g m).ID = m.ID) :
    (l.map g).find? (fun m => m.ID = id) = (l.find? (fun m => m.ID = id)).map g := by
  rw [List.find?_map]
  have : ((fun m : Mission => decide (m.ID = id)) ∘ g) = (fun m : Mission => decide (m.ID = id)) := by
    funext m
    simp [Function.comp, hg]
  rw [this]

theorem find?_ID_eq {l : List Mission} {id : Int} {m : Mission}
    (h : l.find? (fun m => m.ID = id) = some m) : m.ID = id := by
  have := List.find?_some h
  simpa using this

theorem any_of_find? {l : List Mission} {id : Int} {m : Mission}
    (h : l.find? (fun m => m.ID = id) = some m) : l.any (fun x => x.ID = m.ID) = true := by
  rw [List.any_eq_true]
  exact ⟨m, List.mem_of_find?_eq_some h, by simp⟩

/-! ## `checkAndCompleteMission` -/

theorem check_notFound (db : Oracle) (now : Time) (id : Int) (s : Store)
    (h : s.missions.find? (fun m => m.ID = id) = none) :
    checkAndCompleteMission db now id s = (s, .error (.failedGetMission .recordNotFound)) := by
  simp [checkAndCompleteMission, MissionRepository.GetByID, h]

theorem check_noop (db : Oracle) (now : Time) (id : Int) (s : Store) (m : Mission)
    (hfind : s.missions.find? (fun m => m.ID = id) = some m)
    (h : m.IsCompleted = true ∨ ∃ t ∈ s.targetsOf id, t.Status ≠ "completed") :
    checkAndCompleteMission db now id s = (s, .ok ()) := by
  have hid := find?_ID_eq hfind
  unfold checkAndCompleteMission MissionRepository.GetByID
  simp only [hfind, Store.preload, hid]
  rcases h with h | ⟨t, ht, hne⟩
  · simp [h]
  · have : (s.targetsOf id).all (fun target => decide (target.Status = "completed")) = false := by
      rw [List.all_eq_false]
      exact ⟨t, ht, by simpa using hne⟩
    simp [this]

theorem check_writeRefused (db : Oracle) (now : Time) (id : Int) (s : Store) (m : Mission)
    (hfind : s.missions.find? (fun m => m.ID = id) = some m)
    (hnc : m.IsCompleted = false)
    (hall : ∀ t ∈ s.targetsOf id, t.Status = "completed")
    (h0 : db 0 = false) :
    checkAndCompleteMission db now id s = (s, .error (.failedCompleteMission .failure)) := by
  have hid := find?_ID_eq hfind
  have : (s.targetsOf id).all (fun target => decide (target.Status = "completed")) = true := by
    rw [List.all_eq_true]
    intro t ht
    simpa using hall t ht
  unfold checkAndCompleteMission MissionRepository.GetByID
  simp [hfind, Store.preload, hid, this, hnc, MissionRepository.Update, h0]

theorem check_completes (db : Oracle) (now : Time) (id : Int) (s : Store) (m : Mission)
    (hfind : s.missions.find? (fun m => m.ID = id) = some m)
    (hnc : m.IsCompleted = false)
    (hall : ∀ t ∈ s.targetsOf id, t.Status = "completed")
    (h0 : db 0 = true) :
    checkAndCompleteMission db now id s =
      match m.CatID with
      | some c =>
        if db 1 then
          ({ s with
              missions := s.missions.map (fun x =>
                if x.ID = id then completedRow now (s.catOf m.CatID) m else x)
              cats := s.cats.map (fun k =>
                if k.ID = c then { k with MissionID := none, UpdatedAt := now } else k) },
            .ok ())
        else
          ({ s with
              missions := s.missions.map (fun x =>
                if x.ID = id then completedRow now (s.catOf m.CatID) m else x) },
            .error (.failedUnassignCat .failure))
      | none =>
        ({ s with
            missions := s.missions.map (fun x =>
              if x.ID = id then completedRow now (s.catOf m.CatID) m else x) },
          .ok ()) := by
  have hid := find?_ID_eq hfind
  have hany := any_of_find? hfind
  subst hid
  have : (s.targetsOf m.ID).all (fun target => decide (target.Status = "completed")) = true := by
    rw [List.all_eq_true]
    intro t ht
    simpa using hall t ht
  unfold checkAndCompleteMission MissionRepository.GetByID
  simp only [hfind, Store.preload, this, hnc, MissionRepository.Update, h0]
  cases hc : m.CatID with
  | none =>
    simp [hany, Mission.row, completedRow, hc, Store.catOf]
  | some c =>
    cases hk : s.catOf (some c) <;> cases h1 : db 1 <;>
      simp [hany, Mission.row, completedRow, hc, CatRepository.UnassignFromMission, h1, hk]

/-- The row of a cat after the write of `UnassignFromMission`. -/
theorem find?_cat_after_unassign (now : Time) (c : Int) (l : List SpyCat) (k : SpyCat)
    (hk : l.find? (fun x => x.ID = c) = some k) :
    (l.map (fun x => if x.ID = c then { x with MissionID := none, UpdatedAt := now } else x)).find?
        (fun x => x.ID = c)
      = some { k with MissionID := none, UpdatedAt := now } := by
  induction l with
  | nil => cases hk
  | cons a l ih =>
    by_cases ha : a.ID = c
    · simp only [List.find?_cons, ha, decide_True] at hk
      cases hk
      simp [List.find?_cons, ha]
    · simp only [List.find?_cons, ha, decide_False] at hk
      rw [List.map_cons, if_neg ha, List.find?_cons_of_neg _ (by simpa using ha)]
      exact ih hk

theorem find?_after_complete (now : Time) (cat : Option SpyCat) (id : Int) (l : List Mission)
    (m : Mission) (hfind : l.find? (fun m => m.ID = id) = some m) :
    (l.map (fun x => if x.ID = id then completedRow now cat m else x)).find?
        (fun x => x.ID = id)
      = some (completedRow now cat m) := by
  have hid := find?_ID_eq hfind
  rw [find?_map_sameID _ _ _ (by
    intro x
    by_cases hx : x.ID = id
    · simp [hx, completedRow, hid]
    · simp [hx]), hfind]
  simp [hid]

theorem check_fst_noop (db : Oracle) (now : Time) (id : Int) (s : Store) (m : Mission)
    (hfind : s.missions.find? (fun m => m.ID = id) = some m) (hc : m.IsCompleted = true) :
    (checkAndCompleteMission db now id s).1 = s := by
  rw [check_noop _ _ _ _ _ hfind (Or.inl hc)]

theorem check_second_run (db db' : Oracle) (now now' : Time) (id : Int) (s : Store)
    (h : db 0 = true ∨ db' 0 = false) :
    (checkAndCompleteMission db' now' id (checkAndCompleteMission db now id s).1).1
      = (checkAndCompleteMission db now id s).1 := by
  cases hfind : s.missions.find? (fun m => m.ID = id) with
  | none => simp [check_notFound _ _ _ _ hfind]
  | some m =>
    by_cases hdone : m.IsCompleted = true ∨ ∃ t ∈ s.targetsOf id, t.Status ≠ "completed"
    · simp [check_noop _ _ _ _ _ hfind hdone]
    · push_neg at hdone
      obtain ⟨hnc, hall⟩ := hdone
      have hnc : m.IsCompleted = false := by simpa using hnc
      cases h0 : db 0 with
      | false =>
        have h0' : db' 0 = false := by
          rcases h with h | h
          · rw [h0] at h; cases h
          · exact h
        rw [check_writeRefused db now id s m hfind hnc hall h0]
        rw [check_writeRefused db' now' id s m hfind hnc hall h0']
      | true =>
        rw [check_completes db now id s m hfind hnc hall h0]
        have key := find?_after_complete now (s.catOf m.CatID) id s.missions m hfind
        cases hc : m.CatID with
        | none =>
          rw [hc] at key
          refine check_fst_noop db' now' id _ (completedRow now (s.catOf none) m) ?_ rfl
          exact key
        | some c =>
          rw [hc] at key
          cases h1 : db 1 with
          | false =>
            refine check_fst_noop db' now' id _ (completedRow now (s.catOf (some c)) m) ?_ rfl
            exact key
          | true =>
            refine check_fst_noop db' now' id _ (completedRow now (s.catOf (some c)) m) ?_ rfl
            exact key

/-! ## `UpdateTargetStatus` and `UpdateTargetNotes` -/

theorem find?_map_pres {α : Type} (p : α → Bool) (f : α → α) (l : List α)
    (h : ∀ x, p (f x) = p x) : (l.map f).find? p = (l.find? p).map f := by
  rw [List.find?_map]
  have : p ∘ f = p := by
    funext x
    simp [Function.comp, h]
  rw [this]

theorem target_found {l : List Target} {tid : Int} {t : Target}
    (h : l.find? (fun x => x.ID = tid ∧ x.visible) = some t) :
    t ∈ l ∧ t.ID = tid ∧ t.visible = true := by
  have h1 := List.find?_some h
  have h2 := List.mem_of_find?_eq_some h
  simp at h1
  exact ⟨h2, h1.1, h1.2⟩

/-- A rewrite of some rows that keeps their id and their soft-delete column
does not change which row a lookup by id finds. -/
theorem find?_target_rewrite (l : List Target) (tid : Int) (c : Target → Prop)
    [DecidablePred c] (g : Target → Target) (hID : ∀ x, (g x).ID = x.ID)
    (hDel : ∀ x, (g x).DeletedAt = x.DeletedAt) :
    (l.map (fun x => if c x then g x else x)).find? (fun x => x.ID = tid ∧ x.visible)
      = (l.find? (fun x => x.ID = tid ∧ x.visible)).map (fun x => if c x then g x else x) := by
  apply find?_map_pres (fun x : Target => decide (x.ID = tid ∧ x.visible = true))
  intro x
  by_cases h : c x <;> simp [h, hID, hDel, Target.visible]

theorem reread_after_UpdateStatus (now : Time) (tid : Int) (status : String) (s : Store)
    (t : Target) (ht : s.targets.find? (fun x => x.ID = tid ∧ x.visible) = some t) :
    TargetRepository.GetByID true tid (TargetRepository.UpdateStatus true now tid status s).1
      = .ok { t with Status := status, UpdatedAt := now } := by
  obtain ⟨_, hid, hvis⟩ := target_found ht
  unfold TargetRepository.GetByID TargetRepository.UpdateStatus
  simp only [if_true]
  rw [find?_target_rewrite _ tid (fun x => x.ID = tid ∧ x.visible = true)
    (fun x => { x with Status := status, UpdatedAt := now }) (fun _ => rfl) (fun _ => rfl), ht]
  simp [hid, hvis]

theorem reread_after_UpdateNotes (now : Time) (tid : Int) (notes : String) (s : Store)
    (t : Target) (ht : s.targets.find? (fun x => x.ID = tid ∧ x.visible) = some t) :
    TargetRepository.GetByID true tid (TargetRepository.UpdateNotes true now tid notes s).1
      = .ok { t with Notes := some notes, UpdatedAt := now } := by
  obtain ⟨_, hid, hvis⟩ := target_found ht
  unfold TargetRepository.GetByID TargetRepository.UpdateNotes
  simp only [if_true]
  rw [find?_target_rewrite _ tid (fun x => x.ID = tid ∧ x.visible = true)
    (fun x => { x with Notes := some notes, UpdatedAt := now }) (fun _ => rfl) (fun _ => rfl), ht]
  simp [hid, hvis]

theorem target_GetByID_some {s : Store} {tid : Int} {t : Target}
    (h : s.targets.find? (fun x => x.ID = tid ∧ x.visible) = some t) :
    TargetRepository.GetByID true tid s = .ok t := by
  unfold TargetRepository.GetByID
  rw [if_pos rfl, h]

theorem target_GetByID_none {s : Store} {tid : Int}
    (h : s.targets.find? (fun x => x.ID = tid ∧ x.visible) = none) :
    TargetRepository.GetByID true tid s = .error .recordNotFound := by
  unfold TargetRepository.GetByID
  rw [if_pos rfl, h]

theorem find?_of_target_GetByID {s : Store} {tid : Int} {t : Target}
    (h : TargetRepository.GetByID true tid s = .ok t) :
    s.targets.find? (fun x => x.ID = tid ∧ x.visible) = some t := by
  unfold TargetRepository.GetByID at h
  rw [if_pos rfl] at h
  split at h
  · rename_i u hu
    cases h
    exact hu
  · cases h

theorem target_GetByID_failed (tid : Int) (s : Store) :
    TargetRepository.GetByID false tid s = .error .failure := rfl

theorem mission_GetByID_some {s : Store} {id : Int} {m : Mission}
    (h : s.missions.find? (fun x => x.ID = id) = some m) :
    MissionRepository.GetByID id s = .ok (s.preload m) := by
  unfold MissionRepository.GetByID
  rw [h]

theorem mission_GetByID_none {s : Store} {id : Int}
    (h : s.missions.find? (fun x => x.ID = id) = none) :
    MissionRepository.GetByID id s = .error .recordNotFound := by
  unfold MissionRepository.GetByID
  rw [h]

theorem notAssignedTo_preload (s : Store) (m : Mission) (c : Int) :
    notAssignedTo (s.preload m) c = notAssignedTo m c := rfl

theorem notAssignedTo_eq_false {m : Mission} {c : Int} :
    notAssignedTo m c = false ↔ m.CatID = some c := by
  unfold notAssignedTo
  cases h : m.CatID with
  | none => simp
  | some c' => simp

/-- The result of `UpdateTargetStatus` once its checks have passed and the
status is written: the second read of the target decides between the
updated target and the error "failed to get updated target", and in both
cases the status stays written. -/
theorem UpdateTargetStatus_written (db : Oracle) (now : Time) (c tid : Int) (status : String)
    (s : Store) (t : Target) (m : Mission)
    (ht : s.targets.find? (fun x => x.ID = tid ∧ x.visible) = some t)
    (hm : s.missions.find? (fun x => x.ID = t.MissionID) = some m)
    (hcat : m.CatID = some c) (hpending : t.Status ≠ "completed")
    (h0 : db 0 = true) (h1 : db 1 = true) :
    UpdateTargetStatus db now c tid status s =
      if db 2 = true then
        (if status = "completed" then
            (checkAndCompleteMission (db.shift 3) now t.MissionID
              (TargetRepository.UpdateStatus true now tid status s).1).1
          else (TargetRepository.UpdateStatus true now tid status s).1,
          .ok (TargetResponse.ofTarget { t with Status := status, UpdatedAt := now }))
      else
        ((TargetRepository.UpdateStatus true now tid status s).1,
          .error (.failedGetUpdatedTarget .failure)) := by
  have hre := reread_after_UpdateStatus now tid status s t ht
  have hna : notAssignedTo m c = false := notAssignedTo_eq_false.mpr hcat
  unfold UpdateTargetStatus
  rw [h0, h1, target_GetByID_some ht]
  simp only [mission_GetByID_some hm, notAssignedTo_preload, hna, Bool.false_eq_true,
    if_false, hpending]
  have hw : TargetRepository.UpdateStatus true now tid status s
      = ((TargetRepository.UpdateStatus true now tid status s).1, .ok ()) := by
    simp [TargetRepository.UpdateStatus]
  rw [hw]
  simp only
  cases h2 : db 2 with
  | false =>
    rw [target_GetByID_failed]
    simp
  | true =>
    rw [hre]
    simp

theorem UpdateTargetStatus_accepted (db : Oracle) (now : Time) (c tid : Int) (status : String)
    (s : Store) (t : Target) (m : Mission)
    (ht : s.targets.find? (fun x => x.ID = tid ∧ x.visible) = some t)
    (hm : s.missions.find? (fun x => x.ID = t.MissionID) = some m)
    (hcat : m.CatID = some c) (hpending : t.Status ≠ "completed")
    (h0 : db 0 = true) (h1 : db 1 = true) (h2 : db 2 = true) :
    UpdateTargetStatus db now c tid status s =
      (if status = "completed" then
          (checkAndCompleteMission (db.shift 3) now t.MissionID
            (TargetRepository.UpdateStatus true now tid status s).1).1
        else (TargetRepository.UpdateStatus true now tid status s).1,
        .ok (TargetResponse.ofTarget { t with Status := status, UpdatedAt := now })) := by
  rw [UpdateTargetStatus_written db now c tid status s t m ht hm hcat hpending h0 h1, if_pos h2]

theorem targets_completed_after_last (now : Time) (tid : Int) (s : Store) (t : Target)
    (hothers : ∀ x ∈ s.targets, x.MissionID = t.MissionID → x.visible = true → x.ID ≠ tid →
      x.Status = "completed") :
    ∀ x ∈ (TargetRepository.UpdateStatus true now tid "completed" s).1.targetsOf t.MissionID,
      x.Status = "completed" := by
  intro x hx
  rw [mem_targetsOf] at hx
  obtain ⟨hmem, hmid, hvis⟩ := hx
  simp only [TargetRepository.UpdateStatus, if_true, List.mem_map] at hmem
  obtain ⟨y, hy, hyx⟩ := hmem
  by_cases hc : y.ID = tid ∧ y.visible = true
  · rw [if_pos hc] at hyx
    rw [← hyx]
  · rw [if_neg hc] at hyx
    subst hyx
    exact hothers y hy hmid hvis (fun h => hc ⟨h, hvis⟩)

/-- The result of `UpdateTargetNotes` once its checks have passed and the
notes are written. -/
theorem UpdateTargetNotes_written (db : Oracle) (now : Time) (c tid : Int) (notes : String)
    (s : Store) (t : Target) (m : Mission)
    (ht : s.targets.find? (fun x => x.ID = tid ∧ x.visible) = some t)
    (hm : s.missions.find? (fun x => x.ID = t.MissionID) = some m)
    (hcat : m.CatID = some c) (hpending : t.Status ≠ "completed")
    (h0 : db 0 = true) (h1 : db 1 = true) :
    UpdateTargetNotes db now c tid notes s =
      if db 2 = true then
        ((TargetRepository.UpdateNotes true now tid notes s).1,
          .ok (TargetResponse.ofTarget { t with Notes := some notes, UpdatedAt := now }))
      else
        ((TargetRepository.UpdateNotes true now tid notes s).1,
          .error (.failedGetUpdatedTarget .failure)) := by
  have hre := reread_after_UpdateNotes now tid notes s t ht
  have hna : notAssignedTo m c = false := notAssignedTo_eq_false.mpr hcat
  unfold UpdateTargetNotes
  rw [h0, h1, target_GetByID_some ht]
  simp only [mission_GetByID_some hm, notAssignedTo_preload, hna, Bool.false_eq_true,
    if_false, hpending]
  have hw : TargetRepository.UpdateNotes true now tid notes s
      = ((TargetRepository.UpdateNotes true now tid notes s).1, .ok ()) := by
    simp [TargetRepository.UpdateNotes]
  rw [hw]
  simp only
  cases h2 : db 2 with
  | false =>
    rw [target_GetByID_failed]
    simp
  | true =>
    rw [hre]
    simp

theorem UpdateTargetNotes_accepted (db : Oracle) (now : Time) (c tid : Int) (notes : String)
    (s : Store) (t : Target) (m : Mission)
    (ht : s.targets.find? (fun x => x.ID = tid ∧ x.visible) = some t)
    (hm : s.missions.find? (fun x => x.ID = t.MissionID) = some m)
    (hcat : m.CatID = some c) (hpending : t.Status ≠ "completed")
    (h0 : db 0 = true) (h1 : db 1 = true) (h2 : db 2 = true) :
    UpdateTargetNotes db now c tid notes s =
      ((TargetRepository.UpdateNotes true now tid notes s).1,
        .ok (TargetResponse.ofTarget { t with Notes := some notes, UpdatedAt := now })) := by
  rw [UpdateTargetNotes_written db now c tid notes s t m ht hm hcat hpending h0 h1, if_pos h2]

/-- The store after `UpdateTargetNotes` once the notes are written. -/
theorem UpdateTargetNotes_fst (db : Oracle) (now : Time) (c tid : Int) (notes : String)
    (s : Store) (t : Target) (m : Mission)
    (ht : s.targets.find? (fun x => x.ID = tid ∧ x.visible) = some t)
    (hm : s.missions.find? (fun x => x.ID = t.MissionID) = some m)
    (hcat : m.CatID = some c) (hpending : t.Status ≠ "completed")
    (h0 : db 0 = true) (h1 : db 1 = true) :
    (UpdateTargetNotes db now c tid notes s).1
      = (TargetRepository.UpdateNotes true now tid notes s).1 := by
  rw [UpdateTargetNotes_written db now c tid notes s t m ht hm hcat hpending h0 h1]
  split <;> rfl

/-- The store after `UpdateTargetStatus` once the status is written and the
second read of the target has failed. -/
theorem UpdateTargetStatus_rereadFailed (db : Oracle) (now : Time) (c tid : Int)
    (status : String) (s : Store) (t : Target) (m : Mission)
    (ht : s.targets.find? (fun x => x.ID = tid ∧ x.visible) = some t)
    (hm : s.missions.find? (fun x => x.ID = t.MissionID) = some m)
    (hcat : m.CatID = some c) (hpending : t.Status ≠ "completed")
    (h0 : db 0 = true) (h1 : db 1 = true) (h2 : ¬ db 2 = true) :
    UpdateTargetStatus db now c tid status s
      = ((TargetRepository.UpdateStatus true now tid status s).1,
          .error (.failedGetUpdatedTarget .failure)) := by
  rw [UpdateTargetStatus_written db now c tid status s t m ht hm hcat hpending h0 h1, if_neg h2]

/-- Either `UpdateTargetStatus` returns an error and the store it was given,
or the target is read, it and its mission exist, the mission is assigned to
the acting cat, the target is not completed and the status write is
accepted. -/
theorem UpdateTargetStatus_cases (db : Oracle) (now : Time) (c tid : Int) (status : String)
    (s : Store) :
    (∃ e, UpdateTargetStatus db now c tid status s = (s, .error e)) ∨
    (∃ t m, s.targets.find? (fun x => x.ID = tid ∧ x.visible) = some t ∧
      s.missions.find? (fun x => x.ID = t.MissionID) = some m ∧
      m.CatID = some c ∧ t.Status ≠ "completed" ∧ db 0 = true ∧ db 1 = true) := by
  cases h0 : db 0 with
  | false =>
    left
    exact ⟨_, by simp only [UpdateTargetStatus, h0, target_GetByID_failed]; rfl⟩
  | true =>
    cases ht : s.targets.find? (fun x => x.ID = tid ∧ x.visible) with
    | none =>
      left
      exact ⟨_, by simp only [UpdateTargetStatus, h0, target_GetByID_none ht]; rfl⟩
    | some t =>
      cases hm : s.missions.find? (fun x => x.ID = t.MissionID) with
      | none =>
        left
        exact ⟨_, by simp only [UpdateTargetStatus, h0, target_GetByID_some ht,
          mission_GetByID_none hm]; rfl⟩
      | some m =>
        cases hna : notAssignedTo m c with
        | true =>
          left
          exact ⟨_, by simp only [UpdateTargetStatus, h0, target_GetByID_some ht,
            mission_GetByID_some hm, notAssignedTo_preload, hna, if_true]; rfl⟩
        | false =>
          have hcat := notAssignedTo_eq_false.mp hna
          by_cases hp : t.Status = "completed"
          · left
            exact ⟨_, by simp only [UpdateTargetStatus, h0, target_GetByID_some ht,
              mission_GetByID_some hm, notAssignedTo_preload, hna, hp, if_true,
              Bool.false_eq_true, if_false]; rfl⟩
          · cases h1 : db 1 with
            | false =>
              left
              exact ⟨_, by simp only [UpdateTargetStatus, h0, target_GetByID_some ht,
                mission_GetByID_some hm, notAssignedTo_preload, hna, hp, if_true,
                Bool.false_eq_true, if_false, TargetRepository.UpdateStatus, h1]; rfl⟩
            | true =>
              right
              exact ⟨t, m, rfl, hm, hcat, hp, rfl, rfl⟩

/-- The same case analysis for `UpdateTargetNotes`. -/
theorem UpdateTargetNotes_cases (db : Oracle) (now : Time) (c tid : Int) (notes : String)
    (s : Store) :
    (∃ e, UpdateTargetNotes db now c tid notes s = (s, .error e)) ∨
    (∃ t m, s.targets.find? (fun x => x.ID = tid ∧ x.visible) = some t ∧
      s.missions.find? (fun x => x.ID = t.MissionID) = some m ∧
      m.CatID = some c ∧ t.Status ≠ "completed" ∧ db 0 = true ∧ db 1 = true) := by
  cases h0 : db 0 with
  | false =>
    left
    exact ⟨_, by simp only [UpdateTargetNotes, h0, target_GetByID_failed]; rfl⟩
  | true =>
    cases ht : s.targets.find? (fun x => x.ID = tid ∧ x.visible) with
    | none =>
      left
      exact ⟨_, by simp only [UpdateTargetNotes, h0, target_GetByID_none ht]; rfl⟩
    | some t =>
      cases hm : s.missions.find? (fun x => x.ID = t.MissionID) with
      | none =>
        left
        exact ⟨_, by simp only [UpdateTargetNotes, h0, target_GetByID_some ht,
          mission_GetByID_none hm]; rfl⟩
      | some m =>
        cases hna : notAssignedTo m c with
        | true =>
          left
          exact ⟨_, by simp only [UpdateTargetNotes, h0, target_GetByID_some ht,
            mission_GetByID_some hm, notAssignedTo_preload, hna, if_true]; rfl⟩
        | false =>
          have hcat := notAssignedTo_eq_false.mp hna
          by_cases hp : t.Status = "completed"
          · left
            exact ⟨_, by simp only [UpdateTargetNotes, h0, target_GetByID_some ht,
              mission_GetByID_some hm, notAssignedTo_preload, hna, hp, if_true,
              Bool.false_eq_true, if_false]; rfl⟩
          · cases h1 : db 1 with
            | false =>
              left
              exact ⟨_, by simp only [UpdateTargetNotes, h0, target_GetByID_some ht,
                mission_GetByID_some hm, notAssignedTo_preload, hna, hp, if_true,
                Bool.false_eq_true, if_false, TargetRepository.UpdateNotes, h1]; rfl⟩
            | true =>
              right
              exact ⟨t, m, rfl, hm, hcat, hp, rfl, rfl⟩

/-- Either `checkAndCompleteMission` leaves the store as it is, or the
mission is stored, not completed, all its targets are completed, and the
mission row is rewritten as completed (the cat table may change too). -/
theorem check_shape (db : Oracle) (now : Time) (id : Int) (s : Store) :
    (checkAndCompleteMission db now id s).1 = s ∨
    ∃ m, s.missions.find? (fun x => x.ID = id) = some m ∧ m.IsCompleted = false ∧
      (∀ t ∈ s.targetsOf id, t.Status = "completed") ∧
      ∃ cs, (checkAndCompleteMission db now id s).1 =
        { s with
          missions := s.missions.map (fun x =>
            if x.ID = id then completedRow now (s.catOf m.CatID) m else x)
          cats := cs } := by
  cases hfind : s.missions.find? (fun m => m.ID = id) with
  | none =>
    left
    rw [check_notFound _ _ _ _ hfind]
  | some m =>
    by_cases hdone : m.IsCompleted = true ∨ ∃ t ∈ s.targetsOf id, t.Status ≠ "completed"
    · left
      rw [check_noop _ _ _ _ _ hfind hdone]
    · push_neg at hdone
      obtain ⟨hnc, hall⟩ := hdone
      have hnc : m.IsCompleted = false := by simpa using hnc
      cases h0 : db 0 with
      | false =>
        left
        rw [check_writeRefused db now id s m hfind hnc hall h0]
      | true =>
        right
        refine ⟨m, rfl, hnc, hall, ?_⟩
        rw [check_completes db now id s m hfind hnc hall h0]
        cases hc : m.CatID with
        | none => exact ⟨s.cats, rfl⟩
        | some c =>
          cases h1 : db 1 with
          | false => exact ⟨s.cats, rfl⟩
          | true => exact ⟨_, rfl⟩

theorem check_targets (db : Oracle) (now : Time) (id : Int) (s : Store) :
    (checkAndCompleteMission db now id s).1.targets = s.targets := by
  rcases check_shape db now id s with h | ⟨m, _, _, _, cs, h⟩ <;> rw [h]

theorem check_nextIDs (db : Oracle) (now : Time) (id : Int) (s : Store) :
    (checkAndCompleteMission db now id s).1.nextMissionID = s.nextMissionID ∧
    (checkAndCompleteMission db now id s).1.nextTargetID = s.nextTargetID := by
  rcases check_shape db now id s with h | ⟨m, _, _, _, cs, h⟩ <;> rw [h] <;> exact ⟨rfl, rfl⟩

/-! ## Runs -/

theorem ReachableOk.reachable {cats : List SpyCat} {s : Store} (h : ReachableOk cats s) :
    Reachable cats s := by
  induction h with
  | init => exact Reachable.init
  | step op db now _ _ ih => exact Reachable.step op db now ih

theorem reachableOk_created : ReachableOk [cat5] created :=
  ReachableOk.step (.createMission twoTargets) Oracle.allOk 10 ReachableOk.init (by decide)

theorem reachableOk_assigned : ReachableOk [cat5] assigned :=
  ReachableOk.step (.assignCat 1 5) Oracle.allOk 11 reachableOk_created (by decide)

theorem reachableOk_oneDone : ReachableOk [cat5] oneDone :=
  ReachableOk.step (.updateStatus 5 1 "completed") Oracle.allOk 12 reachableOk_assigned
    (by decide)

theorem reachableOk_allDone : ReachableOk [cat5] allDone :=
  ReachableOk.step (.updateStatus 5 2 "completed") Oracle.allOk 13 reachableOk_oneDone
    (by decide)

theorem reachableOk_inProgress : ReachableOk [cat5] inProgress :=
  ReachableOk.step (.updateStatus 5 1 "in_progress") Oracle.allOk 12 reachableOk_assigned
    (by decide)

/-! ## The shape of the store after each operation -/

theorem createTargets_shape (db : Oracle) (now : Time) (mid : Int) :
    ∀ (ts : List Target) (k : Nat) (s : Store),
      (∃ e, (createTargets db now mid k ts s).2 = .error e) ∨
      createTargets db now mid k ts s =
        ({ s with
            targets := s.targets ++ newTargets now mid s.nextTargetID ts
            nextTargetID := s.nextTargetID + ts.length },
          .ok (newTargets now mid s.nextTargetID ts)) := by
  intro ts
  induction ts with
  | nil =>
    intro k s
    right
    simp [createTargets, newTargets]
  | cons t rest ih =>
    intro k s
    cases hk : db k with
    | false =>
      left
      exact ⟨_, by simp only [createTargets, TargetRepository.Create, hk]; rfl⟩
    | true =>
      simp only [createTargets, TargetRepository.Create, hk, if_true]
      rcases ih (k + 1) _ with ⟨e, he⟩ | hok
      · left
        refine ⟨e, ?_⟩
        revert he
        generalize createTargets db now mid (k + 1) rest _ = r
        intro he
        obtain ⟨s2, res⟩ := r
        simp only at he
        subst he
        rfl
      · right
        rw [hok]
        simp only [newTargets, List.append_assoc, List.singleton_append, List.length_cons,
          Nat.cast_add, Nat.cast_one]
        congr 2
        ring

theorem Validate_length {m : Mission} (h : m.Validate = .ok ()) :
    1 ≤ m.Targets.length ∧ m.Targets.length ≤ 3 := by
  unfold Mission.Validate Mission.ValidateTargets at h
  simp only [MinTargetsRequired, MaxTargetsAllowed] at h
  by_cases h1 : m.Targets.length < 1
  · simp [h1] at h
  · by_cases h2 : m.Targets.length > 3
    · simp [h1, h2] at h
    · omega

theorem RunTransaction_error {α : Type} {fn : Store → Store × Except Err α} {s : Store}
    {e : Err} (h : (fn s).2 = .error e) : RunTransaction fn s = (s, .error e) := by
  unfold RunTransaction
  revert h
  generalize fn s = r
  intro h
  obtain ⟨s1, res⟩ := r
  simp only at h
  subst h
  rfl

theorem RunTransaction_ok {α : Type} {fn : Store → Store × Except Err α} {s s1 : Store}
    {a : α} (h : fn s = (s1, .ok a)) : RunTransaction fn s = (s1, .ok a) := by
  unfold RunTransaction
  rw [h]

theorem mission_Create_ok (now : Time) (req : CreateMissionRequest) (s : Store)
    (hval : req.ToModel.Validate = .ok ()) :
    MissionRepository.Create true now req.ToModel s =
      ({ s with
          missions := s.missions ++ [newMissionRow now s.nextMissionID req]
          nextMissionID := s.nextMissionID + 1 },
        .ok { req.ToModel with ID := s.nextMissionID, CreatedAt := now, UpdatedAt := now }) := by
  simp only [MissionRepository.Create, hval, if_true]
  rfl

/-- `CreateMission` either returns an error and the store it was given, or
the request passes `Validate`, and the mission row and one row for each
target of the request are appended. -/
theorem CreateMission_shape (db : Oracle) (now : Time) (req : CreateMissionRequest)
    (s : Store) :
    (∃ e, CreateMission db now req s = (s, .error e)) ∨
    (req.ToModel.Validate = .ok () ∧
      CreateMission db now req s
        = (s.withMission now req, .ok (MissionFromModel (createdEntity now req s)))) := by
  unfold CreateMission
  cases hv : validateCreateMissionRequest req with
  | error e => exact Or.inl ⟨e, rfl⟩
  | ok u =>
    simp only
    cases hval : req.ToModel.Validate with
    | error e =>
      left
      refine ⟨.failedCreateMission (.entity e), ?_⟩
      rw [RunTransaction_error (e := .failedCreateMission (.entity e))
        (by simp only [MissionRepository.Create, hval])]
    | ok u' =>
      have hlen := Validate_length hval
      cases h0 : db 0 with
      | false =>
        left
        refine ⟨.failedCreateMission .failure, ?_⟩
        rw [RunTransaction_error (e := .failedCreateMission .failure)
          (by simp [MissionRepository.Create, hval, h0])]
      | true =>
        have hpos : req.ToModel.Targets.length > 0 := by omega
        rcases createTargets_shape db now s.nextMissionID req.ToModel.Targets 1
            { s with
              missions := s.missions ++ [newMissionRow now s.nextMissionID req]
              nextMissionID := s.nextMissionID + 1 } with ⟨e, he⟩ | hok
        · left
          refine ⟨e, ?_⟩
          rw [RunTransaction_error (e := e)]
          rw [mission_Create_ok now req s hval]
          simp only [hpos, if_true]
          revert he
          generalize createTargets db now s.nextMissionID 1 req.ToModel.Targets _ = r
          intro he
          obtain ⟨s2, res⟩ := r
          simp only at he
          subst he
          rfl
        · right
          refine ⟨rfl, ?_⟩
          rw [@RunTransaction_ok _ _ s (s.withMission now req) (createdEntity now req s)]
          rw [mission_Create_ok now req s hval]
          simp only [hpos, if_true]
          rw [hok]
          rfl

theorem DeleteMission_shape (db : Oracle) (id : Int) (s : Store) :
    (∃ e, DeleteMission db id s = (s, .error e)) ∨
    (∃ m, s.missions.find? (fun x => x.ID = id) = some m ∧ m.CatID = none ∧
      DeleteMission db id s = (s.withoutMission id, .ok ())) := by
  unfold DeleteMission
  simp only [MissionRepository.CheckMissionExists]
  by_cases hex : (s.missions.filter (fun m => m.ID = id)).length > 0
  · simp only [hex, decide_True, Bool.not_true, Bool.false_eq_true, if_false]
    cases h0 : db 0 with
    | false =>
      left
      exact ⟨_, RunTransaction_error (e := .failedDeleteTargets .failure)
        (by simp [TargetRepository.DeleteByMissionID, h0])⟩
    | true =>
      cases hfind : s.missions.find? (fun x => x.ID = id) with
      | none =>
        left
        exact ⟨_, RunTransaction_error (e := .failedDeleteMission .recordNotFound)
          (by simp [TargetRepository.DeleteByMissionID, h0, MissionRepository.Delete, hfind])⟩
      | some m =>
        cases hc : m.CatID with
        | some c =>
          left
          exact ⟨_, RunTransaction_error (e := .failedDeleteMission .catAssigned)
            (by simp [TargetRepository.DeleteByMissionID, h0, MissionRepository.Delete, hfind,
              hc])⟩
        | none =>
          cases h1 : db 1 with
          | false =>
            left
            exact ⟨_, RunTransaction_error (e := .failedDeleteMission .failure)
              (by simp [TargetRepository.DeleteByMissionID, h0, MissionRepository.Delete,
                hfind, hc, h1])⟩
          | true =>
            right
            refine ⟨m, rfl, hc, ?_⟩
            exact RunTransaction_ok
              (by simp [TargetRepository.DeleteByMissionID, h0, MissionRepository.Delete,
                hfind, hc, h1, Store.withoutMission])
  · left
    exact ⟨.missionIDNotFound, by simp [hex]⟩

theorem AssignCatToMission_shape (db : Oracle) (now : Time) (missionID catID : Int)
    (s : Store) :
    (∃ e, AssignCatToMission db now missionID catID s = (s, .error e)) ∨
    (db 0 = true ∧ db 1 = true ∧
      (AssignCatToMission db now missionID catID s).1 = s.withAssignment now missionID catID) := by
  unfold AssignCatToMission
  cases h0 : db 0 with
  | false =>
    left
    rw [RunTransaction_error (e := .failedAssignMission .failure)
      (by simp [MissionRepository.AssignCatToMission, h0])]
    exact ⟨_, rfl⟩
  | true =>
    cases h1 : db 1 with
    | false =>
      left
      rw [RunTransaction_error (e := .failedAssignCat .failure)
        (by simp [MissionRepository.AssignCatToMission, h0, CatRepository.AssignToMission, h1])]
      exact ⟨_, rfl⟩
    | true =>
      right
      refine ⟨rfl, rfl, ?_⟩
      rw [@RunTransaction_ok _ _ s (s.withAssignment now missionID catID) ()
        (by simp [MissionRepository.AssignCatToMission, h0, CatRepository.AssignToMission, h1,
          Store.withAssignment])]
      simp only
      split <;> rfl

theorem AddTargetToMission_shape (db : Oracle) (now : Time) (missionID : Int)
    (req : AddTargetRequest) (s : Store) :
    (∃ e, AddTargetToMission db now missionID req s = (s, .error e)) ∨
    (∃ m, s.missions.find? (fun x => x.ID = missionID) = some m ∧
      (s.targetsOf missionID).length < 3 ∧
      (∀ t ∈ s.targetsOf missionID, t.Name ≠ req.Name) ∧
      AddTargetToMission db now missionID req s =
        ({ s with
            targets := s.targets ++ [addedTarget now missionID req s]
            nextTargetID := s.nextTargetID + 1 },
          .ok (TargetResponse.ofTarget (addedTarget now missionID req s)))) := by
  unfold AddTargetToMission
  cases hm : s.missions.find? (fun x => x.ID = missionID) with
  | none =>
    left
    exact ⟨.missionNotFound .recordNotFound, by simp only [mission_GetByID_none hm]⟩
  | some m =>
    have hid := find?_ID_eq hm
    simp only [mission_GetByID_some hm, Mission.CanAddTarget, Store.preload, hid,
      MaxTargetsAllowed]
    by_cases hlen : (s.targetsOf missionID).length < 3
    · by_cases hname : (s.targetsOf missionID).any (fun target => target.Name = req.Name) = true
      · left
        exact ⟨.targetNameExists, by simp [hlen, hname]⟩
      · cases h0 : db 0 with
        | false =>
          left
          exact ⟨.failedCreateTarget .failure, by simp [hlen, hname, TargetRepository.Create, h0]⟩
        | true =>
          right
          refine ⟨m, rfl, hlen, ?_, ?_⟩
          · intro t ht hn
            apply hname
            rw [List.any_eq_true]
            exact ⟨t, ht, by simpa using hn⟩
          · simp [hlen, hname, TargetRepository.Create, h0, addedTarget,
              AddTargetRequest.ToTargetModel, Time.IsZero]
    · left
      exact ⟨.maxTargets, by simp [hlen]⟩

theorem DeleteTargetFromMission_shape (db : Oracle) (now : Time) (missionID targetID : Int)
    (s : Store) :
    (∃ e, DeleteTargetFromMission db now missionID targetID s = (s, .error e)) ∨
    (∃ t, s.targets.find? (fun x => x.ID = targetID ∧ x.visible) = some t ∧
      t.MissionID = missionID ∧ t.Status = "init" ∧ 2 ≤ (s.targetsOf missionID).length ∧
      DeleteTargetFromMission db now missionID targetID s =
        ((TargetRepository.Delete true now targetID s).1, .ok ())) := by
  unfold DeleteTargetFromMission
  cases hr : db 0 with
  | false =>
    left
    exact ⟨.targetNotFound .failure, by simp only [target_GetByID_failed]⟩
  | true =>
  cases ht : s.targets.find? (fun x => x.ID = targetID ∧ x.visible) with
  | none =>
    left
    exact ⟨.targetNotFound .recordNotFound, by simp only [target_GetByID_none ht]⟩
  | some t =>
    simp only [target_GetByID_some ht]
    by_cases hmid : t.MissionID = missionID
    · by_cases hst : t.Status = "init"
      · cases hm : s.missions.find? (fun x => x.ID = missionID) with
        | none =>
          left
          exact ⟨.missionNotFound .recordNotFound, by simp [hmid, hst, mission_GetByID_none hm]⟩
        | some m =>
          have hid := find?_ID_eq hm
          by_cases hlen : 2 ≤ (s.targetsOf missionID).length
          · cases h0 : db 1 with
            | false =>
              left
              refine ⟨.failedDeleteTarget .failure, ?_⟩
              simp [hmid, hst, mission_GetByID_some hm, Mission.HasMinimumTargets,
                Store.preload, hid, MinTargetsRequired, TargetRepository.Delete, h0]
              refine ⟨?_, by omega⟩
              intro h
              rw [h] at hlen
              simp at hlen
            | true =>
              right
              refine ⟨t, rfl, hmid, hst, hlen, ?_⟩
              simp [hmid, hst, mission_GetByID_some hm, Mission.HasMinimumTargets,
                Store.preload, hid, MinTargetsRequired, TargetRepository.Delete, h0]
              refine ⟨?_, by omega⟩
              intro h
              rw [h] at hlen
              simp at hlen
          · left
            refine ⟨.atLeastOneTarget, ?_⟩
            simp [hmid, hst, mission_GetByID_some hm, Mission.HasMinimumTargets,
              Store.preload, hid, MinTargetsRequired]
            omega
      · left
        exact ⟨.onlyInitDeletable, by simp [hmid, hst]⟩
    · left
      exact ⟨.targetNotInMission, by simp [hmid]⟩

/-! ## The completion flag of a stored mission -/

theorem find?_append_of_some {l l' : List Mission} {id : Int} {m : Mission}
    (h : l.find? (fun x => x.ID = id) = some m) :
    (l ++ l').find? (fun x => x.ID = id) = some m := by
  rw [List.find?_append, h]
  rfl

theorem find?_append_of_none {l l' : List Mission} {id : Int}
    (h : l.find? (fun x => x.ID = id) = none) :
    (l ++ l').find? (fun x => x.ID = id) = l'.find? (fun x => x.ID = id) := by
  rw [List.find?_append, h]
  rfl

theorem find?_filter_other (l : List Mission) {id id0 : Int} (hne : id ≠ id0) :
    (l.filter (fun m => ¬ m.ID = id0)).find? (fun x => x.ID = id)
      = l.find? (fun x => x.ID = id) := by
  induction l with
  | nil => rfl
  | cons a l ih =>
    rw [List.filter_cons]
    by_cases h0 : a.ID = id0
    · have hdec : decide (¬ a.ID = id0) = false := by simp [h0]
      have hna : ¬ a.ID = id := fun h => hne (h ▸ h0)
      rw [hdec]
      simp only [Bool.false_eq_true, if_false]
      rw [List.find?_cons_of_neg _ (by simpa using hna), ih]
    · have hdec : decide (¬ a.ID = id0) = true := by simp [h0]
      rw [hdec]
      simp only [if_true]
      by_cases h : a.ID = id
      · rw [List.find?_cons_of_pos _ (by simpa using h),
          List.find?_cons_of_pos _ (by simpa using h)]
      · rw [List.find?_cons_of_neg _ (by simpa using h),
          List.find?_cons_of_neg _ (by simpa using h), ih]

theorem find?_filter_same (l : List Mission) (id : Int) :
    (l.filter (fun m => ¬ m.ID = id)).find? (fun x => x.ID = id) = none := by
  rw [List.find?_eq_none]
  intro x hx
  simp only [List.mem_filter, decide_not, Bool.not_eq_true', decide_eq_false_iff_not] at hx
  simpa using hx.2

/-- What one call does to the row of a stored mission: the row disappears,
or it keeps its completion flag, or the flag goes from false to true and
then the mission has a target and all its targets are completed. -/
theorem op_mission_row (op : Op) (db : Oracle) (now : Time) (s : Store) (id : Int)
    (m : Mission) (h : s.missions.find? (fun x => x.ID = id) = some m) :
    (op.run db now s).1.missions.find? (fun x => x.ID = id) = none ∨
    ∃ m', (op.run db now s).1.missions.find? (fun x => x.ID = id) = some m' ∧
      (m'.IsCompleted = m.IsCompleted ∨
        (m.IsCompleted = false ∧ m'.IsCompleted = true ∧
          (op.run db now s).1.targetsOf id ≠ [] ∧
          ∀ t ∈ (op.run db now s).1.targetsOf id, t.Status = "completed")) := by
  have same : ∀ s' : Store, s'.missions = s.missions →
      s'.missions.find? (fun x => x.ID = id) = none ∨
      ∃ m', s'.missions.find? (fun x => x.ID = id) = some m' ∧
        (m'.IsCompleted = m.IsCompleted ∨
          (m.IsCompleted = false ∧ m'.IsCompleted = true ∧ s'.targetsOf id ≠ [] ∧
            ∀ t ∈ s'.targetsOf id, t.Status = "completed")) := by
    intro s' hs'
    right
    exact ⟨m, by rw [hs', h], Or.inl rfl⟩
  cases op with
  | createMission req =>
    simp only [Op.run]
    rcases CreateMission_shape db now req s with ⟨e, he⟩ | ⟨_, hok⟩
    · rw [he]
      exact same s rfl
    · rw [hok]
      right
      exact ⟨m, find?_append_of_some h, Or.inl rfl⟩
  | deleteMission id0 =>
    simp only [Op.run]
    rcases DeleteMission_shape db id0 s with ⟨e, he⟩ | ⟨_, _, _, hok⟩
    · rw [he]
      exact same s rfl
    · rw [hok]
      by_cases hid : id = id0
      · left
        subst hid
        exact find?_filter_same _ _
      · right
        exact ⟨m, by simp only [Store.withoutMission]; rw [find?_filter_other _ hid, h],
          Or.inl rfl⟩
  | assignCat missionID catID =>
    simp only [Op.run]
    rcases AssignCatToMission_shape db now missionID catID s with ⟨e, he⟩ | ⟨_, _, hok⟩
    · rw [he]
      exact same s rfl
    · rw [hok]
      right
      refine ⟨if m.ID = missionID then
          { m with CatID := some catID, StartDate := now, UpdatedAt := now } else m, ?_,
        Or.inl ?_⟩
      · simp only [Store.withAssignment, CatRepository.AssignToMission,
          MissionRepository.AssignCatToMission, if_true]
        rw [find?_map_sameID _ _ _ (by intro x; split <;> rfl), h]
        rfl
      · split <;> rfl
  | addTarget missionID req =>
    simp only [Op.run]
    rcases AddTargetToMission_shape db now missionID req s with ⟨e, he⟩ | ⟨_, _, _, _, hok⟩
    · rw [he]
      exact same s rfl
    · rw [hok]
      exact same _ rfl
  | deleteTarget missionID targetID =>
    simp only [Op.run]
    rcases DeleteTargetFromMission_shape db now missionID targetID s with
      ⟨e, he⟩ | ⟨_, _, _, _, _, hok⟩
    · rw [he]
      exact same s rfl
    · rw [hok]
      exact same _ (by simp [TargetRepository.Delete])
  | updateNotes catID targetID notes =>
    simp only [Op.run]
    rcases UpdateTargetNotes_cases db now catID targetID notes s with
      ⟨e, he⟩ | ⟨t, m0, ht, hm, hcat, hp, h0, h1⟩
    · rw [he]
      exact same s rfl
    · rw [UpdateTargetNotes_fst db now catID targetID notes s t m0 ht hm hcat hp h0 h1]
      exact same _ (by simp [TargetRepository.UpdateNotes])
  | updateStatus catID targetID status =>
    simp only [Op.run]
    rcases UpdateTargetStatus_cases db now catID targetID status s with
      ⟨e, he⟩ | ⟨t, m0, ht, hm, hcat, hp, h0, h1⟩
    · rw [he]
      exact same s rfl
    · by_cases h2 : db 2 = true
      swap
      · rw [UpdateTargetStatus_rereadFailed db now catID targetID status s t m0 ht hm hcat hp
          h0 h1 h2]
        exact same _ (by simp [TargetRepository.UpdateStatus])
      rw [UpdateTargetStatus_accepted db now catID targetID status s t m0 ht hm hcat hp h0 h1 h2]
      by_cases hs : status = "completed"
      · simp only [hs, if_true]
        rcases check_shape (db.shift 3) now t.MissionID
            (TargetRepository.UpdateStatus true now targetID "completed" s).1 with
          hsame | ⟨m1, hm1, hnc, hall, cs, hnew⟩
        · rw [hsame]
          exact same _ (by simp [TargetRepository.UpdateStatus])
        · rw [hnew]
          have hm1' : s.missions.find? (fun x => x.ID = t.MissionID) = some m1 := by
            simpa [TargetRepository.UpdateStatus] using hm1
          right
          refine ⟨if m.ID = t.MissionID then completedRow now
                            ((TargetRepository.UpdateStatus true now targetID "completed" s).1.catOf
                              m1.CatID) m1 else m, ?_, ?_⟩
          · have hmis : (TargetRepository.UpdateStatus true now targetID "completed" s).1.missions
                = s.missions := by simp [TargetRepository.UpdateStatus]
            simp only [hmis]
            rw [find?_map_sameID _ _ _ (by
              intro x
              by_cases hx : x.ID = t.MissionID
              · simp [hx, completedRow, find?_ID_eq hm1']
              · simp [hx]), h]
            rfl
          · by_cases hid : m.ID = t.MissionID
            · right
              have hidd : id = t.MissionID := by rw [← find?_ID_eq h, hid]
              have hmm : m1 = m := by
                rw [← hidd, h] at hm1'
                exact (Option.some.inj hm1').symm
              subst hmm
              refine ⟨hnc, by simp [hid, completedRow], ?_, ?_⟩
              · have hre := reread_after_UpdateStatus now targetID "completed" s t ht
                have hfound := @target_found
                  (TargetRepository.UpdateStatus true now targetID "completed" s).1.targets
                  targetID
                  { t with Status := "completed", UpdatedAt := now } (by
                    exact find?_of_target_GetByID hre)
                intro hempty
                have hmem : ({ t with Status := "completed", UpdatedAt := now } : Target) ∈
                    (Store.targetsOf
                      { (TargetRepository.UpdateStatus true now targetID "completed" s).1 with
                        missions := List.map (fun x =>
                          if x.ID = t.MissionID then completedRow now
                            ((TargetRepository.UpdateStatus true now targetID "completed" s).1.catOf
                              m1.CatID) m1 else x)
                          (TargetRepository.UpdateStatus true now targetID "completed" s).1.missions
                        cats := cs } id) := by
                  rw [mem_targetsOf]
                  exact ⟨hfound.1, hidd.symm, hfound.2.2⟩
                rw [hempty] at hmem
                cases hmem
              · intro x hx
                rw [hidd] at hx
                exact hall x hx
            · left
              simp [hid]
      · simp only [hs, if_false]
        exact same _ (by simp [TargetRepository.UpdateStatus])

/-- A mission row that appears in a call is not completed. -/
theorem op_new_mission_row (op : Op) (db : Oracle) (now : Time) (s : Store) (id : Int)
    (m' : Mission) (h : s.missions.find? (fun x => x.ID = id) = none)
    (h' : (op.run db now s).1.missions.find? (fun x => x.ID = id) = some m') :
    m'.IsCompleted = false := by
  have same : ∀ s' : Store, s'.missions = s.missions →
      s'.missions.find? (fun x => x.ID = id) = some m' → m'.IsCompleted = false := by
    intro s' hs' hf
    rw [hs', h] at hf
    cases hf
  cases op with
  | createMission req =>
    simp only [Op.run] at h'
    rcases CreateMission_shape db now req s with ⟨e, he⟩ | ⟨_, hok⟩
    · rw [he] at h'
      exact same s rfl h'
    · rw [hok] at h'
      simp only [Store.withMission] at h'
      rw [find?_append_of_none h] at h'
      have := List.mem_of_find?_eq_some h'
      simp only [List.mem_singleton] at this
      rw [this]
      rfl
  | deleteMission id0 =>
    simp only [Op.run] at h'
    rcases DeleteMission_shape db id0 s with ⟨e, he⟩ | ⟨_, _, _, hok⟩
    · rw [he] at h'
      exact same s rfl h'
    · rw [hok] at h'
      by_cases hid : id = id0
      · subst hid
        simp only [Store.withoutMission] at h'
        rw [find?_filter_same] at h'
        cases h'
      · simp only [Store.withoutMission] at h'
        rw [find?_filter_other _ hid, h] at h'
        cases h'
  | assignCat missionID catID =>
    simp only [Op.run] at h'
    rcases AssignCatToMission_shape db now missionID catID s with ⟨e, he⟩ | ⟨_, _, hok⟩
    · rw [he] at h'
      exact same s rfl h'
    · rw [hok] at h'
      simp only [Store.withAssignment, CatRepository.AssignToMission,
        MissionRepository.AssignCatToMission, if_true] at h'
      rw [find?_map_sameID _ _ _ (by intro x; split <;> rfl), h] at h'
      cases h'
  | addTarget missionID req =>
    simp only [Op.run] at h'
    rcases AddTargetToMission_shape db now missionID req s with ⟨e, he⟩ | ⟨_, _, _, _, hok⟩
    · rw [he] at h'
      exact same s rfl h'
    · rw [hok] at h'
      exact same _ rfl h'
  | deleteTarget missionID targetID =>
    simp only [Op.run] at h'
    rcases DeleteTargetFromMission_shape db now missionID targetID s with
      ⟨e, he⟩ | ⟨_, _, _, _, _, hok⟩
    · rw [he] at h'
      exact same s rfl h'
    · rw [hok] at h'
      exact same _ (by simp [TargetRepository.Delete]) h'
  | updateNotes catID targetID notes =>
    simp only [Op.run] at h'
    rcases UpdateTargetNotes_cases db now catID targetID notes s with
      ⟨e, he⟩ | ⟨t, m0, ht, hm, hcat, hp, h0, h1⟩
    · rw [he] at h'
      exact same s rfl h'
    · rw [UpdateTargetNotes_fst db now catID targetID notes s t m0 ht hm hcat hp h0 h1] at h'
      exact same _ (by simp [TargetRepository.UpdateNotes]) h'
  | updateStatus catID targetID status =>
    simp only [Op.run] at h'
    rcases UpdateTargetStatus_cases db now catID targetID status s with
      ⟨e, he⟩ | ⟨t, m0, ht, hm, hcat, hp, h0, h1⟩
    · rw [he] at h'
      exact same s rfl h'
    · by_cases h2 : db 2 = true
      swap
      · rw [UpdateTargetStatus_rereadFailed db now catID targetID status s t m0 ht hm hcat hp
          h0 h1 h2] at h'
        exact same _ (by simp [TargetRepository.UpdateStatus]) h'
      rw [UpdateTargetStatus_accepted db now catID targetID status s t m0 ht hm hcat hp
        h0 h1 h2] at h'
      by_cases hs : status = "completed"
      · simp only [hs, if_true] at h'
        rcases check_shape (db.shift 3) now t.MissionID
            (TargetRepository.UpdateStatus true now targetID "completed" s).1 with
          hsame | ⟨m1, hm1, hnc, hall, cs, hnew⟩
        · rw [hsame] at h'
          exact same _ (by simp [TargetRepository.UpdateStatus]) h'
        · rw [hnew] at h'
          have hm1' : s.missions.find? (fun x => x.ID = t.MissionID) = some m1 := by
            simpa [TargetRepository.UpdateStatus] using hm1
          have hmis : (TargetRepository.UpdateStatus true now targetID "completed" s).1.missions
              = s.missions := by simp [TargetRepository.UpdateStatus]
          simp only [hmis] at h'
          rw [find?_map_sameID _ _ _ (by
            intro x
            by_cases hx : x.ID = t.MissionID
            · simp [hx, completedRow, find?_ID_eq hm1']
            · simp [hx]), h] at h'
          cases h'
      · simp only [hs, if_false] at h'
        exact same _ (by simp [TargetRepository.UpdateStatus]) h'

/-! ## The invariant -/

theorem length_targetsOf_eq (s : Store) (id : Int) :
    (s.targetsOf id).length = targetCount s.targets id := by
  rw [length_targetsOf, targetCount, List.countP_eq_length_filter]

theorem targetCount_map (l : List Target) (id : Int) (f : Target → Target)
    (hM : ∀ t, (f t).MissionID = t.MissionID) (hD : ∀ t, (f t).DeletedAt = t.DeletedAt) :
    targetCount (l.map f) id = targetCount l id := by
  unfold targetCount
  rw [List.countP_map]
  congr 1
  funext t
  simp [Function.comp, hM, hD, Target.visible]

theorem targetCount_append (l l' : List Target) (id : Int) :
    targetCount (l ++ l') id = targetCount l id + targetCount l' id := by
  unfold targetCount
  exact List.countP_append _ _ _

theorem targetCount_eq_zero {l : List Target} {id : Int}
    (h : ∀ t ∈ l, t.MissionID ≠ id) : targetCount l id = 0 := by
  unfold targetCount
  rw [List.countP_eq_zero]
  intro t ht
  simp [h t ht]

theorem targetCount_eq_length {l : List Target} {id : Int}
    (h : ∀ t ∈ l, t.MissionID = id ∧ t.visible = true) : targetCount l id = l.length := by
  unfold targetCount
  rw [List.countP_eq_length]
  intro t ht
  simpa using h t ht

theorem WellFormed_init (cats : List SpyCat) : (Store.init cats).WellFormed where
  missionIDs := by intro m hm; cases hm
  targetMissions := by intro t ht; cases ht
  targetIDs := by intro t ht; cases ht
  nodup := by simp [Store.init]
  count := by intro m hm; cases hm

/-- Rewriting mission rows without touching their ids, and the cat table,
keeps the invariant. -/
theorem WellFormed_missions_map {s : Store} (wf : s.WellFormed) (g : Mission → Mission)
    (hg : ∀ m, (g m).ID = m.ID) (cs : List SpyCat) :
    Store.WellFormed { s with missions := s.missions.map g, cats := cs } where
  missionIDs := by
    intro m hm
    simp only [List.mem_map] at hm
    obtain ⟨m0, hm0, rfl⟩ := hm
    rw [hg]
    exact wf.missionIDs m0 hm0
  targetMissions := wf.targetMissions
  targetIDs := wf.targetIDs
  nodup := wf.nodup
  count := by
    intro m hm
    simp only [List.mem_map] at hm
    obtain ⟨m0, hm0, rfl⟩ := hm
    rw [hg]
    exact wf.count m0 hm0

/-- Rewriting target rows without touching their id, their mission and their
soft-delete column keeps the invariant. -/
theorem WellFormed_targets_map {s : Store} (wf : s.WellFormed) (f : Target → Target)
    (hI : ∀ t, (f t).ID = t.ID) (hM : ∀ t, (f t).MissionID = t.MissionID)
    (hD : ∀ t, (f t).DeletedAt = t.DeletedAt) :
    Store.WellFormed { s with targets := s.targets.map f } where
  missionIDs := wf.missionIDs
  targetMissions := by
    intro t ht
    simp only [List.mem_map] at ht
    obtain ⟨t0, ht0, rfl⟩ := ht
    rw [hM]
    exact wf.targetMissions t0 ht0
  targetIDs := by
    intro t ht
    simp only [List.mem_map] at ht
    obtain ⟨t0, ht0, rfl⟩ := ht
    rw [hI]
    exact wf.targetIDs t0 ht0
  nodup := by
    have : (s.targets.map f).map (fun t => t.ID) = s.targets.map (fun t => t.ID) := by
      rw [List.map_map]
      congr 1
      funext t
      exact hI t
    simp only [this]
    exact wf.nodup
  count := by
    intro m hm
    simp only [targetCount_map _ _ f hM hD]
    exact wf.count m hm

theorem targetCount_singleton_le (x : Target) (id : Int) : targetCount [x] id ≤ 1 := by
  unfold targetCount
  exact le_trans (List.countP_le_length _) (by simp)

theorem WellFormed_add {s : Store} (wf : s.WellFormed) (now : Time) (missionID : Int)
    (req : AddTargetRequest) (m : Mission)
    (hm : s.missions.find? (fun x => x.ID = missionID) = some m)
    (hlen : (s.targetsOf missionID).length < 3) :
    Store.WellFormed
      { s with
        targets := s.targets ++ [addedTarget now missionID req s]
        nextTargetID := s.nextTargetID + 1 } where
  missionIDs := wf.missionIDs
  targetMissions := by
    intro t ht
    simp only [List.mem_append, List.mem_singleton] at ht
    rcases ht with ht | rfl
    · exact wf.targetMissions t ht
    · have := wf.missionIDs m (List.mem_of_find?_eq_some hm)
      rw [find?_ID_eq hm] at this
      exact this
  targetIDs := by
    intro t ht
    simp only [List.mem_append, List.mem_singleton] at ht
    rcases ht with ht | rfl
    · have := wf.targetIDs t ht
      show t.ID < s.nextTargetID + 1
      omega
    · show s.nextTargetID < s.nextTargetID + 1
      omega
  nodup := by
    simp only [List.map_append, List.map_cons, List.map_nil]
    rw [List.nodup_append]
    refine ⟨wf.nodup, List.nodup_singleton _, ?_⟩
    intro a ha hb
    simp only [List.mem_singleton] at hb
    simp only [List.mem_map] at ha
    obtain ⟨t, ht, rfl⟩ := ha
    have := wf.targetIDs t ht
    have hid : (addedTarget now missionID req s).ID = s.nextTargetID := rfl
    omega
  count := by
    intro m' hm'
    simp only [targetCount_append]
    have hold := wf.count m' hm'
    have hone := targetCount_singleton_le (addedTarget now missionID req s) m'.ID
    refine ⟨by omega, ?_⟩
    by_cases hid : m'.ID = missionID
    · rw [length_targetsOf_eq] at hlen
      rw [hid]
      rw [hid] at hone
      omega
    · have : targetCount [addedTarget now missionID req s] m'.ID = 0 := by
        apply targetCount_eq_zero
        intro t ht
        simp only [List.mem_singleton] at ht
        subst ht
        exact fun h => hid h.symm
      omega

theorem targetCount_filter_other (l : List Target) {id id0 : Int} (hne : id ≠ id0) :
    targetCount (l.filter (fun t => ¬ t.MissionID = id0)) id = targetCount l id := by
  unfold targetCount
  rw [List.countP_filter]
  apply List.countP_congr
  intro t _
  by_cases h : t.MissionID = id
  · have : ¬ t.MissionID = id0 := fun h0 => hne (h ▸ h0)
    simp [h, this, hne]
  · simp [h]

theorem WellFormed_withoutMission {s : Store} (wf : s.WellFormed) (id : Int) :
    (s.withoutMission id).WellFormed where
  missionIDs := by
    intro m hm
    simp only [Store.withoutMission, List.mem_filter] at hm
    exact wf.missionIDs m hm.1
  targetMissions := by
    intro t ht
    simp only [Store.withoutMission, List.mem_filter] at ht
    exact wf.targetMissions t ht.1
  targetIDs := by
    intro t ht
    simp only [Store.withoutMission, List.mem_filter] at ht
    exact wf.targetIDs t ht.1
  nodup := by
    simp only [Store.withoutMission]
    exact wf.nodup.sublist ((List.filter_sublist _).map _)
  count := by
    intro m hm
    simp only [Store.withoutMission, List.mem_filter, decide_not, Bool.not_eq_true',
      decide_eq_false_iff_not] at hm
    have := wf.count m hm.1
    simp only [Store.withoutMission]
    rw [targetCount_filter_other _ hm.2]
    exact this

theorem newTargets_length (now : Time) (mid : Int) :
    ∀ (ts : List Target) (n : Int), (newTargets now mid n ts).length = ts.length := by
  intro ts
  induction ts with
  | nil => intro n; rfl
  | cons t ts ih =>
    intro n
    simp [newTargets, ih]

theorem newTargets_mem (now : Time) (mid : Int) :
    ∀ (ts : List Target) (n : Int) (x : Target), x ∈ newTargets now mid n ts →
      x.MissionID = mid ∧ n ≤ x.ID ∧ x.ID < n + ts.length ∧
      ∃ t ∈ ts, x.DeletedAt = t.DeletedAt := by
  intro ts
  induction ts with
  | nil =>
    intro n x hx
    cases hx
  | cons t ts ih =>
    intro n x hx
    simp only [newTargets, List.mem_cons] at hx
    rcases hx with rfl | hx
    · refine ⟨rfl, le_refl _, ?_, t, List.mem_cons_self _ _, rfl⟩
      simp only [List.length_cons, Nat.cast_add, Nat.cast_one]
      omega
    · obtain ⟨h1, h2, h3, t', ht', h4⟩ := ih (n + 1) x hx
      refine ⟨h1, by omega, ?_, t', List.mem_cons_of_mem _ ht', h4⟩
      simp only [List.length_cons, Nat.cast_add, Nat.cast_one]
      omega

theorem newTargets_nodup (now : Time) (mid : Int) :
    ∀ (ts : List Target) (n : Int), ((newTargets now mid n ts).map (fun t => t.ID)).Nodup := by
  intro ts
  induction ts with
  | nil =>
    intro n
    simp [newTargets]
  | cons t ts ih =>
    intro n
    simp only [newTargets, List.map_cons, List.nodup_cons]
    refine ⟨?_, ih (n + 1)⟩
    intro hmem
    simp only [List.mem_map] at hmem
    obtain ⟨x, hx, hxn⟩ := hmem
    have := (newTargets_mem now mid ts (n + 1) x hx).2.1
    omega

theorem ToModel_targets_visible (req : CreateMissionRequest) :
    ∀ t ∈ req.ToModel.Targets, t.DeletedAt = none := by
  intro t ht
  simp only [CreateMissionRequest.ToModel, List.mem_map] at ht
  obtain ⟨r, _, rfl⟩ := ht
  rfl

theorem WellFormed_withMission {s : Store} (wf : s.WellFormed) (now : Time)
    (req : CreateMissionRequest) (hval : req.ToModel.Validate = .ok ()) :
    (s.withMission now req).WellFormed where
  missionIDs := by
    intro m hm
    simp only [Store.withMission, List.mem_append, List.mem_singleton] at hm
    show m.ID < s.nextMissionID + 1
    rcases hm with hm | rfl
    · have := wf.missionIDs m hm
      omega
    · show s.nextMissionID < s.nextMissionID + 1
      omega
  targetMissions := by
    intro t ht
    simp only [Store.withMission, List.mem_append] at ht
    show t.MissionID < s.nextMissionID + 1
    rcases ht with ht | ht
    · have := wf.targetMissions t ht
      omega
    · have := (newTargets_mem _ _ _ _ _ ht).1
      omega
  targetIDs := by
    intro t ht
    simp only [Store.withMission, List.mem_append] at ht
    show t.ID < s.nextTargetID + req.ToModel.Targets.length
    rcases ht with ht | ht
    · have := wf.targetIDs t ht
      omega
    · have := (newTargets_mem _ _ _ _ _ ht).2.2.1
      omega
  nodup := by
    simp only [Store.withMission, List.map_append]
    rw [List.nodup_append]
    refine ⟨wf.nodup, newTargets_nodup _ _ _ _, ?_⟩
    intro a ha hb
    simp only [List.mem_map] at ha hb
    obtain ⟨t, ht, rfl⟩ := ha
    obtain ⟨x, hx, hxt⟩ := hb
    have h1 := wf.targetIDs t ht
    have h2 := (newTargets_mem _ _ _ _ _ hx).2.1
    omega
  count := by
    intro m hm
    simp only [Store.withMission, List.mem_append, List.mem_singleton] at hm
    simp only [Store.withMission, targetCount_append]
    rcases hm with hm | rfl
    · have hold := wf.count m hm
      have hlt := wf.missionIDs m hm
      have : targetCount
          (newTargets now s.nextMissionID s.nextTargetID req.ToModel.Targets) m.ID = 0 := by
        apply targetCount_eq_zero
        intro t ht
        have := (newTargets_mem _ _ _ _ _ ht).1
        omega
      omega
    · have hid : (newMissionRow now s.nextMissionID req).ID = s.nextMissionID := rfl
      rw [hid]
      have hzero : targetCount s.targets s.nextMissionID = 0 := by
        apply targetCount_eq_zero
        intro t ht
        have := wf.targetMissions t ht
        omega
      have hnew : targetCount
          (newTargets now s.nextMissionID s.nextTargetID req.ToModel.Targets) s.nextMissionID
            = req.ToModel.Targets.length := by
        rw [targetCount_eq_length, newTargets_length]
        intro t ht
        obtain ⟨h1, _, _, t0, ht0, h4⟩ := newTargets_mem _ _ _ _ _ ht
        refine ⟨h1, ?_⟩
        simp [Target.visible, h4, ToModel_targets_visible req t0 ht0]
      have hlen := Validate_length hval
      omega

theorem countP_ID_le_one {l : List Target} (hnd : (l.map (fun t => t.ID)).Nodup) (tid : Int) :
    l.countP (fun x => decide (x.ID = tid)) ≤ 1 := by
  have h := List.nodup_iff_count_le_one.mp hnd tid
  have : List.count tid (l.map (fun t => t.ID)) = l.countP (fun x => decide (x.ID = tid)) := by
    unfold List.count
    rw [List.countP_map]
    congr 1
  omega

theorem targetCount_split (l : List Target) (id tid : Int) :
    targetCount l id
      = l.countP (fun x => decide (x.MissionID = id ∧ x.visible = true) && !decide (x.ID = tid))
        + l.countP (fun x => decide (x.MissionID = id ∧ x.visible = true) && decide (x.ID = tid)) := by
  unfold targetCount
  rw [List.countP_eq_countP_filter_add l _ (fun x => !decide (x.ID = tid)),
    List.countP_filter, List.countP_filter]
  simp only [Bool.not_not]

/-- The scoped count after a soft delete: the rows with the deleted id no longer count. -/
theorem targetCount_softDelete (l : List Target) (now : Time) (tid id : Int) :
    targetCount (l.map (fun t =>
        if t.ID = tid ∧ t.visible then { t with DeletedAt := some now } else t)) id
      = l.countP (fun x => decide (x.MissionID = id ∧ x.visible = true) && !decide (x.ID = tid)) := by
  unfold targetCount
  rw [List.countP_map]
  apply List.countP_congr
  intro x _
  by_cases hc : x.ID = tid ∧ x.visible = true
  · obtain ⟨h1, h2⟩ := hc
    have hd : x.DeletedAt = none := by simpa [Target.visible] using h2
    simp [Function.comp, h1, hd, Target.visible]
  · by_cases hv : x.visible = true
    · have hne : ¬ x.ID = tid := fun h => hc ⟨h, hv⟩
      simp [Function.comp, hc, hv, hne]
    · simp [Function.comp, hc, hv]

theorem WellFormed_softDelete {s : Store} (wf : s.WellFormed) (now : Time)
    (missionID tid : Int) (t : Target)
    (ht : s.targets.find? (fun x => x.ID = tid ∧ x.visible) = some t)
    (hmid : t.MissionID = missionID) (hlen : 2 ≤ (s.targetsOf missionID).length) :
    (TargetRepository.Delete true now tid s).1.WellFormed := by
  obtain ⟨htmem, htid, htvis⟩ := target_found ht
  have hbase := WellFormed_targets_map (s := s) wf (fun x => x) (fun _ => rfl) (fun _ => rfl)
    (fun _ => rfl)
  refine
    { missionIDs := wf.missionIDs
      targetMissions := ?_
      targetIDs := ?_
      nodup := ?_
      count := ?_ }
  · intro x hx
    simp only [TargetRepository.Delete, if_true, List.mem_map] at hx
    obtain ⟨x0, hx0, rfl⟩ := hx
    have := wf.targetMissions x0 hx0
    split <;> exact this
  · intro x hx
    simp only [TargetRepository.Delete, if_true, List.mem_map] at hx
    obtain ⟨x0, hx0, rfl⟩ := hx
    have := wf.targetIDs x0 hx0
    split <;> exact this
  · have : ((TargetRepository.Delete true now tid s).1.targets).map (fun t => t.ID)
        = s.targets.map (fun t => t.ID) := by
      simp only [TargetRepository.Delete, if_true, List.map_map]
      congr 1
      funext x
      simp only [Function.comp]
      split <;> rfl
    rw [this]
    exact wf.nodup
  · intro m hm
    have hold := wf.count m hm
    simp only [TargetRepository.Delete, if_true]
    rw [targetCount_softDelete]
    have hle : s.targets.countP
        (fun x => decide (x.MissionID = m.ID ∧ x.visible = true) && !decide (x.ID = tid))
          ≤ targetCount s.targets m.ID := by
      unfold targetCount
      apply List.countP_mono_left
      intro x _ hx
      simp only [Bool.and_eq_true] at hx
      exact hx.1
    refine ⟨?_, le_trans hle hold.2⟩
    by_cases hid : m.ID = missionID
    · have hsplit := targetCount_split s.targets m.ID tid
      have hone : s.targets.countP
          (fun x => decide (x.MissionID = m.ID ∧ x.visible = true) && decide (x.ID = tid))
            ≤ 1 := by
        refine le_trans ?_ (countP_ID_le_one wf.nodup tid)
        apply List.countP_mono_left
        intro x _ hx
        simp only [Bool.and_eq_true] at hx
        exact hx.2
      rw [length_targetsOf_eq, ← hid] at hlen
      omega
    · have heq : s.targets.countP
          (fun x => decide (x.MissionID = m.ID ∧ x.visible = true) && !decide (x.ID = tid))
            = targetCount s.targets m.ID := by
        unfold targetCount
        apply List.countP_congr
        intro x hx
        by_cases hq : x.MissionID = m.ID ∧ x.visible = true
        · have hne : ¬ x.ID = tid := by
            intro hxt
            have hxe : x = t := List.inj_on_of_nodup_map wf.nodup hx htmem (by
              show x.ID = t.ID
              rw [hxt, htid])
            rw [hxe, hmid] at hq
            exact hid hq.1.symm
          simp [hq, hne]
        · simp [hq]
      rw [heq]
      exact hold.1

/-- Every call of the mission service, whatever its outcome, keeps the invariant. -/
theorem WellFormed_step (op : Op) (db : Oracle) (now : Time) (s : Store) (wf : s.WellFormed) :
    (op.run db now s).1.WellFormed := by
  cases op with
  | createMission req =>
    simp only [Op.run]
    rcases CreateMission_shape db now req s with ⟨e, he⟩ | ⟨hval, hok⟩
    · rw [he]
      exact wf
    · rw [hok]
      exact WellFormed_withMission wf now req hval
  | deleteMission id0 =>
    simp only [Op.run]
    rcases DeleteMission_shape db id0 s with ⟨e, he⟩ | ⟨_, _, _, hok⟩
    · rw [he]
      exact wf
    · rw [hok]
      exact WellFormed_withoutMission wf id0
  | assignCat missionID catID =>
    simp only [Op.run]
    rcases AssignCatToMission_shape db now missionID catID s with ⟨e, he⟩ | ⟨_, _, hok⟩
    · rw [he]
      exact wf
    · rw [hok]
      simp only [Store.withAssignment, CatRepository.AssignToMission,
        MissionRepository.AssignCatToMission, if_true]
      exact WellFormed_missions_map wf _ (by intro x; split <;> rfl) _
  | addTarget missionID req =>
    simp only [Op.run]
    rcases AddTargetToMission_shape db now missionID req s with
      ⟨e, he⟩ | ⟨m, hm, hlen, _, hok⟩
    · rw [he]
      exact wf
    · rw [hok]
      exact WellFormed_add wf now missionID req m hm hlen
  | deleteTarget missionID targetID =>
    simp only [Op.run]
    rcases DeleteTargetFromMission_shape db now missionID targetID s with
      ⟨e, he⟩ | ⟨t, ht, hmid, _, hlen, hok⟩
    · rw [he]
      exact wf
    · rw [hok]
      exact WellFormed_softDelete wf now missionID targetID t ht hmid hlen
  | updateNotes catID targetID notes =>
    simp only [Op.run]
    rcases UpdateTargetNotes_cases db now catID targetID notes s with
      ⟨e, he⟩ | ⟨t, m0, ht, hm, hcat, hp, h0, h1⟩
    · rw [he]
      exact wf
    · rw [UpdateTargetNotes_fst db now catID targetID notes s t m0 ht hm hcat hp h0 h1]
      simp only [TargetRepository.UpdateNotes, if_true]
      exact WellFormed_targets_map wf _ (by intro x; split <;> rfl)
        (by intro x; split <;> rfl) (by intro x; split <;> rfl)
  | updateStatus catID targetID status =>
    simp only [Op.run]
    rcases UpdateTargetStatus_cases db now catID targetID status s with
      ⟨e, he⟩ | ⟨t, m0, ht, hm, hcat, hp, h0, h1⟩
    · rw [he]
      exact wf
    · have wf1 : (TargetRepository.UpdateStatus true now targetID status s).1.WellFormed := by
        simp only [TargetRepository.UpdateStatus, if_true]
        exact WellFormed_targets_map wf _ (by intro x; split <;> rfl)
          (by intro x; split <;> rfl) (by intro x; split <;> rfl)
      by_cases h2 : db 2 = true
      swap
      · rw [UpdateTargetStatus_rereadFailed db now catID targetID status s t m0 ht hm hcat hp
          h0 h1 h2]
        exact wf1
      rw [UpdateTargetStatus_accepted db now catID targetID status s t m0 ht hm hcat hp h0 h1 h2]
      by_cases hs : status = "completed"
      · simp only [hs, if_true]
        rw [hs] at wf1
        rcases check_shape (db.shift 3) now t.MissionID
            (TargetRepository.UpdateStatus true now targetID "completed" s).1 with
          hsame | ⟨m1, hm1, _, _, cs, hnew⟩
        · rw [hsame]
          exact wf1
        · rw [hnew]
          exact WellFormed_missions_map wf1 _ (by
            intro x
            by_cases hx : x.ID = t.MissionID
            · simp [hx, completedRow, find?_ID_eq hm1]
            · simp [hx]) cs
      · simp only [hs, if_false]
        exact wf1

theorem WellFormed_of_reachable {cats : List SpyCat} {s : Store} (h : Reachable cats s) :
    s.WellFormed := by
  induction h with
  | init => exact WellFormed_init cats
  | step op db now _ ih => exact WellFormed_step op db now _ ih

theorem reachableOk_reopened : ReachableOk [cat5] reopened :=
  ReachableOk.step (.addTarget 1 ⟨"C", "Z", none⟩) Oracle.allOk 14 reachableOk_allDone
    (by decide)

/-! ## Updates of a completed target -/

/-- The error of `UpdateTargetStatus` on a completed target whose mission is stored. -/
theorem UpdateTargetStatus_completed_target (db : Oracle) (now : Time) (catID tid : Int)
    (status : String) (s : Store) (t : Target) (m : Mission)
    (ht : s.targets.find? (fun x => x.ID = tid ∧ x.visible) = some t)
    (hs : t.Status = "completed")
    (hm : s.missions.find? (fun x => x.ID = t.MissionID) = some m)
    (h0 : db 0 = true) :
    UpdateTargetStatus db now catID tid status s
      = (s, .error (if m.CatID = some catID then .statusFinal else .notCatsMission)) := by
  unfold UpdateTargetStatus
  simp only [h0, target_GetByID_some ht, mission_GetByID_some hm, notAssignedTo_preload]
  cases hc : m.CatID with
  | none => simp [notAssignedTo, hc]
  | some c =>
    by_cases hcc : c = catID
    · simp [notAssignedTo, hc, hcc, hs]
    · simp [notAssignedTo, hc, hcc]

/-- The error of `UpdateTargetNotes` on a completed target whose mission is stored. -/
theorem UpdateTargetNotes_completed_target (db : Oracle) (now : Time) (catID tid : Int)
    (notes : String) (s : Store) (t : Target) (m : Mission)
    (ht : s.targets.find? (fun x => x.ID = tid ∧ x.visible) = some t)
    (hs : t.Status = "completed")
    (hm : s.missions.find? (fun x => x.ID = t.MissionID) = some m)
    (h0 : db 0 = true) :
    UpdateTargetNotes db now catID tid notes s
      = (s, .error (if m.CatID = some catID then .targetFinal else .notCatsMission)) := by
  unfold UpdateTargetNotes
  simp only [h0, target_GetByID_some ht, mission_GetByID_some hm, notAssignedTo_preload]
  cases hc : m.CatID with
  | none => simp [notAssignedTo, hc]
  | some c =>
    by_cases hcc : c = catID
    · simp [notAssignedTo, hc, hcc, hs]
    · simp [notAssignedTo, hc, hcc]

/-! ## Deleting a target -/

/-- What `DeleteTargetFromMission` returns for a target of the given mission
when the mission is stored and has at least two targets. -/
theorem DeleteTargetFromMission_of_two (db : Oracle) (now : Time) (missionID targetID : Int)
    (s : Store) (t : Target) (m : Mission)
    (ht : s.targets.find? (fun x => x.ID = targetID ∧ x.visible) = some t)
    (hmid : t.MissionID = missionID)
    (hm : s.missions.find? (fun x => x.ID = missionID) = some m)
    (hlen : 2 ≤ (s.targetsOf missionID).length)
    (hr : db 0 = true) :
    DeleteTargetFromMission db now missionID targetID s =
      if t.Status = "init" then
        if db 1 = true then ((TargetRepository.Delete true now targetID s).1, .ok ())
        else (s, .error (.failedDeleteTarget .failure))
      else (s, .error .onlyInitDeletable) := by
  unfold DeleteTargetFromMission
  rw [hr]
  have hid := find?_ID_eq hm
  have hne : ¬ s.targetsOf missionID = [] := by
    intro h
    rw [h] at hlen
    simp at hlen
  by_cases hst : t.Status = "init"
  · cases h0 : db 1 with
    | false =>
      simp [target_GetByID_some ht, hmid, hst, mission_GetByID_some hm,
        Mission.HasMinimumTargets, Store.preload, hid, MinTargetsRequired,
        TargetRepository.Delete, h0]
      exact ⟨hne, by omega⟩
    | true =>
      simp [target_GetByID_some ht, hmid, hst, mission_GetByID_some hm,
        Mission.HasMinimumTargets, Store.preload, hid, MinTargetsRequired,
        TargetRepository.Delete, h0]
      exact ⟨hne, by omega⟩
  · simp [target_GetByID_some ht, hmid, hst]

/-- The rows that a scoped query sees after a soft delete. -/
theorem mem_softDelete_visible (l : List Target) (now : Time) (tid : Int) (x : Target) :
    (x ∈ l.map (fun t => if t.ID = tid ∧ t.visible then { t with DeletedAt := some now } else t)
      ∧ x.visible = true) ↔ (x ∈ l ∧ x.visible = true ∧ x.ID ≠ tid) := by
  constructor
  · rintro ⟨hx, hv⟩
    rw [List.mem_map] at hx
    obtain ⟨y, hy, hyx⟩ := hx
    by_cases hc : y.ID = tid ∧ y.visible = true
    · rw [if_pos hc] at hyx
      rw [← hyx] at hv
      simp [Target.visible] at hv
    · rw [if_neg hc] at hyx
      subst hyx
      exact ⟨hy, hv, fun h => hc ⟨h, hv⟩⟩
  · rintro ⟨hx, hv, hne⟩
    refine ⟨?_, hv⟩
    rw [List.mem_map]
    exact ⟨x, hx, by simp [hne]⟩

/-! ## Adding a target -/

/-- What `AddTargetToMission` returns when the mission is stored. -/
theorem AddTargetToMission_of_mission (db : Oracle) (now : Time) (missionID : Int)
    (req : AddTargetRequest) (s : Store) (m : Mission)
    (hm : s.missions.find? (fun x => x.ID = missionID) = some m) :
    AddTargetToMission db now missionID req s =
      if 3 ≤ (s.targetsOf missionID).length then (s, .error .maxTargets)
      else if (s.targetsOf missionID).any (fun target => target.Name = req.Name) = true then
        (s, .error .targetNameExists)
      else if db 0 = true then
        ({ s with
            targets := s.targets ++ [addedTarget now missionID req s]
            nextTargetID := s.nextTargetID + 1 },
          .ok (TargetResponse.ofTarget (addedTarget now missionID req s)))
      else (s, .error (.failedCreateTarget .failure)) := by
  unfold AddTargetToMission
  have hid := find?_ID_eq hm
  simp only [mission_GetByID_some hm, Mission.CanAddTarget, Store.preload, hid,
    MaxTargetsAllowed]
  by_cases hlen : 3 ≤ (s.targetsOf missionID).length
  · have : ¬ (s.targetsOf missionID).length < 3 := by omega
    simp [hlen, this]
  · have hlt : (s.targetsOf missionID).length < 3 := by omega
    by_cases hname : (s.targetsOf missionID).any (fun target => target.Name = req.Name) = true
    · simp [hlen, hlt, hname]
    · cases h0 : db 0 with
      | false => simp [hlen, hlt, hname, TargetRepository.Create, h0]
      | true =>
        simp [hlen, hlt, hname, TargetRepository.Create, h0, addedTarget,
          AddTargetRequest.ToTargetModel, Time.IsZero]

/-! ## Deleting a mission -/

theorem CheckMissionExists_none {s : Store} {id : Int}
    (h : s.missions.find? (fun x => x.ID = id) = none) :
    MissionRepository.CheckMissionExists id s = .ok false := by
  unfold MissionRepository.CheckMissionExists
  have : s.missions.filter (fun m => m.ID = id) = [] := by
    rw [List.filter_eq_nil_iff]
    intro x hx
    exact (List.find?_eq_none.mp h) x hx
  rw [this]
  rfl

theorem CheckMissionExists_some {s : Store} {id : Int} {m : Mission}
    (h : s.missions.find? (fun x => x.ID = id) = some m) :
    MissionRepository.CheckMissionExists id s = .ok true := by
  unfold MissionRepository.CheckMissionExists
  have hmem : m ∈ s.missions.filter (fun m => m.ID = id) := by
    rw [List.mem_filter]
    exact ⟨List.mem_of_find?_eq_some h, by simpa using find?_ID_eq h⟩
  have : 0 < (s.missions.filter (fun m => m.ID = id)).length := List.length_pos_of_mem hmem
  simp [this]

/-! ## Creating a mission -/

theorem newTargets_status (now : Time) (mid : Int) :
    ∀ (ts : List Target) (n : Int) (x : Target), x ∈ newTargets now mid n ts →
      x.Status = "init" := by
  intro ts
  induction ts with
  | nil =>
    intro n x hx
    cases hx
  | cons t ts ih =>
    intro n x hx
    simp only [newTargets, List.mem_cons] at hx
    rcases hx with rfl | hx
    · rfl
    · exact ih (n + 1) x hx

theorem newTargets_names (now : Time) (mid : Int) :
    ∀ (ts : List Target) (n : Int),
      (newTargets now mid n ts).map (fun t => (t.Name, t.Country))
        = ts.map (fun t => (t.Name, t.Country)) := by
  intro ts
  induction ts with
  | nil =>
    intro n
    rfl
  | cons t ts ih =>
    intro n
    simp only [newTargets, List.map_cons, ih (n + 1)]

theorem ToModel_targets_names (req : CreateMissionRequest) :
    req.ToModel.Targets.map (fun t => (t.Name, t.Country))
      = req.Targets.map (fun t => (t.Name, t.Country)) := by
  simp [CreateMissionRequest.ToModel, List.map_map, Function.comp]

/-! ## The validation of a request -/

theorem TrimSpace_empty : TrimSpace "" = "" := by decide

theorem ne_empty_of_TrimSpace {s : String} (h : TrimSpace s ≠ "") : s ≠ "" := by
  rintro rfl
  exact h TrimSpace_empty

theorem validateMissionName_ok_iff (name : String) :
    validateMissionName name = .ok () ↔
      (TrimSpace name ≠ "" ∧ (TrimSpace name).utf8ByteSize ≤ 100) := by
  unfold validateMissionName
  by_cases h1 : TrimSpace name = ""
  · simp [h1]
  · by_cases h2 : (TrimSpace name).utf8ByteSize > 100
    · simp [h1, h2]
    · dsimp only
      rw [if_neg h1, if_neg h2]
      exact ⟨fun _ => ⟨h1, by omega⟩, fun _ => rfl⟩

theorem validateMissionDescription_ok_iff (description : String) :
    validateMissionDescription description = .ok () ↔
      (TrimSpace description ≠ "" ∧ (TrimSpace description).utf8ByteSize ≤ 500) := by
  unfold validateMissionDescription
  by_cases h1 : TrimSpace description = ""
  · simp [h1]
  · by_cases h2 : (TrimSpace description).utf8ByteSize > 500
    · simp [h1, h2]
    · dsimp only
      rw [if_neg h1, if_neg h2]
      exact ⟨fun _ => ⟨h1, by omega⟩, fun _ => rfl⟩

theorem validateMissionDates_ok_iff (startDate endDate : Time) :
    validateMissionDates startDate endDate = .ok () ↔
      (startDate = 0 ∨ endDate = 0 ∨ startDate ≤ endDate) := by
  unfold validateMissionDates Time.IsZero
  by_cases h1 : startDate = 0
  · simp [h1]
  · by_cases h2 : endDate = 0
    · simp [h2]
    · by_cases h3 : endDate < startDate
      · simp [h1, h2, h3]
      · simp [h1, h2, h3]
        exact Int.not_lt.mp h3

theorem validateCreateMissionRequest_ok_iff (req : CreateMissionRequest) :
    validateCreateMissionRequest req = .ok () ↔
      ((TrimSpace req.Name ≠ "" ∧ (TrimSpace req.Name).utf8ByteSize ≤ 100) ∧
       (TrimSpace req.Description ≠ "" ∧ (TrimSpace req.Description).utf8ByteSize ≤ 500) ∧
       datesInOrder req.StartDate req.EndDate) := by
  unfold validateCreateMissionRequest
  rw [← validateMissionName_ok_iff, ← validateMissionDescription_ok_iff]
  cases hn : validateMissionName req.Name with
  | error e => simp
  | ok u =>
    cases hd : validateMissionDescription req.Description with
    | error e => simp
    | ok u' =>
      cases hs : req.StartDate with
      | none => simp [datesInOrder]
      | some sd =>
        cases he : req.EndDate with
        | none => simp [datesInOrder]
        | some ed => simp [datesInOrder, validateMissionDates_ok_iff]

theorem validateTargetsLoop_ok_iff (ts : List Target) :
    Mission.validateTargetsLoop ts = .ok () ↔
      ((∀ t ∈ ts, t.Name ≠ "" ∧ t.Country ≠ "" ∧
          t.Name.utf8ByteSize ≤ 100 ∧ t.Country.utf8ByteSize ≤ 100) ∧
        (ts.map (fun t => t.Name)).Nodup) := by
  induction ts with
  | nil => simp [Mission.validateTargetsLoop]
  | cons t rest ih =>
    unfold Mission.validateTargetsLoop
    by_cases h1 : t.Name = ""
    · simp [h1]
    by_cases h2 : t.Country = ""
    · simp [h1, h2]
    by_cases h3 : t.Name.utf8ByteSize > 100
    · rw [if_neg h1, if_neg h2, if_pos h3]
      constructor
      · intro h
        cases h
      · rintro ⟨h, _⟩
        have := (h t (List.mem_cons_self _ _)).2.2.1
        omega
    by_cases h4 : t.Country.utf8ByteSize > 100
    · rw [if_neg h1, if_neg h2, if_neg h3, if_pos h4]
      constructor
      · intro h
        cases h
      · rintro ⟨h, _⟩
        have := (h t (List.mem_cons_self _ _)).2.2.2
        omega
    by_cases h5 : rest.any (fun x => x.Name = t.Name) = true
    · rw [if_neg h1, if_neg h2, if_neg h3, if_neg h4, if_pos h5]
      constructor
      · intro h
        cases h
      · rintro ⟨_, hnd⟩
        rw [List.map_cons, List.nodup_cons] at hnd
        rw [List.any_eq_true] at h5
        obtain ⟨x, hx, hxn⟩ := h5
        exact absurd (List.mem_map.mpr ⟨x, hx, by simpa using hxn⟩) hnd.1
    · rw [if_neg h1, if_neg h2, if_neg h3, if_neg h4, if_neg h5, ih]
      have hnot : t.Name ∉ rest.map (fun t => t.Name) := by
        intro hmem
        obtain ⟨x, hx, hxn⟩ := List.mem_map.mp hmem
        apply h5
        rw [List.any_eq_true]
        exact ⟨x, hx, by simpa using hxn⟩
      constructor
      · rintro ⟨hall, hnd⟩
        refine ⟨?_, ?_⟩
        · intro x hx
          rcases List.mem_cons.mp hx with rfl | hx
          · exact ⟨h1, h2, by omega, by omega⟩
          · exact hall x hx
        · rw [List.map_cons, List.nodup_cons]
          exact ⟨hnot, hnd⟩
      · rintro ⟨hall, hnd⟩
        rw [List.map_cons, List.nodup_cons] at hnd
        exact ⟨fun x hx => hall x (List.mem_cons_of_mem _ hx), hnd.2⟩

theorem Validate_ok_iff (m : Mission) :
    m.Validate = .ok () ↔
      (1 ≤ m.Targets.length ∧ m.Targets.length ≤ 3 ∧
        (∀ t ∈ m.Targets, t.Name ≠ "" ∧ t.Country ≠ "" ∧
          t.Name.utf8ByteSize ≤ 100 ∧ t.Country.utf8ByteSize ≤ 100) ∧
        (m.Targets.map (fun t => t.Name)).Nodup ∧ m.Name ≠ "" ∧ m.Description ≠ "") := by
  unfold Mission.Validate Mission.ValidateTargets
  simp only [MinTargetsRequired, MaxTargetsAllowed]
  by_cases h1 : m.Targets.length < 1
  · simp only [h1, if_true]
    constructor
    · intro h
      cases h
    · rintro ⟨h, _⟩
      omega
  by_cases h2 : m.Targets.length > 3
  · simp only [h1, h2, if_true, if_false]
    constructor
    · intro h
      cases h
    · rintro ⟨_, h, _⟩
      omega
  simp only [h1, h2, if_false]
  cases hl : Mission.validateTargetsLoop m.Targets with
  | error e =>
    simp only
    constructor
    · intro h
      cases h
    · rintro ⟨_, _, hall, hnd, _⟩
      rw [(validateTargetsLoop_ok_iff m.Targets).mpr ⟨hall, hnd⟩] at hl
      cases hl
  | ok u =>
    simp only
    obtain ⟨hall, hnd⟩ := (validateTargetsLoop_ok_iff m.Targets).mp hl
    by_cases h3 : m.Name = ""
    · simp [h3]
    by_cases h4 : m.Description = ""
    · simp [h3, h4]
    rw [if_neg h3, if_neg h4]
    exact ⟨fun _ => ⟨by omega, by omega, hall, hnd, h3, h4⟩, fun _ => rfl⟩

theorem ToModel_Validate_ok_iff (req : CreateMissionRequest) :
    req.ToModel.Validate = .ok () ↔
      (1 ≤ req.Targets.length ∧ req.Targets.length ≤ 3 ∧
        (∀ t ∈ req.Targets, t.Name ≠ "" ∧ t.Country ≠ "" ∧
          t.Name.utf8ByteSize ≤ 100 ∧ t.Country.utf8ByteSize ≤ 100) ∧
        (req.Targets.map (fun t => t.Name)).Nodup ∧ req.Name ≠ "" ∧ req.Description ≠ "") := by
  rw [Validate_ok_iff]
  have hn : req.ToModel.Targets.map (fun t => t.Name) = req.Targets.map (fun t => t.Name) := by
    simp [CreateMissionRequest.ToModel, List.map_map, Function.comp]
  rw [hn]
  simp [CreateMissionRequest.ToModel]

/-- The requests that pass the two validations of `CreateMission` are the acceptable ones. -/
theorem Acceptable_iff (req : CreateMissionRequest) :
    req.Acceptable ↔
      (validateCreateMissionRequest req = .ok () ∧ req.ToModel.Validate = .ok ()) := by
  rw [validateCreateMissionRequest_ok_iff, ToModel_Validate_ok_iff]
  unfold CreateMissionRequest.Acceptable
  constructor
  · rintro ⟨a, b, c, d, e, f, g, h, i⟩
    exact ⟨⟨⟨a, b⟩, ⟨c, d⟩, i⟩, e, f, g, h, ne_empty_of_TrimSpace a, ne_empty_of_TrimSpace c⟩
  · rintro ⟨⟨⟨a, b⟩, ⟨c, d⟩, i⟩, e, f, g, h, _, _⟩
    exact ⟨a, b, c, d, e, f, g, h, i⟩

theorem createTargets_accepted (db : Oracle) (now : Time) (mid : Int) :
    ∀ (ts : List Target) (k : Nat) (s : Store),
      (∀ i, k ≤ i → i < k + ts.length → db i = true) →
      createTargets db now mid k ts s =
        ({ s with
            targets := s.targets ++ newTargets now mid s.nextTargetID ts
            nextTargetID := s.nextTargetID + ts.length },
          .ok (newTargets now mid s.nextTargetID ts)) := by
  intro ts
  induction ts with
  | nil =>
    intro k s _
    simp [createTargets, newTargets]
  | cons t rest ih =>
    intro k s hdb
    have hk : db k = true := hdb k (le_refl _) (by simp)
    simp only [createTargets, TargetRepository.Create, hk, if_true]
    rw [ih (k + 1) _ (fun i h1 h2 => hdb i (by omega) (by simp only [List.length_cons]; omega))]
    simp only [newTargets, List.append_assoc, List.singleton_append, List.length_cons,
      Nat.cast_add, Nat.cast_one]
    congr 2
    ring

/-- An acceptable request is created when the database accepts the write of
the mission row and the write of each target. -/
theorem CreateMission_accepted (db : Oracle) (now : Time) (req : CreateMissionRequest)
    (s : Store) (hv : validateCreateMissionRequest req = .ok ())
    (hval : req.ToModel.Validate = .ok ())
    (hdb : ∀ i, i ≤ req.Targets.length → db i = true) :
    CreateMission db now req s
      = (s.withMission now req, .ok (MissionFromModel (createdEntity now req s))) := by
  have hlen := Validate_length hval
  have hpos : req.ToModel.Targets.length > 0 := by omega
  have hl : req.ToModel.Targets.length = req.Targets.length := by
    simp [CreateMissionRequest.ToModel]
  have h0 : db 0 = true := hdb 0 (Nat.zero_le _)
  unfold CreateMission
  rw [hv]
  simp only
  rw [@RunTransaction_ok _ _ s (s.withMission now req) (createdEntity now req s)]
  rw [h0, mission_Create_ok now req s hval]
  simp only [hpos, if_true]
  rw [createTargets_accepted db now s.nextMissionID req.ToModel.Targets 1 _
    (fun i h1 h2 => hdb i (by omega))]
  rfl

/-! ## Assignment, deletion of a mission, the mission of a cat -/

theorem find?_cat_map_sameID (l : List SpyCat) (id : Int) (g : SpyCat → SpyCat)
    (hg : ∀ c, (g c).ID = c.ID) :
    (l.map g).find? (fun c => c.ID = id) = (l.find? (fun c => c.ID = id)).map g := by
  rw [List.find?_map]
  have : ((fun c : SpyCat => decide (c.ID = id)) ∘ g) = (fun c : SpyCat => decide (c.ID = id)) := by
    funext c
    simp [Function.comp, hg]
  rw [this]

/-- The mission row after the two accepted writes of `AssignCatToMission`. -/
theorem withAssignment_mission (s : Store) (now : Time) (missionID catID : Int) (m : Mission)
    (hm : s.missions.find? (fun x => x.ID = missionID) = some m) :
    (s.withAssignment now missionID catID).missions.find? (fun x => x.ID = missionID)
      = some { m with CatID := some catID, StartDate := now, UpdatedAt := now } := by
  have hid := find?_ID_eq hm
  simp only [Store.withAssignment, CatRepository.AssignToMission,
    MissionRepository.AssignCatToMission, if_true]
  rw [find?_map_sameID _ _ _ (by intro x; split <;> rfl), hm]
  simp [hid]

/-- The cat row after the two accepted writes of `AssignCatToMission`. -/
theorem withAssignment_cat (s : Store) (now : Time) (missionID catID : Int) (k : SpyCat)
    (hk : s.cats.find? (fun c => c.ID = catID) = some k) :
    (s.withAssignment now missionID catID).cats.find? (fun c => c.ID = catID)
      = some { k with MissionID := some missionID, UpdatedAt := now } := by
  have hid : k.ID = catID := by simpa using List.find?_some hk
  simp only [Store.withAssignment, CatRepository.AssignToMission,
    MissionRepository.AssignCatToMission, if_true]
  rw [find?_cat_map_sameID _ _ _ (by intro x; split <;> rfl), hk]
  simp [hid]

/-- What `AssignCatToMission` returns when the mission is stored. -/
theorem AssignCatToMission_of_mission (db : Oracle) (now : Time) (missionID catID : Int)
    (s : Store) (m : Mission)
    (hm : s.missions.find? (fun x => x.ID = missionID) = some m) :
    AssignCatToMission db now missionID catID s =
      if db 0 = true then
        if db 1 = true then
          (s.withAssignment now missionID catID,
            .ok (MissionFromModel ((s.withAssignment now missionID catID).preload
              { m with CatID := some catID, StartDate := now, UpdatedAt := now })))
        else (s, .error (.failedAssignCat .failure))
      else (s, .error (.failedAssignMission .failure)) := by
  unfold AssignCatToMission
  cases h0 : db 0 with
  | false =>
    rw [@RunTransaction_error _ _ s (.failedAssignMission .failure)
      (by simp [MissionRepository.AssignCatToMission, h0])]
    simp
  | true =>
    cases h1 : db 1 with
    | false =>
      rw [@RunTransaction_error _ _ s (.failedAssignCat .failure)
        (by simp [MissionRepository.AssignCatToMission, h0, CatRepository.AssignToMission, h1])]
      simp
    | true =>
      rw [@RunTransaction_ok _ _ s (s.withAssignment now missionID catID) ()
        (by simp [MissionRepository.AssignCatToMission, h0, CatRepository.AssignToMission, h1,
          Store.withAssignment])]
      simp only [mission_GetByID_some (withAssignment_mission s now missionID catID m hm),
        if_true]

/-- What `AssignCatToMission` does when no mission has the given id: the two
writes are committed and the re-read of the mission fails. -/
theorem AssignCatToMission_of_no_mission (db : Oracle) (now : Time) (missionID catID : Int)
    (s : Store) (hm : s.missions.find? (fun x => x.ID = missionID) = none) :
    AssignCatToMission db now missionID catID s =
      if db 0 = true then
        if db 1 = true then
          ({ s with cats := s.cats.map (fun c =>
              if c.ID = catID then { c with MissionID := some missionID, UpdatedAt := now }
              else c) },
            .error (.failedGetUpdatedMission .recordNotFound))
        else (s, .error (.failedAssignCat .failure))
      else (s, .error (.failedAssignMission .failure)) := by
  have hmap : s.missions.map (fun m =>
      if m.ID = missionID then
        { m with CatID := some catID, StartDate := now, UpdatedAt := now }
      else m) = s.missions := by
    conv_rhs => rw [← List.map_id s.missions]
    apply List.map_congr_left
    intro x hx
    have := List.find?_eq_none.mp hm x hx
    simp only [decide_eq_true_eq] at this
    simp [this]
  unfold AssignCatToMission
  cases h0 : db 0 with
  | false =>
    rw [@RunTransaction_error _ _ s (.failedAssignMission .failure)
      (by simp [MissionRepository.AssignCatToMission, h0])]
    simp
  | true =>
    cases h1 : db 1 with
    | false =>
      rw [@RunTransaction_error _ _ s (.failedAssignCat .failure)
        (by simp [MissionRepository.AssignCatToMission, h0, CatRepository.AssignToMission, h1])]
      simp
    | true =>
      rw [@RunTransaction_ok _ _ s
        { s with cats := s.cats.map (fun c =>
            if c.ID = catID then { c with MissionID := some missionID, UpdatedAt := now }
            else c) } ()
        (by simp [MissionRepository.AssignCatToMission, h0, CatRepository.AssignToMission, h1,
          hmap])]
      have hm' : ({ s with cats := s.cats.map (fun c =>
            if c.ID = catID then { c with MissionID := some missionID, UpdatedAt := now }
            else c) } : Store).missions.find? (fun x => x.ID = missionID) = none := hm
      simp only [mission_GetByID_none hm', if_true]

theorem firstMissionOfCat_eq_find? (catID : Int) (l : List Mission) :
    firstMissionOfCat catID l = l.find? (fun m => m.CatID = some catID) := by
  induction l with
  | nil => rfl
  | cons m rest ih =>
    unfold firstMissionOfCat
    cases hc : m.CatID with
    | none => simp [hc, ih]
    | some c =>
      by_cases hcc : c = catID
      · simp [hc, hcc]
      · simp [hc, hcc, ih]

theorem find?_append_cons_first {α : Type} (p : α → Bool) (l1 l2 : List α) (a : α)
    (h1 : ∀ x ∈ l1, p x = false) (ha : p a = true) :
    (l1 ++ a :: l2).find? p = some a := by
  induction l1 with
  | nil => simp [List.find?, ha]
  | cons x xs ih =>
    have hx := h1 x (List.mem_cons_self _ _)
    simp only [List.cons_append, List.find?, hx]
    exact ih (fun y hy => h1 y (List.mem_cons_of_mem _ hy))

/-! ## The fields of the stored targets -/

theorem newTargets_fields (now : Time) (mid : Int) :
    ∀ (ts : List Target) (n : Int) (x : Target), x ∈ newTargets now mid n ts →
      ∃ t ∈ ts, x.Name = t.Name ∧ x.Country = t.Country := by
  intro ts
  induction ts with
  | nil =>
    intro n x hx
    cases hx
  | cons t ts ih =>
    intro n x hx
    simp only [newTargets, List.mem_cons] at hx
    rcases hx with rfl | hx
    · exact ⟨t, List.mem_cons_self _ _, rfl, rfl⟩
    · obtain ⟨t', ht', h⟩ := ih (n + 1) x hx
      exact ⟨t', List.mem_cons_of_mem _ ht', h⟩

/-! ## The names of the targets of a mission -/

theorem NamesUnique_targets_map {s : Store} (nu : s.NamesUnique) (f : Target → Target)
    (hM : ∀ x, (f x).MissionID = x.MissionID) (hN : ∀ x, (f x).Name = x.Name)
    (hV : ∀ x, (f x).visible = true → x.visible = true) (cs : List SpyCat)
    (ms : List Mission) (n1 n2 : Int) :
    Store.NamesUnique { cats := cs, missions := ms, targets := s.targets.map f,
                        nextMissionID := n1, nextTargetID := n2 } := by
  unfold Store.NamesUnique at nu ⊢
  show (s.targets.map f).Pairwise _
  rw [List.pairwise_map]
  refine nu.imp ?_
  intro a b hab hm hva hvb
  rw [hN, hN]
  exact hab (by rw [← hM a, ← hM b]; exact hm) (hV a hva) (hV b hvb)

theorem NamesUnique_of_targets_eq {s s' : Store} (nu : s.NamesUnique)
    (h : s'.targets = s.targets) : s'.NamesUnique := by
  unfold Store.NamesUnique at nu ⊢
  rw [h]
  exact nu

theorem newTargets_map_name (now : Time) (mid : Int) :
    ∀ (ts : List Target) (n : Int),
      (newTargets now mid n ts).map (fun t => t.Name) = ts.map (fun t => t.Name) := by
  intro ts
  induction ts with
  | nil =>
    intro n
    rfl
  | cons t ts ih =>
    intro n
    simp only [newTargets, List.map_cons, ih (n + 1)]

/-- Every call of the mission service keeps the names of the targets of a mission distinct. -/
theorem NamesUnique_step (op : Op) (db : Oracle) (now : Time) (s : Store) (wf : s.WellFormed)
    (nu : s.NamesUnique) : (op.run db now s).1.NamesUnique := by
  cases op with
  | createMission req =>
    simp only [Op.run]
    rcases CreateMission_shape db now req s with ⟨e, he⟩ | ⟨hval, hok⟩
    · rw [he]
      exact nu
    · rw [hok]
      unfold Store.NamesUnique at nu ⊢
      show (s.targets ++ newTargets now s.nextMissionID s.nextTargetID
        req.ToModel.Targets).Pairwise _
      rw [List.pairwise_append]
      refine ⟨nu, ?_, ?_⟩
      · have hnd : (req.ToModel.Targets.map (fun t => t.Name)).Nodup :=
          ((Validate_ok_iff req.ToModel).mp hval).2.2.2.1
        rw [← newTargets_map_name now s.nextMissionID req.ToModel.Targets s.nextTargetID] at hnd
        unfold List.Nodup at hnd
        rw [List.pairwise_map] at hnd
        exact hnd.imp (fun h _ _ _ => h)
      · intro a ha b hb hm
        have h1 := wf.targetMissions a ha
        have h2 := (newTargets_mem now _ _ _ b hb).1
        omega
  | deleteMission id0 =>
    simp only [Op.run]
    rcases DeleteMission_shape db id0 s with ⟨e, he⟩ | ⟨_, _, _, hok⟩
    · rw [he]
      exact nu
    · rw [hok]
      unfold Store.NamesUnique at nu ⊢
      exact nu.sublist (List.filter_sublist _)
  | assignCat missionID catID =>
    simp only [Op.run]
    rcases AssignCatToMission_shape db now missionID catID s with ⟨e, he⟩ | ⟨_, _, hok⟩
    · rw [he]
      exact nu
    · rw [hok]
      exact NamesUnique_of_targets_eq nu (by
        simp only [Store.withAssignment, CatRepository.AssignToMission,
          MissionRepository.AssignCatToMission, if_true])
  | addTarget missionID req =>
    simp only [Op.run]
    rcases AddTargetToMission_shape db now missionID req s with
      ⟨e, he⟩ | ⟨m, hm, hlen, hname, hok⟩
    · rw [he]
      exact nu
    · rw [hok]
      unfold Store.NamesUnique at nu ⊢
      show (s.targets ++ [addedTarget now missionID req s]).Pairwise _
      rw [List.pairwise_append]
      refine ⟨nu, List.pairwise_singleton _ _, ?_⟩
      intro a ha b hb hmid hva _
      rw [List.mem_singleton] at hb
      subst hb
      exact hname a (mem_targetsOf.mpr ⟨ha, hmid, hva⟩)
  | deleteTarget missionID targetID =>
    simp only [Op.run]
    rcases DeleteTargetFromMission_shape db now missionID targetID s with
      ⟨e, he⟩ | ⟨t, ht, hmid, _, hlen, hok⟩
    · rw [he]
      exact nu
    · rw [hok]
      simp only [TargetRepository.Delete, if_true]
      refine NamesUnique_targets_map nu _ (by intro x; split <;> rfl)
        (by intro x; split <;> rfl) ?_ _ _ _ _
      intro x hx
      by_cases hc : x.ID = targetID ∧ x.visible = true
      · exact hc.2
      · rw [if_neg hc] at hx
        exact hx
  | updateNotes catID targetID notes =>
    simp only [Op.run]
    rcases UpdateTargetNotes_cases db now catID targetID notes s with
      ⟨e, he⟩ | ⟨t, m0, ht, hm, hcat, hp, h0, h1⟩
    · rw [he]
      exact nu
    · rw [UpdateTargetNotes_fst db now catID targetID notes s t m0 ht hm hcat hp h0 h1]
      simp only [TargetRepository.UpdateNotes, if_true]
      exact NamesUnique_targets_map nu _ (by intro x; split <;> rfl)
        (by intro x; split <;> rfl) (by intro x; split <;> exact id) _ _ _ _
  | updateStatus catID targetID status =>
    simp only [Op.run]
    rcases UpdateTargetStatus_cases db now catID targetID status s with
      ⟨e, he⟩ | ⟨t, m0, ht, hm, hcat, hp, h0, h1⟩
    · rw [he]
      exact nu
    · have nu1 : (TargetRepository.UpdateStatus true now targetID status s).1.NamesUnique := by
        simp only [TargetRepository.UpdateStatus, if_true]
        exact NamesUnique_targets_map nu _ (by intro x; split <;> rfl)
          (by intro x; split <;> rfl) (by intro x; split <;> exact id) _ _ _ _
      by_cases h2 : db 2 = true
      swap
      · rw [UpdateTargetStatus_rereadFailed db now catID targetID status s t m0 ht hm hcat hp
          h0 h1 h2]
        exact nu1
      rw [UpdateTargetStatus_accepted db now catID targetID status s t m0 ht hm hcat hp h0 h1 h2]
      by_cases hs : status = "completed"
      · simp only [hs, if_true]
        rw [hs] at nu1
        exact NamesUnique_of_targets_eq nu1 (check_targets _ _ _ _)
      · simp only [hs, if_false]
        exact nu1

theorem NamesUnique_of_reachable {cats : List SpyCat} {s : Store} (h : Reachable cats s) :
    s.NamesUnique := by
  induction h with
  | init => exact List.Pairwise.nil
  | step op db now hprev ih => exact NamesUnique_step op db now _ (WellFormed_of_reachable hprev) ih

/-! ## `ValidateID` -/

theorem maxVal32_eq : maxVal32 = 4294967295 := by decide

theorem maxUint64_eq : maxUint64 = 18446744073709551615 := by decide

theorem le_decimalFrom (digits : List Char) : ∀ n, n ≤ decimalFrom n digits := by
  induction digits with
  | nil =>
    intro n
    exact le_refl _
  | cons c cs ih =>
    intro n
    have := ih (n * 10 + (c.toNat - 48))
    simp only [decimalFrom, List.foldl_cons] at this ⊢
    omega

/-- On decimal digits the loop of `ParseUint` returns the number they write,
or `ErrRange` with the largest value when this number has more than 32 bits. -/
theorem parseUintLoop_digits (digits : List Char) (hd : ∀ c ∈ digits, IsDigit c) :
    ∀ n, n ≤ 4294967295 →
      parseUintLoop digits n =
        if decimalFrom n digits ≤ 4294967295 then (decimalFrom n digits, none)
        else (maxVal32, some .ErrRange) := by
  induction digits with
  | nil =>
    intro n hn
    simp [parseUintLoop, decimalFrom, hn]
  | cons c cs ih =>
    intro n hn
    have hc : 48 ≤ c.toNat ∧ c.toNat ≤ 57 := hd c (List.mem_cons_self _ _)
    have hcs : ∀ x ∈ cs, IsDigit x := fun x hx => hd x (List.mem_cons_of_mem _ hx)
    have h1 : ¬ n ≥ maxUint64 / 10 + 1 := by
      rw [maxUint64_eq]
      omega
    have h2 : (n * 10) % 2 ^ 64 = n * 10 := Nat.mod_eq_of_lt (by norm_num; omega)
    have h3 : (n * 10 + (c.toNat - 48)) % 2 ^ 64 = n * 10 + (c.toNat - 48) :=
      Nat.mod_eq_of_lt (by norm_num; omega)
    have hstep : decimalFrom n (c :: cs) = decimalFrom (n * 10 + (c.toNat - 48)) cs := rfl
    unfold parseUintLoop
    simp only [hc, and_self, if_true, h1, if_false, h2, h3]
    by_cases hbig : n * 10 + (c.toNat - 48) > 4294967295
    · have hmono := le_decimalFrom cs (n * 10 + (c.toNat - 48))
      have h4 : n * 10 + (c.toNat - 48) < n * 10 ∨ n * 10 + (c.toNat - 48) > maxVal32 := by
        right
        rw [maxVal32_eq]
        exact hbig
      have h5 : ¬ decimalFrom n (c :: cs) ≤ 4294967295 := by
        rw [hstep]
        omega
      rw [if_pos h4, if_neg h5]
    · have h4 : ¬ (n * 10 + (c.toNat - 48) < n * 10 ∨ n * 10 + (c.toNat - 48) > maxVal32) := by
        rw [maxVal32_eq]
        omega
      rw [if_neg h4, ih hcs _ (by omega), hstep]

/-- The loop of `ParseUint` returns without error only on decimal digits. -/
theorem parseUintLoop_ok_digits (cs : List Char) :
    ∀ n, (parseUintLoop cs n).2 = none → ∀ c ∈ cs, IsDigit c := by
  induction cs with
  | nil =>
    intro n _ c hc
    cases hc
  | cons x xs ih =>
    intro n h c hc
    unfold parseUintLoop at h
    by_cases hx : 48 ≤ x.toNat ∧ x.toNat ≤ 57
    · rw [if_pos hx] at h
      rcases List.mem_cons.mp hc with rfl | hc
      · exact hx
      · simp only at h
        split at h
        · cases h
        · split at h
          · cases h
          · exact ih _ h c hc
    · rw [if_neg hx] at h
      cases h

theorem parseUintLoop_range (cs : List Char) :
    ∀ n, (parseUintLoop cs n).2 = some .ErrRange → (parseUintLoop cs n).1 = maxVal32 := by
  induction cs with
  | nil =>
    intro n h
    cases h
  | cons x xs ih =>
    intro n h
    unfold parseUintLoop at h ⊢
    by_cases hx : 48 ≤ x.toNat ∧ x.toNat ≤ 57
    · rw [if_pos hx] at h ⊢
      simp only at h ⊢
      split
      · rfl
      · rename_i h1
        rw [if_neg h1] at h
        split
        · rfl
        · rename_i h2
          rw [if_neg h2] at h
          exact ih _ h
    · rw [if_neg hx] at h
      cases h

/-- The result of `ParseInt` after the sign, on one or more decimal digits. -/
theorem parseIntUnsigned_digits (neg : Bool) (s : List Char) (hne : s ≠ [])
    (hd : ∀ c ∈ s, IsDigit c) :
    parseIntUnsigned neg s =
      if neg = true then
        if decimalValue s > 2147483648 then (-2147483648, some .ErrRange)
        else (- (decimalValue s : Int), none)
      else
        if decimalValue s ≥ 2147483648 then (2147483647, some .ErrRange)
        else ((decimalValue s : Int), none) := by
  have hloop := parseUintLoop_digits s hd 0 (by omega)
  unfold parseIntUnsigned ParseUint
  rw [if_neg hne, hloop]
  show _ = if neg = true then
        if decimalFrom 0 s > 2147483648 then (-2147483648, some NumError.ErrRange)
        else (- (decimalFrom 0 s : Int), none)
      else
        if decimalFrom 0 s ≥ 2147483648 then (2147483647, some NumError.ErrRange)
        else ((decimalFrom 0 s : Int), none)
  by_cases hle : decimalFrom 0 s ≤ 4294967295
  · rw [if_pos hle]
    cases neg with
    | false =>
      by_cases h2 : decimalFrom 0 s ≥ 2147483648
      · simp [h2]
      · simp [h2]
    | true =>
      by_cases h2 : decimalFrom 0 s > 2147483648
      · simp [h2]
      · simp [h2]
  · rw [if_neg hle, maxVal32_eq]
    cases neg with
    | false =>
      have h2 : decimalFrom 0 s ≥ 2147483648 := by omega
      simp [h2]
    | true =>
      have h2 : decimalFrom 0 s > 2147483648 := by omega
      simp [h2]

/-- `ParseInt` fails after the sign when what follows is empty or holds a
character that is no decimal digit. -/
theorem parseIntUnsigned_nondigits (neg : Bool) (s : List Char)
    (h : ¬ (s ≠ [] ∧ ∀ c ∈ s, IsDigit c)) : (parseIntUnsigned neg s).2 ≠ none := by
  unfold parseIntUnsigned ParseUint
  by_cases hne : s = []
  · rw [if_pos hne]
    simp
  · rw [if_neg hne]
    have hnd : (parseUintLoop s 0).2 ≠ none := by
      intro hnone
      exact h ⟨hne, parseUintLoop_ok_digits s 0 hnone⟩
    have hr := parseUintLoop_range s 0
    revert hnd hr
    generalize parseUintLoop s 0 = r
    obtain ⟨un, err⟩ := r
    intro hnd hr
    cases err with
    | none => exact absurd rfl hnd
    | some e =>
      cases e with
      | ErrSyntax => simp
      | ErrRange =>
        have hun : un = maxVal32 := hr rfl
        rw [hun, maxVal32_eq]
        cases neg <;> simp

theorem int32_of_small (x : Int) (h0 : 0 ≤ x) (h1 : x ≤ 2147483647) : int32 x = x := by
  unfold int32
  norm_num
  omega

/-- The end of `ValidateID`, after the sign has been read. -/
theorem ValidateID_after_sign (neg : Bool) (s : List Char) (p : String) (v : Int) :
    (match parseIntUnsigned neg s with
      | (_, some _) => Except.error (ValidateErr.invalidInteger p)
      | (id, none) => if id ≤ 0 then Except.error (ValidateErr.notPositive p)
                      else Except.ok (int32 id)) = Except.ok v ↔
      (neg = false ∧ s ≠ [] ∧ (∀ c ∈ s, IsDigit c) ∧ v = decimalValue s ∧
        1 ≤ decimalValue s ∧ decimalValue s ≤ 2147483647) := by
  by_cases hs : s ≠ [] ∧ ∀ c ∈ s, IsDigit c
  · rw [parseIntUnsigned_digits neg s hs.1 hs.2]
    cases neg with
    | true =>
      simp only [if_true]
      by_cases h2 : decimalValue s > 2147483648
      · simp [h2]
      · simp only [h2, if_false]
        have : (- (decimalValue s : Int)) ≤ 0 := by omega
        simp [this]
    | false =>
      simp only [Bool.false_eq_true, if_false]
      by_cases h2 : decimalValue s ≥ 2147483648
      · simp only [h2, if_true]
        constructor
        · intro h
          cases h
        · rintro ⟨_, _, _, _, _, h⟩
          omega
      · simp only [h2, if_false]
        by_cases h3 : (decimalValue s : Int) ≤ 0
        · simp only [h3, if_true]
          constructor
          · intro h
            cases h
          · rintro ⟨_, _, _, _, h, _⟩
            omega
        · simp only [h3, if_false]
          rw [int32_of_small _ (by omega) (by omega)]
          constructor
          · intro h
            simp only [Except.ok.injEq] at h
            exact ⟨trivial, hs.1, hs.2, h.symm, by omega, by omega⟩
          · rintro ⟨_, _, _, h, _, _⟩
            rw [h]
  · have herr := parseIntUnsigned_nondigits neg s hs
    constructor
    · intro h
      exfalso
      revert herr h
      generalize parseIntUnsigned neg s = r
      obtain ⟨id, err⟩ := r
      intro herr h
      cases err with
      | none => exact herr rfl
      | some e => cases h
    · rintro ⟨_, h1, h2, _⟩
      exact absurd ⟨h1, h2⟩ hs

theorem plus_not_digit : ¬ IsDigit '+' := by decide

theorem minus_not_digit : ¬ IsDigit '-' := by decide

/-- `ValidateID` returns `v` exactly when the string is a base-10 integer
literal of value `v` and `v` lies between 1 and 2147483647. -/
theorem ValidateID_ok_iff (idStr paramName : String) (v : Int) :
    ValidateID idStr paramName = .ok v ↔
      (IsDecimalLiteral idStr v ∧ 1 ≤ v ∧ v ≤ 2147483647) := by
  unfold IsDecimalLiteral
  cases hdata : idStr.data with
  | nil =>
    have hempty : idStr = "" := String.ext hdata
    constructor
    · intro h
      rw [hempty] at h
      simp [ValidateID] at h
    · rintro ⟨⟨digits, hne, _, h | h | h⟩, _⟩
      · exact absurd h.1.symm hne
      · cases h.1
      · cases h.1
  | cons c rest =>
    have hne : ¬ idStr = "" := by
      intro h
      rw [h] at hdata
      cases hdata
    unfold ValidateID
    rw [if_neg hne]
    unfold ParseInt
    rw [hdata]
    simp only
    by_cases hplus : c = '+'
    · rw [if_pos hplus, ValidateID_after_sign]
      subst hplus
      constructor
      · rintro ⟨_, h1, h2, h3, h4, h5⟩
        exact ⟨⟨rest, h1, h2, Or.inr (Or.inl ⟨rfl, h3⟩)⟩, by omega, by omega⟩
      · rintro ⟨⟨digits, h1, h2, h | h | h⟩, h4, h5⟩
        · have : '+' ∈ digits := by
            rw [← h.1]
            exact List.mem_cons_self _ _
          exact absurd (h2 _ this) plus_not_digit
        · obtain ⟨hd, hv⟩ := h
          simp only [List.cons.injEq, true_and] at hd
          subst hd
          exact ⟨rfl, h1, h2, hv, by omega, by omega⟩
        · obtain ⟨hd, _⟩ := h
          simp only [List.cons.injEq] at hd
          exact absurd hd.1 (by decide)
    · rw [if_neg hplus]
      by_cases hminus : c = '-'
      · rw [if_pos hminus, ValidateID_after_sign]
        subst hminus
        constructor
        · rintro ⟨h, _⟩
          cases h
        · rintro ⟨⟨digits, h1, h2, h | h | h⟩, h4, h5⟩
          · have : '-' ∈ digits := by
              rw [← h.1]
              exact List.mem_cons_self _ _
            exact absurd (h2 _ this) minus_not_digit
          · obtain ⟨hd, _⟩ := h
            simp only [List.cons.injEq] at hd
            exact absurd hd.1 (by decide)
          · obtain ⟨_, hv⟩ := h
            omega
      · rw [if_neg hminus, ValidateID_after_sign]
        constructor
        · rintro ⟨_, h1, h2, h3, h4, h5⟩
          exact ⟨⟨c :: rest, h1, h2, Or.inl ⟨rfl, h3⟩⟩, by omega, by omega⟩
        · rintro ⟨⟨digits, h1, h2, h | h | h⟩, h4, h5⟩
          · obtain ⟨hd, hv⟩ := h
            subst hd
            exact ⟨rfl, h1, h2, hv, by omega, by omega⟩
          · obtain ⟨hd, _⟩ := h
            simp only [List.cons.injEq] at hd
            exact absurd hd.1 hplus
          · obtain ⟨hd, _⟩ := h
            simp only [List.cons.injEq] at hd
            exact absurd hd.1 hminus

/-! ## The claims -/

/-- C6. `checkAndCompleteMission` on a mission that is already completed
returns without error and leaves the store as it is (so `CompletedAt`,
`EndDate` and every cat are untouched); a second run under the same write
oracle, and a second run under any oracle once the first mission write was
accepted, gives the store of the first run. -/
theorem checkAndCompleteMission_idempotent (db db' : Oracle) (now now' : Time) (id : Int)
    (s : Store) :
    (∀ m, s.missions.find? (fun x => x.ID = id) = some m → m.IsCompleted = true →
      checkAndCompleteMission db now id s = (s, .ok ())) ∧
    (checkAndCompleteMission db now' id (checkAndCompleteMission db now id s).1).1
      = (checkAndCompleteMission db now id s).1 ∧
    (db 0 = true →
      (checkAndCompleteMission db' now' id (checkAndCompleteMission db now id s).1).1
        = (checkAndCompleteMission db now id s).1) := by
  refine ⟨fun m hfind hc => check_noop _ _ _ _ _ hfind (Or.inl hc), ?_, ?_⟩
  · cases h0 : db 0 with
    | true => exact check_second_run db db now now' id s (Or.inl h0)
    | false => exact check_second_run db db now now' id s (Or.inr h0)
  · intro h0
    exact check_second_run db db' now now' id s (Or.inl h0)

theorem checkAndCompleteMission_idempotent_witness :
    allDone.missions.map (fun m => (m.ID, m.IsCompleted)) = [(1, true)] ∧
    checkAndCompleteMission Oracle.allOk 20 1 allDone = (allDone, .ok ()) ∧
    (checkAndCompleteMission Oracle.allOk 21 1
        (checkAndCompleteMission Oracle.allOk 20 1 bothDone).1).1
      = (checkAndCompleteMission Oracle.allOk 20 1 bothDone).1 :=
  ⟨by decide,
   (checkAndCompleteMission_idempotent Oracle.allOk Oracle.allOk 20 21 1 allDone).1 _
     (by rfl) (by rfl),
   (checkAndCompleteMission_idempotent Oracle.allOk Oracle.allOk 20 21 1 bothDone).2.2
     (by rfl)⟩

/-- C3, the counterexample. A mission row with cat 5 assigned, not completed,
and no target row at all: given this store, `checkAndCompleteMission` marks
the mission completed and frees the cat, as it tests the status of the
targets and not their number. No call of the service leaves such a store;
the function is evaluated on it as it is written. -/
theorem checkAndCompleteMission_completes_mission_without_targets :
    noTargets.targetsOf 1 = [] ∧
    noTargets.missions.map (fun m => (m.ID, m.IsCompleted)) = [(1, false)] ∧
    noTargets.cats.map (fun c => (c.ID, c.MissionID)) = [(5, some 1)] ∧
    (checkAndCompleteMission Oracle.allOk 20 1 noTargets).2 = .ok () ∧
    (checkAndCompleteMission Oracle.allOk 20 1 noTargets).1.missions.map
      (fun m => (m.ID, m.IsCompleted)) = [(1, true)] ∧
    (checkAndCompleteMission Oracle.allOk 20 1 noTargets).1.cats.map
      (fun c => (c.ID, c.MissionID)) = [(5, none)] := by
  decide

/-- C3, the amended claim. When `checkAndCompleteMission` turns the completion
flag of a mission from false to true, every target of the mission has the
status completed. For a stored mission with a pending target it returns
without error and leaves the store as it is, so the mission stays not
completed and keeps its cat. And the store that `UpdateTargetStatus`, its
only caller, gives it holds the target just updated among the targets of
the mission, so that a mission it completes there has at least one target. -/
theorem checkAndCompleteMission_completes_only_all_completed (db : Oracle) (now : Time)
    (id : Int) (s : Store) :
    (∀ m m', s.missions.find? (fun x => x.ID = id) = some m → m.IsCompleted = false →
      (checkAndCompleteMission db now id s).1.missions.find? (fun x => x.ID = id) = some m' →
      m'.IsCompleted = true → ∀ t ∈ s.targetsOf id, t.Status = "completed") ∧
    (∀ m, s.missions.find? (fun x => x.ID = id) = some m →
      (∃ t ∈ s.targetsOf id, t.Status ≠ "completed") →
      checkAndCompleteMission db now id s = (s, .ok ())) ∧
    (∀ tid status t, s.targets.find? (fun x => x.ID = tid ∧ x.visible) = some t →
      t.MissionID = id →
      ({ t with Status := status, UpdatedAt := now } : Target)
        ∈ (TargetRepository.UpdateStatus true now tid status s).1.targetsOf id) := by
  refine ⟨?_, ?_, ?_⟩
  · intro m m' hm hnc hm' hc'
    rcases check_shape db now id s with hsame | ⟨m1, _, _, hall, _, _⟩
    · rw [hsame, hm] at hm'
      cases hm'
      rw [hnc] at hc'
      cases hc'
    · exact hall
  · intro m hm hpending
    exact check_noop db now id s m hm (Or.inr hpending)
  · intro tid status t ht hmid
    have hre := reread_after_UpdateStatus now tid status s t ht
    have hfound := target_found (find?_of_target_GetByID hre)
    rw [mem_targetsOf]
    exact ⟨hfound.1, hmid, hfound.2.2⟩

theorem checkAndCompleteMission_completes_only_all_completed_witness :
    (∀ t ∈ bothDone.targetsOf 1, t.Status = "completed") ∧
    checkAndCompleteMission Oracle.allOk 13 1 oneDone = (oneDone, .ok ()) ∧
    ({ ID := 2, MissionID := 1, Name := "B", Country := "Y", Notes := none,
       Status := "completed", CreatedAt := 10, UpdatedAt := 13, DeletedAt := none } : Target)
      ∈ (TargetRepository.UpdateStatus true 13 2 "completed" oneDone).1.targetsOf 1 :=
  ⟨(checkAndCompleteMission_completes_only_all_completed Oracle.allOk 13 1 bothDone).1
      { ID := 1, Name := "Op", Description := "d", StartDate := 11, EndDate := 0,
        CatID := some 5, IsCompleted := false, CompletedAt := none, CreatedAt := 10,
        UpdatedAt := 11, Cat := none, Targets := [] }
      { ID := 1, Name := "Op", Description := "d", StartDate := 11, EndDate := 13,
        CatID := some 5, IsCompleted := true, CompletedAt := some 13, CreatedAt := 10,
        UpdatedAt := 13, Cat := none, Targets := [] }
      (by decide) rfl (by decide) rfl,
   (checkAndCompleteMission_completes_only_all_completed Oracle.allOk 13 1 oneDone).2.1
      { ID := 1, Name := "Op", Description := "d", StartDate := 11, EndDate := 0,
        CatID := some 5, IsCompleted := false, CompletedAt := none, CreatedAt := 10,
        UpdatedAt := 11, Cat := none, Targets := [] }
      (by decide)
      ⟨{ ID := 2, MissionID := 1, Name := "B", Country := "Y", Notes := none,
         Status := "init", CreatedAt := 10, UpdatedAt := 10, DeletedAt := none },
        by decide, by decide⟩,
   (checkAndCompleteMission_completes_only_all_completed Oracle.allOk 13 1 oneDone).2.2
      2 "completed"
      { ID := 2, MissionID := 1, Name := "B", Country := "Y", Notes := none,
        Status := "init", CreatedAt := 10, UpdatedAt := 10, DeletedAt := none }
      (by decide) rfl⟩

/-- C5, at the failing input. Both targets of the mission of cat 5 are
completed and the database accepts every write: `checkAndCompleteMission`
returns without error, the cat row has lost its mission reference and the
mission row still refers to cat 5, as `Save` writes `cat_id` from the cat
that was preloaded with the mission. The same store is reached by the calls
of the service: it is the store after cat 5 has completed both targets. When
the cat write is refused, no reference is cleared. -/
theorem checkAndCompleteMission_clears_one_side_only :
    bothDone.missions.map (fun m => (m.ID, m.IsCompleted, m.CatID)) = [(1, false, some 5)] ∧
    bothDone.cats.map (fun c => (c.ID, c.MissionID)) = [(5, some 1)] ∧
    (checkAndCompleteMission Oracle.allOk 13 1 bothDone).2 = .ok () ∧
    (checkAndCompleteMission Oracle.allOk 13 1 bothDone).1.missions.map
      (fun m => (m.ID, m.IsCompleted, m.CatID)) = [(1, true, some 5)] ∧
    (checkAndCompleteMission Oracle.allOk 13 1 bothDone).1.cats.map
      (fun c => (c.ID, c.MissionID)) = [(5, none)] ∧
    (UpdateTargetStatus Oracle.allOk 13 5 2 "completed" oneDone).1
      = (checkAndCompleteMission Oracle.allOk 13 1 bothDone).1 ∧
    ReachableOk [cat5] allDone ∧
    (checkAndCompleteMission (fun k => k == 0) 13 1 bothDone).2
      = .error (.failedUnassignCat .failure) ∧
    (checkAndCompleteMission (fun k => k == 0) 13 1 bothDone).1.missions.map
      (fun m => (m.ID, m.CatID)) = [(1, some 5)] ∧
    (checkAndCompleteMission (fun k => k == 0) 13 1 bothDone).1.cats.map
      (fun c => (c.ID, c.MissionID)) = [(5, some 1)] :=
  ⟨by decide, by decide, by decide, by decide, by decide, by decide, reachableOk_allDone,
   by decide, by decide, by decide⟩

/-- C2, at the failing input and in general. A mission that is not completed,
has cat `c` assigned (the cat row is stored) and whose targets other than
`t` are all completed: when the database answers every read and accepts
every write, `UpdateTargetStatus c t "completed"` returns the updated target
and leaves the mission completed, with `CompletedAt = now` and with
`EndDate = now` if it was unset, unchanged otherwise, and the cat row with
id `c` without mission; but the mission row still has `CatID = c`. -/
theorem UpdateTargetStatus_completed_mission_keeps_cat (db : Oracle) (now : Time)
    (c tid : Int) (s : Store) (t : Target) (m : Mission) (k : SpyCat)
    (ht : s.targets.find? (fun x => x.ID = tid ∧ x.visible) = some t)
    (hm : s.missions.find? (fun x => x.ID = t.MissionID) = some m)
    (hcat : m.CatID = some c) (hnc : m.IsCompleted = false)
    (hk : s.cats.find? (fun x => x.ID = c) = some k)
    (hpending : t.Status ≠ "completed")
    (hothers : ∀ x ∈ s.targets, x.MissionID = t.MissionID → x.visible = true → x.ID ≠ tid →
      x.Status = "completed")
    (hdb : ∀ i, db i = true) :
    (UpdateTargetStatus db now c tid "completed" s).2
      = .ok (TargetResponse.ofTarget { t with Status := "completed", UpdatedAt := now }) ∧
    (∃ m', (UpdateTargetStatus db now c tid "completed" s).1.missions.find?
          (fun x => x.ID = t.MissionID) = some m' ∧
      m'.IsCompleted = true ∧ m'.CatID = some c ∧ m'.CompletedAt = some now ∧
      m'.EndDate = (if m.EndDate.IsZero then now else m.EndDate)) ∧
    (UpdateTargetStatus db now c tid "completed" s).1.cats.find? (fun x => x.ID = c)
      = some { k with MissionID := none, UpdatedAt := now } ∧
    (∀ x ∈ (UpdateTargetStatus db now c tid "completed" s).1.cats,
      x.ID = c → x.MissionID = none) := by
  have hall := targets_completed_after_last now tid s t hothers
  have hm1 : (TargetRepository.UpdateStatus true now tid "completed" s).1.missions.find?
      (fun x => x.ID = t.MissionID) = some m := by
    simpa [TargetRepository.UpdateStatus] using hm
  have hk1 : (TargetRepository.UpdateStatus true now tid "completed" s).1.catOf (some c)
      = some k := by
    simpa [TargetRepository.UpdateStatus, Store.catOf] using hk
  have hkid : k.ID = c := by
    have := List.find?_some hk
    simpa using this
  have h3 : (db.shift 3) 0 = true := by simp [Oracle.shift, hdb]
  have h4 : (db.shift 3) 1 = true := by simp [Oracle.shift, hdb]
  rw [UpdateTargetStatus_accepted db now c tid "completed" s t m ht hm hcat hpending
    (hdb 0) (hdb 1) (hdb 2)]
  simp only [if_true]
  rw [check_completes (db.shift 3) now t.MissionID _ m hm1 hnc hall h3]
  simp only [hcat, h4, if_true]
  rw [hk1]
  refine ⟨trivial, ⟨completedRow now (some k) m, ?_, rfl, ?_, rfl, rfl⟩, ?_, ?_⟩
  · exact find?_after_complete now (some k) t.MissionID _ m hm1
  · simp [completedRow, hkid]
  · have hcats : (TargetRepository.UpdateStatus true now tid "completed" s).1.cats = s.cats := by
      simp [TargetRepository.UpdateStatus]
    simp only [hcats]
    rw [find?_cat_after_unassign now c s.cats k hk]
  · intro x hx hxc
    simp only [List.mem_map] at hx
    obtain ⟨k0, _, hk0⟩ := hx
    by_cases h : k0.ID = c
    · rw [if_pos h] at hk0
      rw [← hk0]
    · rw [if_neg h] at hk0
      subst hk0
      exact absurd hxc h

theorem UpdateTargetStatus_completed_mission_keeps_cat_witness :
    ReachableOk [cat5] oneDone ∧
    (UpdateTargetStatus Oracle.allOk 13 5 2 "completed" oneDone).2
      = .ok (TargetResponse.ofTarget
          { ID := 2, MissionID := 1, Name := "B", Country := "Y", Notes := none,
            Status := "completed", CreatedAt := 10, UpdatedAt := 13, DeletedAt := none }) ∧
    (∃ m', (UpdateTargetStatus Oracle.allOk 13 5 2 "completed" oneDone).1.missions.find?
          (fun x => x.ID = 1) = some m' ∧
      m'.IsCompleted = true ∧ m'.CatID = some 5 ∧ m'.CompletedAt = some 13 ∧
      m'.EndDate = 13) ∧
    (UpdateTargetStatus Oracle.allOk 13 5 2 "completed" oneDone).1.cats.find?
        (fun x => x.ID = 5)
      = some { cat5 with MissionID := none, UpdatedAt := 13 } ∧
    (∀ x ∈ (UpdateTargetStatus Oracle.allOk 13 5 2 "completed" oneDone).1.cats,
      x.ID = 5 → x.MissionID = none) :=
  ⟨reachableOk_oneDone,
   UpdateTargetStatus_completed_mission_keeps_cat Oracle.allOk 13 5 2 oneDone
    { ID := 2, MissionID := 1, Name := "B", Country := "Y", Notes := none,
      Status := "init", CreatedAt := 10, UpdatedAt := 10, DeletedAt := none }
    { ID := 1, Name := "Op", Description := "d", StartDate := 11, EndDate := 0,
      CatID := some 5, IsCompleted := false, CompletedAt := none, CreatedAt := 10,
      UpdatedAt := 11, Cat := none, Targets := [] }
    { cat5 with MissionID := some 1, UpdatedAt := 11 }
    (by decide) (by decide) rfl rfl (by decide) (by decide) (by decide) (fun _ => rfl)⟩

/-- C8, the amended claim. A successful `UpdateTargetStatus` acts on a target
whose status is not completed and stores exactly the requested status,
whatever it is; on a target whose status is completed the call returns an
error and the store it was given. -/
theorem UpdateTargetStatus_writes_requested_status (db : Oracle) (now : Time)
    (catID targetID : Int) (status : String) (s : Store) (t : Target)
    (ht : s.targets.find? (fun x => x.ID = targetID ∧ x.visible) = some t) :
    (∀ resp, (UpdateTargetStatus db now catID targetID status s).2 = .ok resp →
      t.Status ≠ "completed" ∧ resp.Status = status ∧
      (UpdateTargetStatus db now catID targetID status s).1.targets.find?
          (fun x => x.ID = targetID ∧ x.visible)
        = some { t with Status := status, UpdatedAt := now }) ∧
    (t.Status = "completed" →
      ∃ e, UpdateTargetStatus db now catID targetID status s = (s, .error e)) := by
  rcases UpdateTargetStatus_cases db now catID targetID status s with ⟨e, he⟩ | h
  · refine ⟨?_, fun _ => ⟨e, he⟩⟩
    intro resp hok
    rw [he] at hok
    cases hok
  · obtain ⟨t', m, ht', hm, hcat, hp, h0, h1⟩ := h
    rw [ht] at ht'
    cases ht'
    refine ⟨?_, fun hc => absurd hc hp⟩
    intro resp hok
    have hre := reread_after_UpdateStatus now targetID status s t ht
    by_cases h2 : db 2 = true
    swap
    · rw [UpdateTargetStatus_rereadFailed db now catID targetID status s t m ht hm hcat hp
        h0 h1 h2] at hok
      cases hok
    rw [UpdateTargetStatus_accepted db now catID targetID status s t m ht hm hcat hp h0 h1 h2]
      at hok ⊢
    cases hok
    refine ⟨hp, rfl, ?_⟩
    have key : (TargetRepository.UpdateStatus true now targetID status s).1.targets.find?
        (fun x => x.ID = targetID ∧ x.visible)
          = some { t with Status := status, UpdatedAt := now } := by
      exact find?_of_target_GetByID hre
    by_cases hs : status = "completed"
    · simp only [hs, if_true, check_targets]
      rw [hs] at key
      exact key
    · simp only [hs, if_false]
      exact key

theorem UpdateTargetStatus_writes_requested_status_witness :
    (∀ resp, (UpdateTargetStatus Oracle.allOk 13 5 1 "init" inProgress).2 = .ok resp →
      "in_progress" ≠ "completed" ∧ resp.Status = "init" ∧
      (UpdateTargetStatus Oracle.allOk 13 5 1 "init" inProgress).1.targets.find?
          (fun x => x.ID = 1 ∧ x.visible)
        = some { ID := 1, MissionID := 1, Name := "A", Country := "X", Notes := none,
                 Status := "init", CreatedAt := 10, UpdatedAt := 13, DeletedAt := none }) ∧
    ("in_progress" = "completed" →
      ∃ e, UpdateTargetStatus Oracle.allOk 13 5 1 "init" inProgress
        = (inProgress, .error e)) :=
  UpdateTargetStatus_writes_requested_status Oracle.allOk 13 5 1 "init" inProgress
    { ID := 1, MissionID := 1, Name := "A", Country := "X", Notes := none,
      Status := "in_progress", CreatedAt := 10, UpdatedAt := 12, DeletedAt := none }
    (by decide)

/-- C8, the counterexample. Target 1 is in progress; cat 5, assigned to its
mission, sets it back to `init`: the call returns without error and the
stored status is `init`, which is earlier than `in_progress`. -/
theorem UpdateTargetStatus_moves_status_back :
    inProgress.targets.map (fun t => (t.ID, t.Status)) = [(1, "in_progress"), (2, "init")] ∧
    (UpdateTargetStatus Oracle.allOk 13 5 1 "init" inProgress).2.toBool = true ∧
    (UpdateTargetStatus Oracle.allOk 13 5 1 "init" inProgress).1.targets.map
      (fun t => (t.ID, t.Status)) = [(1, "init"), (2, "init")] ∧
    statusRank "in_progress" = some 1 ∧ statusRank "init" = some 0 := by
  decide

/-- What a call of `UpdateTargetStatus` or `UpdateTargetNotes` leaves behind.
A call returns without error only if the target exists, its mission exists
and has the acting cat assigned (a mission without cat has `CatID = none`
and so rejects every cat) and the status of the target is not completed.
When a call returns an error, either the store is the one it was given, or
the error is "failed to get updated target" and the store is the one after
the write. -/
theorem update_result_cases (db : Oracle) (now : Time)
    (catID targetID : Int) (text : String) (s : Store) :
    (∀ resp, (UpdateTargetStatus db now catID targetID text s).2 = .ok resp →
      ∃ t m, s.targets.find? (fun x => x.ID = targetID ∧ x.visible) = some t ∧
        s.missions.find? (fun x => x.ID = t.MissionID) = some m ∧
        m.CatID = some catID ∧ t.Status ≠ "completed") ∧
    (∀ e, (UpdateTargetStatus db now catID targetID text s).2 = .error e →
      (UpdateTargetStatus db now catID targetID text s).1 = s ∨
      (e = .failedGetUpdatedTarget .failure ∧
        (UpdateTargetStatus db now catID targetID text s).1
          = (TargetRepository.UpdateStatus true now targetID text s).1)) ∧
    (∀ resp, (UpdateTargetNotes db now catID targetID text s).2 = .ok resp →
      ∃ t m, s.targets.find? (fun x => x.ID = targetID ∧ x.visible) = some t ∧
        s.missions.find? (fun x => x.ID = t.MissionID) = some m ∧
        m.CatID = some catID ∧ t.Status ≠ "completed") ∧
    (∀ e, (UpdateTargetNotes db now catID targetID text s).2 = .error e →
      (UpdateTargetNotes db now catID targetID text s).1 = s ∨
      (e = .failedGetUpdatedTarget .failure ∧
        (UpdateTargetNotes db now catID targetID text s).1
          = (TargetRepository.UpdateNotes true now targetID text s).1)) := by
  refine ⟨?_, ?_, ?_, ?_⟩
  · intro resp hok
    rcases UpdateTargetStatus_cases db now catID targetID text s with ⟨e, he⟩ | h
    · rw [he] at hok
      cases hok
    · obtain ⟨t, m, ht, hm, hcat, hp, _⟩ := h
      exact ⟨t, m, ht, hm, hcat, hp⟩
  · intro e herr
    rcases UpdateTargetStatus_cases db now catID targetID text s with ⟨e', he⟩ | h
    · left
      rw [he]
    · obtain ⟨t, m, ht, hm, hcat, hp, h0, h1⟩ := h
      by_cases h2 : db 2 = true
      · rw [UpdateTargetStatus_accepted db now catID targetID text s t m ht hm hcat hp
          h0 h1 h2] at herr
        cases herr
      · rw [UpdateTargetStatus_rereadFailed db now catID targetID text s t m ht hm hcat hp
          h0 h1 h2] at herr ⊢
        cases herr
        exact Or.inr ⟨rfl, rfl⟩
  · intro resp hok
    rcases UpdateTargetNotes_cases db now catID targetID text s with ⟨e, he⟩ | h
    · rw [he] at hok
      cases hok
    · obtain ⟨t, m, ht, hm, hcat, hp, _⟩ := h
      exact ⟨t, m, ht, hm, hcat, hp⟩
  · intro e herr
    rcases UpdateTargetNotes_cases db now catID targetID text s with ⟨e', he⟩ | h
    · left
      rw [he]
    · obtain ⟨t, m, ht, hm, hcat, hp, h0, h1⟩ := h
      rw [UpdateTargetNotes_written db now catID targetID text s t m ht hm hcat hp h0 h1]
        at herr ⊢
      by_cases h2 : db 2 = true
      · rw [if_pos h2] at herr
        cases herr
      · rw [if_neg h2] at herr ⊢
        cases herr
        exact Or.inr ⟨rfl, rfl⟩

/-- C10, at the failing input. Cat 5 is assigned to mission 1, whose target 1
has the status `init` and no notes. The database accepts the write of the
call and does not answer the read of the target that follows it:
`UpdateTargetStatus` returns the error "failed to get updated target" and
target 1 is stored with the new status; `UpdateTargetNotes` returns the same
error and target 1 is stored with the new notes. -/
theorem update_error_after_committed_write :
    ReachableOk [cat5] assigned ∧
    assigned.targets.map (fun t => (t.ID, t.Status, t.Notes))
      = [(1, "init", none), (2, "init", none)] ∧
    (UpdateTargetStatus (fun k => k != 2) 12 5 1 "in_progress" assigned).2
      = .error (.failedGetUpdatedTarget .failure) ∧
    (UpdateTargetStatus (fun k => k != 2) 12 5 1 "in_progress" assigned).1.targets.map
      (fun t => (t.ID, t.Status, t.Notes)) = [(1, "in_progress", none), (2, "init", none)] ∧
    (UpdateTargetNotes (fun k => k != 2) 12 5 1 "seen" assigned).2
      = .error (.failedGetUpdatedTarget .failure) ∧
    (UpdateTargetNotes (fun k => k != 2) 12 5 1 "seen" assigned).1.targets.map
      (fun t => (t.ID, t.Status, t.Notes)) = [(1, "init", some "seen"), (2, "init", none)] :=
  ⟨reachableOk_assigned, by decide, by decide, by decide, by decide, by decide⟩

/-- C9, at the failing input. After `CreateMission`, `AssignCatToMission` and
one `UpdateTargetStatus`, cat 5 calls `UpdateTargetStatus 5 2 "done"`: the
call returns without error and target 2 is stored with the status `done`,
which is none of `init`, `in_progress`, `completed`. -/
theorem UpdateTargetStatus_stores_any_string :
    ReachableOk [cat5] oddStatus ∧
    (UpdateTargetStatus Oracle.allOk 13 5 2 "done" oneDone).2.toBool = true ∧
    oddStatus.targets.map (fun t => (t.ID, t.Status)) = [(1, "completed"), (2, "done")] ∧
    "done" ≠ "init" ∧ "done" ≠ "in_progress" ∧ "done" ≠ "completed" :=
  ⟨ReachableOk.step (.updateStatus 5 2 "done") Oracle.allOk 13 reachableOk_oneDone (by decide),
   by decide, by decide, by decide, by decide, by decide⟩

/-- C7. Whatever the call of the mission service and whatever writes the
database refuses: a mission that is completed before the call and is still
stored after it is completed after it. -/
theorem completion_is_one_way (op : Op) (db : Oracle) (now : Time) (s : Store) (id : Int)
    (m m' : Mission) (h : s.missions.find? (fun x => x.ID = id) = some m)
    (hc : m.IsCompleted = true)
    (h' : (op.run db now s).1.missions.find? (fun x => x.ID = id) = some m') :
    m'.IsCompleted = true := by
  rcases op_mission_row op db now s id m h with hnone | ⟨m'', hm'', hflag⟩
  · rw [hnone] at h'
    cases h'
  · rw [hm''] at h'
    cases h'
    rcases hflag with heq | ⟨hfalse, _⟩
    · rw [heq, hc]
    · rw [hc] at hfalse
      cases hfalse

theorem completion_is_one_way_witness :
    allDone.missions.map (fun m => (m.ID, m.IsCompleted)) = [(1, true)] ∧
    (Op.run Oracle.allOk 14 allDone (.addTarget 1 ⟨"C", "Z", none⟩)).1.missions.map
      (fun m => (m.ID, m.IsCompleted)) = [(1, true)] ∧
    ({ ID := 1, Name := "Op", Description := "d", StartDate := 11, EndDate := 13,
       CatID := some 5, IsCompleted := true, CompletedAt := some 13, CreatedAt := 10,
       UpdatedAt := 13, Cat := none, Targets := [] } : Mission).IsCompleted = true :=
  ⟨by decide, by decide,
   completion_is_one_way (.addTarget 1 ⟨"C", "Z", none⟩) Oracle.allOk 14 allDone 1
      { ID := 1, Name := "Op", Description := "d", StartDate := 11, EndDate := 13,
        CatID := some 5, IsCompleted := true, CompletedAt := some 13, CreatedAt := 10,
        UpdatedAt := 13, Cat := none, Targets := [] }
      { ID := 1, Name := "Op", Description := "d", StartDate := 11, EndDate := 13,
        CatID := some 5, IsCompleted := true, CompletedAt := some 13, CreatedAt := 10,
        UpdatedAt := 13, Cat := none, Targets := [] }
      (by decide) rfl (by decide)⟩

/-- C4, the amended claim. The completion flag of a stored mission goes from
false to true only in a call after which the mission has at least one
target and all its targets are completed; a mission row that appears in a
call is not completed. -/
theorem completion_set_only_when_all_targets_completed (op : Op) (db : Oracle) (now : Time)
    (s : Store) (id : Int) (m' : Mission)
    (h' : (op.run db now s).1.missions.find? (fun x => x.ID = id) = some m')
    (hc' : m'.IsCompleted = true) :
    ∃ m, s.missions.find? (fun x => x.ID = id) = some m ∧
      (m.IsCompleted = true ∨
        ((op.run db now s).1.targetsOf id ≠ [] ∧
          ∀ t ∈ (op.run db now s).1.targetsOf id, t.Status = "completed")) := by
  cases h : s.missions.find? (fun x => x.ID = id) with
  | none =>
    have := op_new_mission_row op db now s id m' h h'
    rw [hc'] at this
    cases this
  | some m =>
    refine ⟨m, rfl, ?_⟩
    rcases op_mission_row op db now s id m h with hnone | ⟨m'', hm'', hflag⟩
    · rw [hnone] at h'
      cases h'
    · rw [hm''] at h'
      cases h'
      rcases hflag with heq | ⟨_, _, hne, hall⟩
      · left
        rw [← heq, hc']
      · right
        exact ⟨hne, hall⟩

theorem completion_set_only_when_all_targets_completed_witness :
    ∃ m, oneDone.missions.find? (fun x => x.ID = 1) = some m ∧
      (m.IsCompleted = true ∨
        ((Op.run Oracle.allOk 13 oneDone (.updateStatus 5 2 "completed")).1.targetsOf 1 ≠ [] ∧
          ∀ t ∈ (Op.run Oracle.allOk 13 oneDone (.updateStatus 5 2 "completed")).1.targetsOf 1,
            t.Status = "completed")) :=
  completion_set_only_when_all_targets_completed (.updateStatus 5 2 "completed") Oracle.allOk 13
    oneDone 1
    { ID := 1, Name := "Op", Description := "d", StartDate := 11, EndDate := 13,
      CatID := some 5, IsCompleted := true, CompletedAt := some 13, CreatedAt := 10,
      UpdatedAt := 13, Cat := none, Targets := [] }
    (by decide) rfl

/-- C4, the counterexample. After the mission is completed a target is added
to it: the mission is still marked completed and has a target with status
`init`. And after the only pending target of a mission is deleted, all its
targets are completed and the mission is not marked completed. -/
theorem completed_flag_differs_from_targets :
    ReachableOk [cat5] reopened ∧
    reopened.missions.map (fun m => (m.ID, m.IsCompleted)) = [(1, true)] ∧
    (reopened.targetsOf 1).map (fun t => (t.ID, t.Status))
      = [(1, "completed"), (2, "completed"), (3, "init")] ∧
    ReachableOk [cat5] pendingDeleted ∧
    pendingDeleted.missions.map (fun m => (m.ID, m.IsCompleted)) = [(1, false)] ∧
    (pendingDeleted.targetsOf 1).map (fun t => (t.ID, t.Status)) = [(1, "completed")] :=
  ⟨ReachableOk.step (.addTarget 1 ⟨"C", "Z", none⟩) Oracle.allOk 14 reachableOk_allDone
      (by decide),
   by decide, by decide,
   ReachableOk.step (.deleteTarget 1 2) Oracle.allOk 13 reachableOk_oneDone (by decide),
   by decide, by decide⟩

/-- C1. In every state reached from a store without missions and targets
(the empty store when `cats = []`) by successful calls of `CreateMission`,
`DeleteMission`, `AssignCatToMission`, `AddTargetToMission`,
`DeleteTargetFromMission`, `UpdateTargetStatus` and `UpdateTargetNotes`,
every stored mission has at least one and at most three targets. -/
theorem missions_have_one_to_three_targets (cats : List SpyCat) (s : Store)
    (h : ReachableOk cats s) (m : Mission) (hm : m ∈ s.missions) :
    1 ≤ (s.targetsOf m.ID).length ∧ (s.targetsOf m.ID).length ≤ 3 := by
  rw [length_targetsOf_eq]
  exact (WellFormed_of_reachable h.reachable).count m hm

theorem missions_have_one_to_three_targets_witness :
    1 ≤ (reopened.targetsOf 1).length ∧ (reopened.targetsOf 1).length ≤ 3 :=
  missions_have_one_to_three_targets [cat5] reopened reachableOk_reopened
    { ID := 1, Name := "Op", Description := "d", StartDate := 11, EndDate := 13,
      CatID := some 5, IsCompleted := true, CompletedAt := some 13, CreatedAt := 10,
      UpdatedAt := 13, Cat := none, Targets := [] }
    (by decide)

/-- C11, the counterexample. Target 1 of mission 1 is completed and cat 5 is
assigned to the mission. Cat 6, which is not assigned, asks for a status and
for notes on target 1: both calls fail with the error "target does not
belong to the cat's mission", not with the error of a final target. -/
theorem completed_target_gives_ownership_error :
    ReachableOk [cat5] oneDone ∧
    oneDone.targets.map (fun t => (t.ID, t.Status)) = [(1, "completed"), (2, "init")] ∧
    oneDone.missions.map (fun m => (m.ID, m.CatID)) = [(1, some 5)] ∧
    UpdateTargetStatus Oracle.allOk 13 6 1 "in_progress" oneDone
      = (oneDone, .error .notCatsMission) ∧
    UpdateTargetNotes Oracle.allOk 13 6 1 "seen" oneDone = (oneDone, .error .notCatsMission) :=
  ⟨reachableOk_oneDone, by decide, by decide, by decide, by decide⟩

/-- C11, the amended claim. On a target whose status is completed and whose
mission is stored, `UpdateTargetStatus` and `UpdateTargetNotes` fail for
every acting cat and leave the store as it was. When the database answers
the read of the target, the error is the one of a final target ("target
status is final and cannot be changed", "target is final and cannot be
modified") when the acting cat is the cat assigned to the mission, and
"target does not belong to the cat's mission" for every other cat, also
when the mission has no cat; when the read is not answered the error is
"target not found". -/
theorem update_of_completed_target_fails (db : Oracle) (now : Time) (catID tid : Int)
    (text : String) (s : Store) (t : Target) (m : Mission)
    (ht : s.targets.find? (fun x => x.ID = tid ∧ x.visible) = some t)
    (hs : t.Status = "completed")
    (hm : s.missions.find? (fun x => x.ID = t.MissionID) = some m) :
    UpdateTargetStatus db now catID tid text s
      = (s, .error (if db 0 = true then
          (if m.CatID = some catID then .statusFinal else .notCatsMission)
          else .targetNotFound .failure)) ∧
    UpdateTargetNotes db now catID tid text s
      = (s, .error (if db 0 = true then
          (if m.CatID = some catID then .targetFinal else .notCatsMission)
          else .targetNotFound .failure)) := by
  by_cases h0 : db 0 = true
  · rw [if_pos h0, if_pos h0]
    exact ⟨UpdateTargetStatus_completed_target db now catID tid text s t m ht hs hm h0,
      UpdateTargetNotes_completed_target db now catID tid text s t m ht hs hm h0⟩
  · rw [if_neg h0, if_neg h0]
    have h0' : db 0 = false := by simpa using h0
    exact ⟨by simp only [UpdateTargetStatus, h0', target_GetByID_failed],
      by simp only [UpdateTargetNotes, h0', target_GetByID_failed]⟩

theorem update_of_completed_target_fails_witness :
    UpdateTargetStatus Oracle.allOk 13 5 1 "in_progress" oneDone
      = (oneDone, .error (if Oracle.allOk 0 = true then
          (if (some 5 : Option Int) = some 5 then .statusFinal else .notCatsMission)
          else .targetNotFound .failure)) ∧
    UpdateTargetNotes Oracle.allOk 13 5 1 "in_progress" oneDone
      = (oneDone, .error (if Oracle.allOk 0 = true then
          (if (some 5 : Option Int) = some 5 then .targetFinal else .notCatsMission)
          else .targetNotFound .failure)) :=
  update_of_completed_target_fails Oracle.allOk 13 5 1 "in_progress" oneDone
    { ID := 1, MissionID := 1, Name := "A", Country := "X", Notes := none,
      Status := "completed", CreatedAt := 10, UpdatedAt := 12, DeletedAt := none }
    { ID := 1, Name := "Op", Description := "d", StartDate := 11, EndDate := 0,
      CatID := some 5, IsCompleted := false, CompletedAt := none, CreatedAt := 10,
      UpdatedAt := 11, Cat := none, Targets := [] }
    (by decide) rfl (by decide)

/-- C12. When the checks of `UpdateTargetStatus` pass, the status write is
accepted and the reads of the target before and after it are answered (calls
0, 1 and 2), `UpdateTargetStatus catID targetID "completed"` returns the
updated target without error, whatever the database answers to the writes of
`checkAndCompleteMission` (calls 3 and 4). -/
theorem UpdateTargetStatus_ignores_completion_error (db : Oracle) (now : Time)
    (c tid : Int) (s : Store) (t : Target) (m : Mission)
    (ht : s.targets.find? (fun x => x.ID = tid ∧ x.visible) = some t)
    (hm : s.missions.find? (fun x => x.ID = t.MissionID) = some m)
    (hcat : m.CatID = some c) (hp : t.Status ≠ "completed")
    (h0 : db 0 = true) (h1 : db 1 = true) (h2 : db 2 = true) :
    (UpdateTargetStatus db now c tid "completed" s).2
      = .ok (TargetResponse.ofTarget { t with Status := "completed", UpdatedAt := now }) := by
  rw [UpdateTargetStatus_accepted db now c tid "completed" s t m ht hm hcat hp h0 h1 h2]

theorem UpdateTargetStatus_ignores_completion_error_witness :
    (checkAndCompleteMission (Oracle.shift (fun i => decide (i < 3)) 3) 13 1 bothDone).2
      = .error (.failedCompleteMission .failure) ∧
    (UpdateTargetStatus (fun i => decide (i < 3)) 13 5 2 "completed" oneDone).2
      = .ok (TargetResponse.ofTarget
          { ID := 2, MissionID := 1, Name := "B", Country := "Y", Notes := none,
            Status := "completed", CreatedAt := 10, UpdatedAt := 13, DeletedAt := none }) :=
  ⟨by decide,
   UpdateTargetStatus_ignores_completion_error (fun i => decide (i < 3)) 13 5 2 oneDone
    { ID := 2, MissionID := 1, Name := "B", Country := "Y", Notes := none,
      Status := "init", CreatedAt := 10, UpdatedAt := 10, DeletedAt := none }
    { ID := 1, Name := "Op", Description := "d", StartDate := 11, EndDate := 0,
      CatID := some 5, IsCompleted := false, CompletedAt := none, CreatedAt := 10,
      UpdatedAt := 11, Cat := none, Targets := [] }
    (by decide) (by decide) rfl (by decide) (by decide) (by decide) (by decide)⟩

/-- C13, at the failing input. The mission of `created` has the two targets 1
and 2, both in status `init`: `DeleteTargetFromMission 1 1` returns without
error and target 1 is no longer found. In `oneDone` target 1 is completed and
in `inProgress` it is in progress, and the mission has two targets: the
call is refused with "only targets in 'init' status can be deleted" and the
store is unchanged. -/
theorem DeleteTargetFromMission_accepts_init_refuses_others :
    ReachableOk [cat5] created ∧ ReachableOk [cat5] oneDone ∧ ReachableOk [cat5] inProgress ∧
    created.targets.map (fun t => (t.ID, t.MissionID, t.Status))
      = [(1, 1, "init"), (2, 1, "init")] ∧
    (DeleteTargetFromMission Oracle.allOk 11 1 1 created).2 = .ok () ∧
    TargetRepository.GetByID true 1 (DeleteTargetFromMission Oracle.allOk 11 1 1 created).1
      = .error .recordNotFound ∧
    oneDone.targets.map (fun t => (t.ID, t.MissionID, t.Status))
      = [(1, 1, "completed"), (2, 1, "init")] ∧
    DeleteTargetFromMission Oracle.allOk 13 1 1 oneDone = (oneDone, .error .onlyInitDeletable) ∧
    inProgress.targets.map (fun t => (t.ID, t.MissionID, t.Status))
      = [(1, 1, "in_progress"), (2, 1, "init")] ∧
    DeleteTargetFromMission Oracle.allOk 13 1 1 inProgress
      = (inProgress, .error .onlyInitDeletable) :=
  ⟨reachableOk_created, reachableOk_oneDone, reachableOk_inProgress,
   by decide, by decide, by decide, by decide, by decide, by decide, by decide⟩

/-- What `DeleteTargetFromMission` does with a target that belongs to the
given mission, when that mission is stored and has at least two targets and
the database answers the read of the target: it succeeds, soft-deleting the
target, if the status of the target is `init` and the database accepts the
write, and it fails with "only targets in 'init' status can be deleted",
leaving the store as it was, if the status is anything else (`in_progress`
and `completed` included). -/
theorem DeleteTargetFromMission_result_by_status (db : Oracle) (now : Time)
    (missionID targetID : Int) (s : Store) (t : Target) (m : Mission)
    (ht : s.targets.find? (fun x => x.ID = targetID ∧ x.visible) = some t)
    (hmid : t.MissionID = missionID)
    (hm : s.missions.find? (fun x => x.ID = missionID) = some m)
    (hlen : 2 ≤ (s.targetsOf missionID).length)
    (hr : db 0 = true) :
    (t.Status = "init" → db 1 = true →
      DeleteTargetFromMission db now missionID targetID s
        = ((TargetRepository.Delete true now targetID s).1, .ok ()) ∧
      TargetRepository.GetByID true targetID
          (DeleteTargetFromMission db now missionID targetID s).1
        = .error .recordNotFound) ∧
    (t.Status ≠ "init" →
      DeleteTargetFromMission db now missionID targetID s = (s, .error .onlyInitDeletable)) := by
  have key := DeleteTargetFromMission_of_two db now missionID targetID s t m ht hmid hm hlen hr
  refine ⟨?_, ?_⟩
  · intro hst h0
    rw [key, if_pos hst, if_pos h0]
    refine ⟨rfl, ?_⟩
    apply target_GetByID_none
    rw [List.find?_eq_none]
    intro x hx
    simp only [TargetRepository.Delete, if_true] at hx
    intro hp
    simp only [decide_eq_true_eq] at hp
    have := (mem_softDelete_visible s.targets now targetID x).mp ⟨hx, hp.2⟩
    exact this.2.2 hp.1
  · intro hst
    rw [key, if_neg hst]

/-- C14. When the given mission has at most one target, and so for a mission
with exactly one target and a call on that target, `DeleteTargetFromMission`
returns an error whatever the status of the target is and whatever the
database answers, and the store is the one it was given: a target that was
found before the call is found after it. -/
theorem DeleteTargetFromMission_keeps_last_target (db : Oracle) (now : Time)
    (missionID targetID : Int) (s : Store) (hlen : (s.targetsOf missionID).length ≤ 1) :
    (∃ e, DeleteTargetFromMission db now missionID targetID s = (s, .error e)) ∧
    TargetRepository.GetByID true targetID (DeleteTargetFromMission db now missionID targetID s).1
      = TargetRepository.GetByID true targetID s := by
  rcases DeleteTargetFromMission_shape db now missionID targetID s with
    ⟨e, he⟩ | ⟨t, _, _, _, h2, _⟩
  · exact ⟨⟨e, he⟩, by rw [he]⟩
  · omega

theorem DeleteTargetFromMission_keeps_last_target_witness :
    ((pendingDeleted.targetsOf 1).map (fun t => (t.ID, t.Status)) = [(1, "completed")]) ∧
    ((∃ e, DeleteTargetFromMission Oracle.allOk 14 1 1 pendingDeleted
        = (pendingDeleted, .error e)) ∧
      TargetRepository.GetByID true 1 (DeleteTargetFromMission Oracle.allOk 14 1 1 pendingDeleted).1
        = TargetRepository.GetByID true 1 pendingDeleted) :=
  ⟨by decide,
   DeleteTargetFromMission_keeps_last_target Oracle.allOk 14 1 1 pendingDeleted (by decide)⟩

/-- C15. A call of `DeleteTargetFromMission missionID targetID` that returns
without error found a target with this id that belonged to `missionID` and
had the status `init`. After it the target is no longer found, the targets
that a query sees are those it saw before except the rows with this id (one
target less for the mission, as target ids are distinct), and the missions
and the cats are unchanged. -/
theorem DeleteTargetFromMission_removes_one_init_target (db : Oracle) (now : Time)
    (missionID targetID : Int) (s : Store)
    (hok : (DeleteTargetFromMission db now missionID targetID s).2 = .ok ()) :
    ∃ t, s.targets.find? (fun x => x.ID = targetID ∧ x.visible) = some t ∧
      t.MissionID = missionID ∧ t.Status = "init" ∧
      TargetRepository.GetByID true targetID (DeleteTargetFromMission db now missionID targetID s).1
        = .error .recordNotFound ∧
      (∀ id x, x ∈ (DeleteTargetFromMission db now missionID targetID s).1.targetsOf id ↔
        (x ∈ s.targetsOf id ∧ x.ID ≠ targetID)) ∧
      ((s.targets.map (fun x => x.ID)).Nodup →
        ((DeleteTargetFromMission db now missionID targetID s).1.targetsOf missionID).length + 1
          = (s.targetsOf missionID).length) ∧
      (DeleteTargetFromMission db now missionID targetID s).1.missions = s.missions ∧
      (DeleteTargetFromMission db now missionID targetID s).1.cats = s.cats := by
  rcases DeleteTargetFromMission_shape db now missionID targetID s with
    ⟨e, he⟩ | ⟨t, ht, hmid, hst, h2, hres⟩
  · rw [he] at hok
    cases hok
  · obtain ⟨htmem, htid, htvis⟩ := target_found ht
    have hmemv : ∀ x,
        (x ∈ (TargetRepository.Delete true now targetID s).1.targets ∧ x.visible = true) ↔
          (x ∈ s.targets ∧ x.visible = true ∧ x.ID ≠ targetID) := by
      intro x
      simp only [TargetRepository.Delete, if_true]
      exact mem_softDelete_visible s.targets now targetID x
    refine ⟨t, ht, hmid, hst, ?_, ?_, ?_, ?_, ?_⟩
    · rw [hres]
      apply target_GetByID_none
      rw [List.find?_eq_none]
      intro x hx hp
      simp only [decide_eq_true_eq] at hp
      exact ((hmemv x).mp ⟨hx, hp.2⟩).2.2 hp.1
    · intro id x
      rw [hres, mem_targetsOf, mem_targetsOf]
      constructor
      · rintro ⟨hx, hxm, hxv⟩
        obtain ⟨h1, h2', h3⟩ := (hmemv x).mp ⟨hx, hxv⟩
        exact ⟨⟨h1, hxm, h2'⟩, h3⟩
      · rintro ⟨⟨hx, hxm, hxv⟩, hne⟩
        exact ⟨((hmemv x).mpr ⟨hx, hxv, hne⟩).1, hxm, hxv⟩
    · intro hnd
      rw [hres, length_targetsOf_eq, length_targetsOf_eq]
      simp only [TargetRepository.Delete, if_true]
      rw [targetCount_softDelete, targetCount_split s.targets missionID targetID]
      have hle := countP_ID_le_one hnd targetID
      have hle2 : s.targets.countP
          (fun x => decide (x.MissionID = missionID ∧ x.visible = true) && decide (x.ID = targetID))
            ≤ s.targets.countP (fun x => decide (x.ID = targetID)) := by
        apply List.countP_mono_left
        intro x _ hx
        simp only [Bool.and_eq_true, decide_eq_true_eq] at hx ⊢
        exact hx.2
      have hpos : 0 < s.targets.countP
          (fun x => decide (x.MissionID = missionID ∧ x.visible = true) && decide (x.ID = targetID)) := by
        rw [List.countP_pos_iff]
        exact ⟨t, htmem, by simp [hmid, htvis, htid]⟩
      omega
    · rw [hres]
      simp only [TargetRepository.Delete, if_true]
    · rw [hres]
      simp only [TargetRepository.Delete, if_true]

theorem DeleteTargetFromMission_removes_one_init_target_witness :
    ∃ t, created.targets.find? (fun x => x.ID = 2 ∧ x.visible) = some t ∧
      t.MissionID = 1 ∧ t.Status = "init" ∧
      TargetRepository.GetByID true 2 (DeleteTargetFromMission Oracle.allOk 11 1 2 created).1
        = .error .recordNotFound ∧
      (∀ id x, x ∈ (DeleteTargetFromMission Oracle.allOk 11 1 2 created).1.targetsOf id ↔
        (x ∈ created.targetsOf id ∧ x.ID ≠ 2)) ∧
      ((created.targets.map (fun x => x.ID)).Nodup →
        ((DeleteTargetFromMission Oracle.allOk 11 1 2 created).1.targetsOf 1).length + 1
          = (created.targetsOf 1).length) ∧
      (DeleteTargetFromMission Oracle.allOk 11 1 2 created).1.missions = created.missions ∧
      (DeleteTargetFromMission Oracle.allOk 11 1 2 created).1.cats = created.cats :=
  DeleteTargetFromMission_removes_one_init_target Oracle.allOk 11 1 2 created (by decide)

/-- C16. `AddTargetToMission` returns an error and the store it was given when
the mission already has three targets (or more), and when one of the
targets of the mission has the name of the request; names are compared as
strings, so that two names that differ only in case are different. When the
mission is stored the error is "mission already has the maximum number of
targets" in the first case and "target with name ... already exists in this
mission" in the second. -/
theorem AddTargetToMission_rejects_fourth_and_duplicate (db : Oracle) (now : Time)
    (missionID : Int) (req : AddTargetRequest) (s : Store)
    (h : 3 ≤ (s.targetsOf missionID).length ∨ ∃ t ∈ s.targetsOf missionID, t.Name = req.Name) :
    ∃ e, AddTargetToMission db now missionID req s = (s, .error e) ∧
      ((s.missions.find? (fun x => x.ID = missionID)).isSome = true →
        e = if 3 ≤ (s.targetsOf missionID).length then .maxTargets else .targetNameExists) := by
  cases hm : s.missions.find? (fun x => x.ID = missionID) with
  | none =>
    refine ⟨.missionNotFound .recordNotFound, ?_, by simp⟩
    simp only [AddTargetToMission, mission_GetByID_none hm]
  | some m =>
    rw [AddTargetToMission_of_mission db now missionID req s m hm]
    by_cases hlen : 3 ≤ (s.targetsOf missionID).length
    · exact ⟨.maxTargets, by simp [hlen], by simp [hlen]⟩
    · have hname : (s.targetsOf missionID).any (fun target => target.Name = req.Name) = true := by
        rcases h with h | ⟨t, ht, hn⟩
        · exact absurd h hlen
        · rw [List.any_eq_true]
          exact ⟨t, ht, by simpa using hn⟩
      exact ⟨.targetNameExists, by simp [hlen, hname], by simp [hlen]⟩

theorem AddTargetToMission_rejects_fourth_and_duplicate_witness :
    (∃ e, AddTargetToMission Oracle.allOk 11 1 ⟨"A", "Z", none⟩ created = (created, .error e) ∧
      ((created.missions.find? (fun x => x.ID = 1)).isSome = true →
        e = if 3 ≤ (created.targetsOf 1).length then .maxTargets else .targetNameExists)) ∧
    (AddTargetToMission Oracle.allOk 11 1 ⟨"a", "Z", none⟩ created).2.toBool = true ∧
    AddTargetToMission Oracle.allOk 15 1 ⟨"D", "Z", none⟩ reopened
      = (reopened, .error .maxTargets) :=
  ⟨AddTargetToMission_rejects_fourth_and_duplicate Oracle.allOk 11 1 ⟨"A", "Z", none⟩ created
      (Or.inr ⟨{ ID := 1, MissionID := 1, Name := "A", Country := "X", Notes := none,
                 Status := "init", CreatedAt := 10, UpdatedAt := 10, DeletedAt := none },
        by decide, rfl⟩),
   by decide, by decide⟩

/-- C17. For a stored mission with fewer than three targets and a request
whose name is the name of none of them, `AddTargetToMission` succeeds when
the database accepts the write (and fails, storing nothing, when it refuses
it). It then appends exactly one target row: a target with a fresh id, the
status `init`, the given mission id and the name, country and notes of the
request. The rows that were stored are unchanged, so that the targets of the
mission are those it had and the new one. -/
theorem AddTargetToMission_stores_one_init_target (db : Oracle) (now : Time)
    (missionID : Int) (req : AddTargetRequest) (s : Store) (m : Mission)
    (hm : s.missions.find? (fun x => x.ID = missionID) = some m)
    (hlen : (s.targetsOf missionID).length < 3)
    (hname : ∀ t ∈ s.targetsOf missionID, t.Name ≠ req.Name) :
    (db 0 = false →
      AddTargetToMission db now missionID req s = (s, .error (.failedCreateTarget .failure))) ∧
    (db 0 = true →
      ∃ nt : Target,
        AddTargetToMission db now missionID req s
          = ({ s with targets := s.targets ++ [nt], nextTargetID := s.nextTargetID + 1 },
              .ok (TargetResponse.ofTarget nt)) ∧
        nt.ID = s.nextTargetID ∧ nt.Status = "init" ∧ nt.MissionID = missionID ∧
        nt.Name = req.Name ∧ nt.Country = req.Country ∧ nt.Notes = req.Notes ∧
        nt.DeletedAt = none ∧
        (∀ x, x ∈ (AddTargetToMission db now missionID req s).1.targetsOf missionID ↔
          (x ∈ s.targetsOf missionID ∨ x = nt)) ∧
        ((AddTargetToMission db now missionID req s).1.targetsOf missionID).length
          = (s.targetsOf missionID).length + 1) := by
  have key := AddTargetToMission_of_mission db now missionID req s m hm
  have h3 : ¬ 3 ≤ (s.targetsOf missionID).length := by omega
  have hany : ¬ (s.targetsOf missionID).any (fun target => target.Name = req.Name) = true := by
    rw [List.any_eq_true]
    rintro ⟨t, ht, hn⟩
    exact hname t ht (by simpa using hn)
  rw [if_neg h3, if_neg hany] at key
  refine ⟨?_, ?_⟩
  · intro h0
    rw [key, h0]
    simp
  · intro h0
    rw [if_pos h0] at key
    refine ⟨addedTarget now missionID req s, key, rfl, rfl, rfl, rfl, rfl, rfl, rfl, ?_, ?_⟩
    · intro x
      rw [key, mem_targetsOf, mem_targetsOf]
      simp only [List.mem_append, List.mem_singleton]
      constructor
      · rintro ⟨hx | hx, hxm, hxv⟩
        · exact Or.inl ⟨hx, hxm, hxv⟩
        · exact Or.inr hx
      · rintro (⟨hx, hxm, hxv⟩ | hx)
        · exact ⟨Or.inl hx, hxm, hxv⟩
        · subst hx
          exact ⟨Or.inr rfl, rfl, rfl⟩
    · rw [key, length_targetsOf_eq, length_targetsOf_eq]
      simp only [targetCount_append]
      have : targetCount [addedTarget now missionID req s] missionID = 1 := by
        simp [targetCount, addedTarget, AddTargetRequest.ToTargetModel, Target.visible]
      omega

theorem AddTargetToMission_stores_one_init_target_witness :
    ∃ nt : Target,
      AddTargetToMission Oracle.allOk 11 1 ⟨"C", "Z", none⟩ created
        = ({ created with targets := created.targets ++ [nt],
                          nextTargetID := created.nextTargetID + 1 },
            .ok (TargetResponse.ofTarget nt)) ∧
      nt.ID = created.nextTargetID ∧ nt.Status = "init" ∧ nt.MissionID = 1 ∧
      nt.Name = "C" ∧ nt.Country = "Z" ∧ nt.Notes = none ∧ nt.DeletedAt = none ∧
      (∀ x, x ∈ (AddTargetToMission Oracle.allOk 11 1 ⟨"C", "Z", none⟩ created).1.targetsOf 1 ↔
        (x ∈ created.targetsOf 1 ∨ x = nt)) ∧
      ((AddTargetToMission Oracle.allOk 11 1 ⟨"C", "Z", none⟩ created).1.targetsOf 1).length
        = (created.targetsOf 1).length + 1 :=
  (AddTargetToMission_stores_one_init_target Oracle.allOk 11 1 ⟨"C", "Z", none⟩ created
    { ID := 1, Name := "Op", Description := "d", StartDate := 0, EndDate := 0,
      CatID := none, IsCompleted := false, CompletedAt := none, CreatedAt := 10,
      UpdatedAt := 10, Cat := none, Targets := [] }
    (by decide) (by decide) (by decide)).2 rfl

/-- C20. `DeleteMission` returns an error when no mission has the given id
("mission with id ... not found") and when the mission has a cat assigned
("cannot delete mission with assigned cat", or the error of the refused
deletion of the targets), and in both cases the store is the one it was
given: the deletion of the targets that precedes the test of the cat is
undone with the transaction. -/
theorem DeleteMission_refuses_missing_or_assigned (db : Oracle) (id : Int) (s : Store)
    (h : s.missions.find? (fun x => x.ID = id) = none ∨
      ∃ m c, s.missions.find? (fun x => x.ID = id) = some m ∧ m.CatID = some c) :
    DeleteMission db id s =
      (s, .error
        (if s.missions.find? (fun x => x.ID = id) = none then .missionIDNotFound
         else if db 0 = true then .failedDeleteMission .catAssigned
         else .failedDeleteTargets .failure)) := by
  rcases h with hnone | ⟨m, c, hm, hc⟩
  · unfold DeleteMission
    simp [CheckMissionExists_none hnone, hnone]
  · unfold DeleteMission
    simp only [CheckMissionExists_some hm, hm, Bool.not_true, Bool.false_eq_true, if_false]
    cases h0 : db 0 with
    | false =>
      rw [@RunTransaction_error _ _ s (.failedDeleteTargets .failure)
        (by simp [TargetRepository.DeleteByMissionID, h0])]
      simp
    | true =>
      rw [@RunTransaction_error _ _ s (.failedDeleteMission .catAssigned)
        (by simp [TargetRepository.DeleteByMissionID, h0, MissionRepository.Delete, hm, hc])]
      simp

theorem DeleteMission_refuses_missing_or_assigned_witness :
    DeleteMission Oracle.allOk 1 assigned =
      (assigned, .error
        (if assigned.missions.find? (fun x => x.ID = 1) = none then .missionIDNotFound
         else if Oracle.allOk 0 = true then .failedDeleteMission .catAssigned
         else .failedDeleteTargets .failure)) ∧
    assigned.targets.map (fun t => (t.ID, t.MissionID)) = [(1, 1), (2, 1)] ∧
    DeleteMission Oracle.allOk 7 assigned = (assigned, .error .missionIDNotFound) :=
  ⟨DeleteMission_refuses_missing_or_assigned Oracle.allOk 1 assigned
      (Or.inr ⟨{ ID := 1, Name := "Op", Description := "d", StartDate := 11, EndDate := 0,
                 CatID := some 5, IsCompleted := false, CompletedAt := none, CreatedAt := 10,
                 UpdatedAt := 11, Cat := none, Targets := [] }, 5, by decide, rfl⟩),
   by decide, by decide⟩

/-- C19. When `CreateMission` returns without error, the mission it returns
has the next id of the sequence, is not completed and has no cat, and its
targets are those of the request: as many, in the same order, with the same
names and countries, each with the status `init` and the id of the new
mission. The store holds one more mission row, with this id, not completed
and without cat, and the rows of the returned targets after the rows it
had. -/
theorem CreateMission_returns_request_targets (db : Oracle) (now : Time)
    (req : CreateMissionRequest) (s : Store) (resp : MissionResponse)
    (hok : (CreateMission db now req s).2 = .ok resp) :
    resp.ID = s.nextMissionID ∧
    resp.Targets.length = req.Targets.length ∧
    resp.Targets.map (fun t => (t.Name, t.Country))
      = req.Targets.map (fun t => (t.Name, t.Country)) ∧
    (∀ t ∈ resp.Targets, t.Status = "init" ∧ t.MissionID = resp.ID) ∧
    resp.IsCompleted = false ∧ resp.CatID = none ∧ resp.Cat = none ∧
    ∃ row rows,
      (CreateMission db now req s).1.missions = s.missions ++ [row] ∧
      row.ID = resp.ID ∧ row.IsCompleted = false ∧ row.CatID = none ∧
      (CreateMission db now req s).1.targets = s.targets ++ rows ∧
      rows.map TargetResponse.ofTarget = resp.Targets := by
  rcases CreateMission_shape db now req s with ⟨e, he⟩ | ⟨_, hres⟩
  · rw [he] at hok
    cases hok
  · rw [hres] at hok ⊢
    simp only [Except.ok.injEq] at hok
    subst hok
    have hnames := newTargets_names now s.nextMissionID req.ToModel.Targets s.nextTargetID
    rw [ToModel_targets_names] at hnames
    refine ⟨rfl, ?_, ?_, ?_, rfl, rfl, rfl, ?_⟩
    · have := congrArg List.length hnames
      simpa [MissionFromModel, createdEntity] using this
    · simpa [MissionFromModel, createdEntity, TargetResponse.ofTarget, List.map_map,
        Function.comp] using hnames
    · intro t ht
      simp only [MissionFromModel, createdEntity, List.mem_map] at ht
      obtain ⟨x, hx, rfl⟩ := ht
      exact ⟨newTargets_status now _ _ _ x hx, (newTargets_mem now _ _ _ x hx).1⟩
    · exact ⟨newMissionRow now s.nextMissionID req,
        newTargets now s.nextMissionID s.nextTargetID req.ToModel.Targets,
        rfl, rfl, rfl, rfl, rfl, rfl⟩

theorem CreateMission_returns_request_targets_witness :
    (CreateMission Oracle.allOk 10 twoTargets (Store.init [cat5])).2
      = .ok (MissionFromModel (createdEntity 10 twoTargets (Store.init [cat5]))) ∧
    (MissionFromModel (createdEntity 10 twoTargets (Store.init [cat5]))).ID = 1 ∧
    (MissionFromModel (createdEntity 10 twoTargets (Store.init [cat5]))).Targets.map
      (fun t => (t.Name, t.Country)) = [("A", "X"), ("B", "Y")] ∧
    (∀ t ∈ (MissionFromModel (createdEntity 10 twoTargets (Store.init [cat5]))).Targets,
      t.Status = "init" ∧
        t.MissionID = (MissionFromModel (createdEntity 10 twoTargets (Store.init [cat5]))).ID) :=
  ⟨by decide,
   (CreateMission_returns_request_targets Oracle.allOk 10 twoTargets (Store.init [cat5])
      (MissionFromModel (createdEntity 10 twoTargets (Store.init [cat5]))) (by decide)).1,
   (CreateMission_returns_request_targets Oracle.allOk 10 twoTargets (Store.init [cat5])
      (MissionFromModel (createdEntity 10 twoTargets (Store.init [cat5]))) (by decide)).2.2.1,
   (CreateMission_returns_request_targets Oracle.allOk 10 twoTargets (Store.init [cat5])
      (MissionFromModel (createdEntity 10 twoTargets (Store.init [cat5]))) (by decide)).2.2.2.1⟩

/-- C18, the counterexample. The request `endAtZeroTime` gives both dates, and
its end date, the zero time, is before its start date: `CreateMission`
accepts it and stores the mission. The request `blankName` has a name of two
blanks, which is not empty and not longer than 100 characters, and nothing
else that the claim lists: `CreateMission` refuses it with "mission name is
required". -/
theorem CreateMission_differs_from_listed_rules :
    endAtZeroTime.StartDate = some 5 ∧ endAtZeroTime.EndDate = some 0 ∧ (0 : Time) < 5 ∧
    (CreateMission Oracle.allOk 10 endAtZeroTime (Store.init [])).2.toBool = true ∧
    (CreateMission Oracle.allOk 10 endAtZeroTime (Store.init [])).1.missions.map
      (fun m => (m.ID, m.StartDate, m.EndDate)) = [(1, 5, 0)] ∧
    blankName.Name ≠ "" ∧ blankName.Name.length ≤ 100 ∧
    blankName.Description ≠ "" ∧ blankName.Description.length ≤ 500 ∧
    1 ≤ blankName.Targets.length ∧ blankName.Targets.length ≤ 3 ∧
    (∀ t ∈ blankName.Targets, t.Name ≠ "" ∧ t.Country ≠ "" ∧
      t.Name.length ≤ 100 ∧ t.Country.length ≤ 100) ∧
    (blankName.Targets.map (fun t => t.Name)).Nodup ∧
    blankName.StartDate = none ∧ blankName.EndDate = none ∧
    CreateMission Oracle.allOk 10 blankName (Store.init [])
      = (Store.init [], .error .missionNameRequired) :=
  ⟨rfl, rfl, by decide, by decide, by decide, by decide, by decide, by decide, by decide,
   by decide, by decide, by decide, by decide, rfl, rfl, by decide⟩

/-- C18, the amended claim. `CreateMission` returns an error and the store it
was given for every request that is not acceptable, that is, whenever the
name or the description is empty after `TrimSpace` or then longer than 100,
respectively 500, bytes, the number of targets is outside 1..3, a target
has an empty name or country or one longer than 100 bytes, two targets have
the same name, or both dates are given, neither of them is the zero time
and the end date is before the start date. For an acceptable request it
succeeds when the database accepts the write of the mission and of each
target. Whenever it returns an error, no row is written. -/
theorem CreateMission_succeeds_iff_acceptable (db : Oracle) (now : Time)
    (req : CreateMissionRequest) (s : Store) :
    (¬ req.Acceptable → ∃ e, CreateMission db now req s = (s, .error e)) ∧
    (req.Acceptable → (∀ i, i ≤ req.Targets.length → db i = true) →
      CreateMission db now req s
        = (s.withMission now req, .ok (MissionFromModel (createdEntity now req s)))) ∧
    (∀ e, (CreateMission db now req s).2 = .error e → (CreateMission db now req s).1 = s) := by
  refine ⟨?_, ?_, ?_⟩
  · intro hna
    cases hv : validateCreateMissionRequest req with
    | error e =>
      refine ⟨e, ?_⟩
      unfold CreateMission
      rw [hv]
    | ok u =>
      rcases CreateMission_shape db now req s with he | ⟨hval, _⟩
      · exact he
      · exact absurd ((Acceptable_iff req).mpr ⟨hv, hval⟩) hna
  · intro ha hdb
    obtain ⟨hv, hval⟩ := (Acceptable_iff req).mp ha
    exact CreateMission_accepted db now req s hv hval hdb
  · intro e he
    rcases CreateMission_shape db now req s with ⟨e', he'⟩ | ⟨_, hok⟩
    · rw [he']
    · rw [hok] at he
      cases he

theorem CreateMission_succeeds_iff_acceptable_witness :
    (∃ e, CreateMission Oracle.allOk 10 blankName (Store.init [cat5])
      = (Store.init [cat5], .error e)) ∧
    CreateMission Oracle.allOk 10 twoTargets (Store.init [cat5])
      = ((Store.init [cat5]).withMission 10 twoTargets,
          .ok (MissionFromModel (createdEntity 10 twoTargets (Store.init [cat5])))) ∧
    CreateMission Oracle.allOk 10 endAtZeroTime (Store.init [cat5])
      = ((Store.init [cat5]).withMission 10 endAtZeroTime,
          .ok (MissionFromModel (createdEntity 10 endAtZeroTime (Store.init [cat5])))) :=
  ⟨(CreateMission_succeeds_iff_acceptable Oracle.allOk 10 blankName (Store.init [cat5])).1
      (by decide),
   (CreateMission_succeeds_iff_acceptable Oracle.allOk 10 twoTargets (Store.init [cat5])).2.1
      (by decide) (fun _ _ => rfl),
   (CreateMission_succeeds_iff_acceptable Oracle.allOk 10 endAtZeroTime (Store.init [cat5])).2.1
      (by decide) (fun _ _ => rfl)⟩

/-- C21. For a stored mission without cat, `DeleteMission` succeeds exactly
when the database accepts the two deletions. It then removes the mission row
and every target row whose `MissionID` is the id of the mission (the
soft-deleted ones too) and nothing else: the other missions, the targets of
other missions and the cats are as before. -/
theorem DeleteMission_removes_mission_and_its_targets (db : Oracle) (id : Int) (s : Store)
    (m : Mission) (hm : s.missions.find? (fun x => x.ID = id) = some m)
    (hc : m.CatID = none) :
    ((DeleteMission db id s).2 = .ok () ↔ (db 0 = true ∧ db 1 = true)) ∧
    ((DeleteMission db id s).2 = .ok () →
      MissionRepository.GetByID id (DeleteMission db id s).1 = .error .recordNotFound ∧
      (∀ x, x ∈ (DeleteMission db id s).1.missions ↔ (x ∈ s.missions ∧ x.ID ≠ id)) ∧
      (∀ t, t ∈ (DeleteMission db id s).1.targets ↔ (t ∈ s.targets ∧ t.MissionID ≠ id)) ∧
      (DeleteMission db id s).1.missions = s.missions.filter (fun x => ¬ x.ID = id) ∧
      (DeleteMission db id s).1.targets = s.targets.filter (fun t => ¬ t.MissionID = id) ∧
      (DeleteMission db id s).1.cats = s.cats) := by
  have hres : DeleteMission db id s =
      if db 0 = true then
        if db 1 = true then (s.withoutMission id, .ok ())
        else (s, .error (.failedDeleteMission .failure))
      else (s, .error (.failedDeleteTargets .failure)) := by
    unfold DeleteMission
    simp only [CheckMissionExists_some hm, Bool.not_true, Bool.false_eq_true, if_false]
    cases h0 : db 0 with
    | false =>
      rw [@RunTransaction_error _ _ s (.failedDeleteTargets .failure)
        (by simp [TargetRepository.DeleteByMissionID, h0])]
      simp
    | true =>
      cases h1 : db 1 with
      | false =>
        rw [@RunTransaction_error _ _ s (.failedDeleteMission .failure)
          (by simp [TargetRepository.DeleteByMissionID, h0, MissionRepository.Delete, hm, hc,
            h1])]
        simp
      | true =>
        rw [@RunTransaction_ok _ _ s (s.withoutMission id) ()
          (by simp [TargetRepository.DeleteByMissionID, h0, MissionRepository.Delete, hm, hc,
            h1, Store.withoutMission])]
        simp
  refine ⟨?_, ?_⟩
  · rw [hres]
    cases h0 : db 0 <;> cases h1 : db 1 <;> simp
  · intro hok
    have h01 : db 0 = true ∧ db 1 = true := by
      rw [hres] at hok
      cases h0 : db 0 <;> cases h1 : db 1 <;> simp [h0, h1] at hok ⊢
    rw [hres, if_pos h01.1, if_pos h01.2]
    refine ⟨?_, ?_, ?_, rfl, rfl, rfl⟩
    · apply mission_GetByID_none
      simp only [Store.withoutMission]
      exact find?_filter_same s.missions id
    · intro x
      simp [Store.withoutMission, List.mem_filter]
    · intro t
      simp [Store.withoutMission, List.mem_filter]

theorem DeleteMission_removes_mission_and_its_targets_witness :
    (DeleteMission Oracle.allOk 1 twoMissions).2 = .ok () ∧
    twoMissions.targets.map (fun t => (t.ID, t.MissionID)) = [(1, 1), (2, 1), (3, 2)] ∧
    (DeleteMission Oracle.allOk 1 twoMissions).1.targets.map (fun t => (t.ID, t.MissionID))
      = [(3, 2)] ∧
    (DeleteMission Oracle.allOk 1 twoMissions).1.missions
      = twoMissions.missions.filter (fun x => ¬ x.ID = 1) :=
  ⟨by decide, by decide, by decide,
   ((DeleteMission_removes_mission_and_its_targets Oracle.allOk 1 twoMissions
      { ID := 1, Name := "Op", Description := "d", StartDate := 0, EndDate := 0,
        CatID := none, IsCompleted := false, CompletedAt := none, CreatedAt := 10,
        UpdatedAt := 10, Cat := none, Targets := [] }
      (by decide) rfl).2 (by decide)).2.2.2.1⟩

/-- C22. For a stored mission and a stored cat, `AssignCatToMission` succeeds
exactly when the database accepts the two writes. It then leaves the mission
with `CatID = catID` and `StartDate` equal to the time of the assignment,
leaves the cat with `MissionID = missionID`, and returns the mission re-read
from the store, with this cat id and this cat. -/
theorem AssignCatToMission_links_both_sides (db : Oracle) (now : Time)
    (missionID catID : Int) (s : Store) (m : Mission) (k : SpyCat)
    (hm : s.missions.find? (fun x => x.ID = missionID) = some m)
    (hk : s.cats.find? (fun c => c.ID = catID) = some k) :
    ((AssignCatToMission db now missionID catID s).2.toBool = true ↔
      (db 0 = true ∧ db 1 = true)) ∧
    (∀ resp, (AssignCatToMission db now missionID catID s).2 = .ok resp →
      (AssignCatToMission db now missionID catID s).1.missions.find?
          (fun x => x.ID = missionID)
        = some { m with CatID := some catID, StartDate := now, UpdatedAt := now } ∧
      (AssignCatToMission db now missionID catID s).1.cats.find? (fun c => c.ID = catID)
        = some { k with MissionID := some missionID, UpdatedAt := now } ∧
      resp.ID = missionID ∧ resp.CatID = some catID ∧
      (resp.Cat.map (fun c => c.ID)) = some catID ∧
      resp = MissionFromModel ((AssignCatToMission db now missionID catID s).1.preload
        { m with CatID := some catID, StartDate := now, UpdatedAt := now })) := by
  have hres := AssignCatToMission_of_mission db now missionID catID s m hm
  have hid := find?_ID_eq hm
  have hkid : k.ID = catID := by simpa using List.find?_some hk
  refine ⟨?_, ?_⟩
  · rw [hres]
    cases h0 : db 0 <;> cases h1 : db 1 <;> simp [Except.toBool]
  · intro resp hok
    have h01 : db 0 = true ∧ db 1 = true := by
      rw [hres] at hok
      cases h0 : db 0 <;> cases h1 : db 1 <;> simp [h0, h1] at hok ⊢
    rw [hres, if_pos h01.1, if_pos h01.2] at hok ⊢
    simp only [Except.ok.injEq] at hok
    subst hok
    refine ⟨withAssignment_mission s now missionID catID m hm,
      withAssignment_cat s now missionID catID k hk, ?_, rfl, ?_, rfl⟩
    · simp [MissionFromModel, Store.preload, hid]
    · simp [MissionFromModel, Store.preload, Store.catOf,
        withAssignment_cat s now missionID catID k hk, hkid]

theorem AssignCatToMission_links_both_sides_witness :
    ((AssignCatToMission Oracle.allOk 11 1 5 created).2.toBool = true ↔
      (Oracle.allOk 0 = true ∧ Oracle.allOk 1 = true)) ∧
    assigned.missions.map (fun m => (m.ID, m.CatID, m.StartDate)) = [(1, some 5, 11)] ∧
    assigned.cats.map (fun c => (c.ID, c.MissionID)) = [(5, some 1)] :=
  ⟨(AssignCatToMission_links_both_sides Oracle.allOk 11 1 5 created
      { ID := 1, Name := "Op", Description := "d", StartDate := 0, EndDate := 0,
        CatID := none, IsCompleted := false, CompletedAt := none, CreatedAt := 10,
        UpdatedAt := 10, Cat := none, Targets := [] }
      cat5 (by decide) (by decide)).1,
   by decide, by decide⟩

/-- C23, at the failing input. The store `created` holds mission 1 and cat 5,
which has no mission. `AssignCatToMission 7 5` names a mission that does not
exist: the two updates are accepted and committed, the re-read of mission 7
fails, and the call returns "failed to get updated mission" while cat 5 is
left with `MissionID = 7`. When the mission exists, every error of
`AssignCatToMission` comes with the store it was given. -/
theorem AssignCatToMission_error_after_commit :
    created.missions.map (fun m => m.ID) = [1] ∧
    created.cats.map (fun c => (c.ID, c.MissionID)) = [(5, none)] ∧
    (AssignCatToMission Oracle.allOk 11 7 5 created).2
      = .error (.failedGetUpdatedMission .recordNotFound) ∧
    (AssignCatToMission Oracle.allOk 11 7 5 created).1.cats.map (fun c => (c.ID, c.MissionID))
      = [(5, some 7)] ∧
    (∀ (db : Oracle) (now : Time) (missionID catID : Int) (s : Store) (e : Err),
      (s.missions.find? (fun x => x.ID = missionID)).isSome = true →
      (AssignCatToMission db now missionID catID s).2 = .error e →
      (AssignCatToMission db now missionID catID s).1 = s) := by
  refine ⟨by decide, by decide, by decide, by decide, ?_⟩
  intro db now missionID catID s e hsome herr
  cases hm : s.missions.find? (fun x => x.ID = missionID) with
  | none =>
    rw [hm] at hsome
    cases hsome
  | some m =>
    rw [AssignCatToMission_of_mission db now missionID catID s m hm] at herr ⊢
    cases h0 : db 0 <;> cases h1 : db 1 <;> simp [h0, h1] at herr ⊢

/-- C24, at the failing input. Two missions are created and cat 5 is assigned
to mission 1 and then to mission 2, each call returning without error. Both
missions then have `CatID = 5`, and cat 5 has `MissionID = 2`: mission 1
refers to a cat that does not refer to it, and the cat is referred to by two
missions. -/
theorem cat_assigned_to_two_missions :
    ReachableOk [cat5] assignedTwice ∧
    assignedTwice.missions.map (fun m => (m.ID, m.CatID)) = [(1, some 5), (2, some 5)] ∧
    assignedTwice.cats.map (fun c => (c.ID, c.MissionID)) = [(5, some 2)] :=
  ⟨ReachableOk.step (.assignCat 2 5) Oracle.allOk 13
      (ReachableOk.step (.assignCat 1 5) Oracle.allOk 12
        (ReachableOk.step (.createMission secondRequest) Oracle.allOk 11 reachableOk_created
          (by decide))
        (by decide))
      (by decide),
   by decide, by decide⟩

/-- C25. `GetCatMission catID` never returns an error. It returns no mission
when no stored mission has `CatID = catID`, and otherwise the first mission
of the list whose `CatID` is `catID`, with its cat and targets; the mission
it returns has `CatID = catID`. -/
theorem GetCatMission_returns_first_mission_of_cat (catID : Int) (s : Store) :
    GetCatMission catID s
      = .ok ((s.missions.find? (fun m => m.CatID = some catID)).map
          (fun m => MissionFromModel (s.preload m))) ∧
    ((∀ m ∈ s.missions, m.CatID ≠ some catID) → GetCatMission catID s = .ok none) ∧
    (∀ l1 m l2, s.missions = l1 ++ m :: l2 → (∀ x ∈ l1, x.CatID ≠ some catID) →
      m.CatID = some catID →
      GetCatMission catID s = .ok (some (MissionFromModel (s.preload m)))) ∧
    (∀ resp, GetCatMission catID s = .ok (some resp) → resp.CatID = some catID) := by
  have hmain : GetCatMission catID s
      = .ok ((s.missions.find? (fun m => m.CatID = some catID)).map
          (fun m => MissionFromModel (s.preload m))) := by
    unfold GetCatMission
    simp only [MissionRepository.GetAll, firstMissionOfCat_eq_find?]
    rw [List.find?_map]
    have : ((fun m : Mission => decide (m.CatID = some catID)) ∘ s.preload)
        = (fun m : Mission => decide (m.CatID = some catID)) := by
      funext m
      simp [Function.comp, Store.preload]
    rw [this]
    cases s.missions.find? (fun m => m.CatID = some catID) <;> rfl
  refine ⟨hmain, ?_, ?_, ?_⟩
  · intro hall
    rw [hmain]
    have : s.missions.find? (fun m => m.CatID = some catID) = none := by
      rw [List.find?_eq_none]
      intro x hx
      simpa using hall x hx
    rw [this]
    rfl
  · intro l1 m l2 hl h1 hm
    rw [hmain, hl, find?_append_cons_first _ l1 l2 m
      (by intro x hx; simpa using h1 x hx) (by simpa using hm)]
    rfl
  · intro resp hresp
    rw [hmain] at hresp
    cases hf : s.missions.find? (fun m => m.CatID = some catID) with
    | none =>
      rw [hf] at hresp
      cases hresp
    | some m =>
      rw [hf] at hresp
      simp only [Option.map_some', Except.ok.injEq, Option.some.injEq] at hresp
      subst hresp
      have := List.find?_some hf
      simpa [MissionFromModel, Store.preload] using this

theorem GetCatMission_returns_first_mission_of_cat_witness :
    (GetCatMission 5 assignedTwice).toOption.map (fun r => r.map (fun m => m.ID))
      = some (some 1) ∧
    GetCatMission 6 assignedTwice = .ok none ∧
    GetCatMission 6 assignedTwice
      = .ok ((assignedTwice.missions.find? (fun m => m.CatID = some 6)).map
          (fun m => MissionFromModel (assignedTwice.preload m))) :=
  ⟨by decide, by decide, (GetCatMission_returns_first_mission_of_cat 6 assignedTwice).1⟩

/-- C26, the counterexample. Cat 5 is assigned to mission 1 by
`AssignCatToMission`: `CatRepository.Delete` refuses to delete it. After
`CatRepository.UnassignFromMission` the cat row has no mission, the row of
mission 1 still refers to cat 5, and `Delete` is refused again, now by the
foreign key of `missions.cat_id`, for every answer of the database; the cat
is still stored. The same holds once cat 5 has completed both targets and
the service itself has unassigned it. -/
theorem unassigned_cat_still_referenced :
    ReachableOk [cat5] assigned ∧
    assigned.cats.map (fun c => (c.ID, c.MissionID)) = [(5, some 1)] ∧
    CatRepository.Delete true 5 assigned = (assigned, .error (.assignedToMission 1)) ∧
    (CatRepository.UnassignFromMission true 12 5 assigned).1.cats.map
      (fun c => (c.ID, c.MissionID)) = [(5, none)] ∧
    (CatRepository.UnassignFromMission true 12 5 assigned).1.missions.map
      (fun m => (m.ID, m.CatID)) = [(1, some 5)] ∧
    CatRepository.Delete true 5 (CatRepository.UnassignFromMission true 12 5 assigned).1
      = ((CatRepository.UnassignFromMission true 12 5 assigned).1,
          .error (.failedDeleteCat .foreignKey)) ∧
    ReachableOk [cat5] allDone ∧
    allDone.cats.map (fun c => (c.ID, c.MissionID)) = [(5, none)] ∧
    CatRepository.Delete true 5 allDone = (allDone, .error (.failedDeleteCat .foreignKey)) :=
  ⟨reachableOk_assigned, by decide, by decide, by decide, by decide, by decide,
   reachableOk_allDone, by decide, by decide⟩

/-- C26, the amended claim. `CatRepository.Delete` on a stored cat whose
`MissionID` is set returns "cannot delete cat: cat is currently assigned to
mission ID ..." and leaves the store as it was, the cat included. After
`CatRepository.UnassignFromMission` on this cat: when no mission row refers
to the cat, `Delete` returns without error if the database accepts the
deletion, the cat is no longer found and the other cats are as before; when
a mission row refers to the cat, `Delete` returns "failed to delete cat" and
the store it was given. -/
theorem cat_with_mission_cannot_be_deleted (ok : Bool) (now : Time) (id : Int) (s : Store)
    (k : SpyCat) (missionID : Int)
    (hk : s.cats.find? (fun c => c.ID = id) = some k)
    (hm : k.MissionID = some missionID) :
    CatRepository.Delete ok id s = (s, .error (.assignedToMission missionID)) ∧
    CatRepository.GetByID id (CatRepository.Delete ok id s).1 = .ok k ∧
    ((∀ m ∈ s.missions, m.CatID ≠ some id) →
      (CatRepository.Delete true id (CatRepository.UnassignFromMission true now id s).1).2
        = .ok () ∧
      CatRepository.GetByID id
          (CatRepository.Delete true id (CatRepository.UnassignFromMission true now id s).1).1
        = .error (.failedGetCat .recordNotFound) ∧
      (∀ c, c ∈ (CatRepository.Delete true id
          (CatRepository.UnassignFromMission true now id s).1).1.cats ↔
        (c ∈ s.cats ∧ c.ID ≠ id))) ∧
    ((∃ m ∈ s.missions, m.CatID = some id) →
      CatRepository.Delete ok id (CatRepository.UnassignFromMission true now id s).1
        = ((CatRepository.UnassignFromMission true now id s).1,
            .error (.failedDeleteCat .foreignKey))) := by
  have hid : k.ID = id := by simpa using List.find?_some hk
  have hdel : CatRepository.Delete ok id s = (s, .error (.assignedToMission missionID)) := by
    simp [CatRepository.Delete, hk, hm]
  have hfind : (CatRepository.UnassignFromMission true now id s).1.cats.find?
      (fun c => c.ID = id) = some { k with MissionID := none, UpdatedAt := now } := by
    simp only [CatRepository.UnassignFromMission, if_true]
    rw [find?_cat_map_sameID _ _ _ (by intro x; split <;> rfl), hk]
    simp [hid]
  have hmis : (CatRepository.UnassignFromMission true now id s).1.missions = s.missions := by
    simp only [CatRepository.UnassignFromMission, if_true]
  refine ⟨hdel, ?_, ?_, ?_⟩
  · rw [hdel]
    simp [CatRepository.GetByID, hk]
  · intro hfree
    have hany : s.missions.any (fun m => m.CatID = some id) = false := by
      rw [List.any_eq_false]
      intro m hmem
      simpa using hfree m hmem
    have hdel2 : CatRepository.Delete true id (CatRepository.UnassignFromMission true now id s).1
        = ({ (CatRepository.UnassignFromMission true now id s).1 with
              cats := (CatRepository.UnassignFromMission true now id s).1.cats.filter
                (fun c => ¬ c.ID = id) }, .ok ()) := by
      simp only [CatRepository.Delete, hfind, hmis, hany]
      rfl
    refine ⟨?_, ?_, ?_⟩
    · rw [hdel2]
    · rw [hdel2]
      have : ((CatRepository.UnassignFromMission true now id s).1.cats.filter
          (fun c => ¬ c.ID = id)).find? (fun c => c.ID = id) = none := by
        rw [List.find?_eq_none]
        intro x hx
        have := (List.mem_filter.mp hx).2
        simpa using this
      simp only [CatRepository.GetByID]
      rw [this]
    · intro c
      rw [hdel2]
      simp only [CatRepository.UnassignFromMission, if_true, List.mem_filter, List.mem_map]
      constructor
      · rintro ⟨⟨x, hx, hxc⟩, hne⟩
        have hne' : c.ID ≠ id := by simpa using hne
        by_cases hxi : x.ID = id
        · rw [if_pos hxi] at hxc
          rw [← hxc] at hne'
          exact absurd hxi hne'
        · rw [if_neg hxi] at hxc
          subst hxc
          exact ⟨hx, hxi⟩
      · rintro ⟨hc, hne⟩
        exact ⟨⟨c, hc, by simp [hne]⟩, by simpa using hne⟩
  · rintro ⟨m, hmem, hmc⟩
    have hany : s.missions.any (fun m => m.CatID = some id) = true := by
      rw [List.any_eq_true]
      exact ⟨m, hmem, by simpa using hmc⟩
    simp only [CatRepository.Delete, hfind, hmis, hany]
    rfl

theorem cat_with_mission_cannot_be_deleted_witness :
    CatRepository.Delete true 5 assigned = (assigned, .error (.assignedToMission 1)) ∧
    ((CatRepository.Delete true 5
        (CatRepository.UnassignFromMission true 12 5
          (Store.init [{ cat5 with MissionID := some 1 }])).1).2 = .ok () ∧
      CatRepository.GetByID 5
          (CatRepository.Delete true 5 (CatRepository.UnassignFromMission true 12 5
            (Store.init [{ cat5 with MissionID := some 1 }])).1).1
        = .error (.failedGetCat .recordNotFound) ∧
      (∀ c, c ∈ (CatRepository.Delete true 5 (CatRepository.UnassignFromMission true 12 5
            (Store.init [{ cat5 with MissionID := some 1 }])).1).1.cats ↔
        (c ∈ (Store.init [{ cat5 with MissionID := some 1 }]).cats ∧ c.ID ≠ 5))) ∧
    CatRepository.Delete true 5 (CatRepository.UnassignFromMission true 12 5 assigned).1
      = ((CatRepository.UnassignFromMission true 12 5 assigned).1,
          .error (.failedDeleteCat .foreignKey)) :=
  ⟨(cat_with_mission_cannot_be_deleted true 12 5 assigned
      { cat5 with MissionID := some 1, UpdatedAt := 11 } 1 (by decide) rfl).1,
   (cat_with_mission_cannot_be_deleted true 12 5 (Store.init [{ cat5 with MissionID := some 1 }])
      { cat5 with MissionID := some 1 } 1 (by decide) rfl).2.2.1 (by decide),
   (cat_with_mission_cannot_be_deleted true 12 5 assigned
      { cat5 with MissionID := some 1, UpdatedAt := 11 } 1 (by decide) rfl).2.2.2
      ⟨{ ID := 1, Name := "Op", Description := "d", StartDate := 11, EndDate := 0,
         CatID := some 5, IsCompleted := false, CompletedAt := none, CreatedAt := 10,
         UpdatedAt := 11, Cat := none, Targets := [] }, by decide, rfl⟩⟩

/-- C27, at the failing input. `CreateMission` creates mission 1 with the
targets A and B, and `AddTargetToMission 1` is called with a request whose
name and country are empty: the call returns without error and target 3 is
stored with an empty name and an empty country. The rows written by
`CreateMission` do have a name and a country that are not empty and of at
most 100 bytes. -/
theorem AddTargetToMission_stores_empty_name :
    namelessTarget
      = (AddTargetToMission Oracle.allOk 11 1 ⟨"", "", none⟩
          (CreateMission Oracle.allOk 10 twoTargets (Store.init [cat5])).1).1 ∧
    (CreateMission Oracle.allOk 10 twoTargets (Store.init [cat5])).2.toBool = true ∧
    (AddTargetToMission Oracle.allOk 11 1 ⟨"", "", none⟩ created).2.toBool = true ∧
    namelessTarget.targets.map (fun t => (t.ID, t.MissionID, t.Name, t.Country, t.visible))
      = [(1, 1, "A", "X", true), (2, 1, "B", "Y", true), (3, 1, "", "", true)] ∧
    (∀ (db : Oracle) (now : Time) (req : CreateMissionRequest) (s : Store),
      (CreateMission db now req s).2.toBool = true →
      ∀ t ∈ (CreateMission db now req s).1.targets, t ∈ s.targets ∨
        (t.Name ≠ "" ∧ t.Country ≠ "" ∧
          t.Name.utf8ByteSize ≤ 100 ∧ t.Country.utf8ByteSize ≤ 100)) := by
  refine ⟨rfl, by decide, by decide, by decide, ?_⟩
  intro db now req s hok t ht
  rcases CreateMission_shape db now req s with ⟨e, he⟩ | ⟨hval, hres⟩
  · rw [he] at hok
    cases hok
  · rw [hres] at ht
    simp only [Store.withMission, List.mem_append] at ht
    rcases ht with ht | ht
    · exact Or.inl ht
    · right
      obtain ⟨t', ht', hn, hc⟩ := newTargets_fields now _ _ _ t ht
      have hall := ((Validate_ok_iff req.ToModel).mp hval).2.2.1 t' ht'
      rw [hn, hc]
      exact hall

/-- C29. A call of `UpdateTargetStatus` that returns without error rewrites
the rows with the given target id that are not deleted, and no other target
row: their status becomes the requested one and `UpdatedAt` the time of the
call, all other fields are kept, and the target returned is the stored one.
The missions and the cats are unchanged, unless the requested status is
`completed`, the mission of the target was not completed and all its targets
now are: then the row of this mission, and no other, is rewritten as
completed. A call of `UpdateTargetNotes` that returns without error rewrites
the notes and `UpdatedAt` of these rows in the same way and nothing else in
the store. -/
theorem update_changes_one_field (db : Oracle) (now : Time) (catID targetID : Int)
    (text : String) (s : Store) :
    (∀ resp, (UpdateTargetStatus db now catID targetID text s).2 = .ok resp →
      ∃ t, s.targets.find? (fun x => x.ID = targetID ∧ x.visible) = some t ∧
        (UpdateTargetStatus db now catID targetID text s).1.targets
          = s.targets.map (fun x =>
              if x.ID = targetID ∧ x.visible then { x with Status := text, UpdatedAt := now }
              else x) ∧
        (UpdateTargetStatus db now catID targetID text s).1.targets.find?
            (fun x => x.ID = targetID ∧ x.visible)
          = some { t with Status := text, UpdatedAt := now } ∧
        resp = TargetResponse.ofTarget { t with Status := text, UpdatedAt := now } ∧
        (((UpdateTargetStatus db now catID targetID text s).1.missions = s.missions ∧
            (UpdateTargetStatus db now catID targetID text s).1.cats = s.cats) ∨
          (text = "completed" ∧
            ∃ m, s.missions.find? (fun x => x.ID = t.MissionID) = some m ∧
              m.IsCompleted = false ∧
              (∀ x ∈ (UpdateTargetStatus db now catID targetID text s).1.targetsOf t.MissionID,
                x.Status = "completed") ∧
              (UpdateTargetStatus db now catID targetID text s).1.missions
                = s.missions.map (fun x =>
                    if x.ID = t.MissionID then completedRow now (s.catOf m.CatID) m
                    else x)))) ∧
    (∀ resp, (UpdateTargetNotes db now catID targetID text s).2 = .ok resp →
      ∃ t, s.targets.find? (fun x => x.ID = targetID ∧ x.visible) = some t ∧
        (UpdateTargetNotes db now catID targetID text s).1
          = { s with targets := s.targets.map (fun x =>
              if x.ID = targetID ∧ x.visible then { x with Notes := some text, UpdatedAt := now }
              else x) } ∧
        (UpdateTargetNotes db now catID targetID text s).1.targets.find?
            (fun x => x.ID = targetID ∧ x.visible)
          = some { t with Notes := some text, UpdatedAt := now } ∧
        resp = TargetResponse.ofTarget { t with Notes := some text, UpdatedAt := now }) := by
  refine ⟨?_, ?_⟩
  · intro resp hok
    rcases UpdateTargetStatus_cases db now catID targetID text s with ⟨e, he⟩ | h
    · rw [he] at hok
      cases hok
    · obtain ⟨t, m, ht, hm, hcat, hp, h0, h1⟩ := h
      by_cases h2 : db 2 = true
      swap
      · rw [UpdateTargetStatus_rereadFailed db now catID targetID text s t m ht hm hcat hp
          h0 h1 h2] at hok
        cases hok
      have hacc := UpdateTargetStatus_accepted db now catID targetID text s t m ht hm hcat hp
        h0 h1 h2
      have hre := reread_after_UpdateStatus now targetID text s t ht
      have hs1 : (TargetRepository.UpdateStatus true now targetID text s).1
          = { s with targets := s.targets.map (fun x =>
              if x.ID = targetID ∧ x.visible then { x with Status := text, UpdatedAt := now }
              else x) } := by
        simp only [TargetRepository.UpdateStatus, if_true]
      have hfind1 : (TargetRepository.UpdateStatus true now targetID text s).1.targets.find?
          (fun x => x.ID = targetID ∧ x.visible)
            = some { t with Status := text, UpdatedAt := now } := by
        exact find?_of_target_GetByID hre
      rw [hacc] at hok ⊢
      simp only [Except.ok.injEq] at hok
      refine ⟨t, ht, ?_, ?_, hok.symm, ?_⟩
      · by_cases hc : text = "completed"
        · simp only [hc, if_true]
          rw [check_targets, ← hc, hs1]
        · simp only [hc, if_false]
          rw [hs1]
      · by_cases hc : text = "completed"
        · simp only [hc, if_true]
          rw [check_targets, ← hc]
          exact hfind1
        · simp only [hc, if_false]
          exact hfind1
      · by_cases hc : text = "completed"
        · simp only [hc, if_true]
          rcases check_shape (db.shift 3) now t.MissionID
              (TargetRepository.UpdateStatus true now targetID "completed" s).1 with
            hsame | ⟨m1, hm1, hnc, hall, cs, hnew⟩
          · left
            rw [hsame, ← hc, hs1]
            exact ⟨rfl, rfl⟩
          · right
            have hm1' : s.missions.find? (fun x => x.ID = t.MissionID) = some m1 := by
              rw [← hc, hs1] at hm1
              exact hm1
            refine ⟨trivial, m1, hm1', hnc, ?_, ?_⟩
            · intro x hx
              rw [hnew] at hx
              rw [mem_targetsOf] at hx
              exact hall x (mem_targetsOf.mpr hx)
            · rw [hnew]
              show (TargetRepository.UpdateStatus true now targetID "completed" s).1.missions.map
                _ = _
              rw [← hc, hs1]
              rfl
        · left
          simp only [hc, if_false]
          rw [hs1]
          exact ⟨rfl, rfl⟩
  · intro resp hok
    rcases UpdateTargetNotes_cases db now catID targetID text s with ⟨e, he⟩ | h
    · rw [he] at hok
      cases hok
    · obtain ⟨t, m, ht, hm, hcat, hp, h0, h1⟩ := h
      by_cases h2 : db 2 = true
      swap
      · rw [UpdateTargetNotes_written db now catID targetID text s t m ht hm hcat hp h0 h1,
          if_neg h2] at hok
        cases hok
      have hacc := UpdateTargetNotes_accepted db now catID targetID text s t m ht hm hcat hp
        h0 h1 h2
      have hre := reread_after_UpdateNotes now targetID text s t ht
      rw [hacc] at hok ⊢
      simp only [Except.ok.injEq] at hok
      refine ⟨t, ht, ?_, ?_, hok.symm⟩
      · simp only [TargetRepository.UpdateNotes, if_true]
      · exact find?_of_target_GetByID hre

theorem update_changes_one_field_witness :
    (inProgress.targets = assigned.targets.map (fun x =>
      if x.ID = 1 ∧ x.visible then { x with Status := "in_progress", UpdatedAt := 12 } else x)) ∧
    inProgress.missions = assigned.missions ∧ inProgress.cats = assigned.cats ∧
    (∃ t, assigned.targets.find? (fun x => x.ID = 2 ∧ x.visible) = some t ∧
      (UpdateTargetNotes Oracle.allOk 12 5 2 "seen" assigned).1
        = { assigned with targets := assigned.targets.map (fun x =>
            if x.ID = 2 ∧ x.visible then { x with Notes := some "seen", UpdatedAt := 12 }
            else x) } ∧
      (UpdateTargetNotes Oracle.allOk 12 5 2 "seen" assigned).1.targets.find?
          (fun x => x.ID = 2 ∧ x.visible)
        = some { t with Notes := some "seen", UpdatedAt := 12 } ∧
      TargetResponse.ofTarget
          { ID := 2, MissionID := 1, Name := "B", Country := "Y", Notes := some "seen",
            Status := "init", CreatedAt := 10, UpdatedAt := 12, DeletedAt := none }
        = TargetResponse.ofTarget { t with Notes := some "seen", UpdatedAt := 12 }) :=
  ⟨by decide, by decide, by decide,
   (update_changes_one_field Oracle.allOk 12 5 2 "seen" assigned).2
    (TargetResponse.ofTarget
      { ID := 2, MissionID := 1, Name := "B", Country := "Y", Notes := some "seen",
        Status := "init", CreatedAt := 10, UpdatedAt := 12, DeletedAt := none })
    (by decide)⟩

/-- C28. In every state reached from a store without missions and targets by
calls of the mission service, whatever their outcome, the targets of a
mission (those that a query sees: not soft-deleted) have pairwise distinct
names. Names are compared as strings: `A` and `a` are distinct and can be
names of two targets of one mission. -/
theorem target_names_unique_within_mission (cats : List SpyCat) (s : Store)
    (h : Reachable cats s) (id : Int) :
    ((s.targetsOf id).map (fun t => t.Name)).Nodup := by
  have nu := NamesUnique_of_reachable h
  unfold Store.NamesUnique at nu
  unfold Store.targetsOf
  rw [((List.perm_insertionSort _ _).map _).nodup_iff]
  unfold List.Nodup
  rw [List.pairwise_map]
  have hsub : (s.targets.filter (fun t => t.MissionID = id ∧ t.visible)).Pairwise (fun a b =>
      a.MissionID = b.MissionID → a.visible = true → b.visible = true → a.Name ≠ b.Name) :=
    nu.sublist (List.filter_sublist _)
  refine hsub.imp_of_mem ?_
  intro a b ha hb hab
  have ha' := (List.mem_filter.mp ha).2
  have hb' := (List.mem_filter.mp hb).2
  simp only [decide_eq_true_eq] at ha' hb'
  exact hab (by rw [ha'.1, hb'.1]) ha'.2 hb'.2

theorem target_names_unique_within_mission_witness :
    (caseNames.targetsOf 1).map (fun t => t.Name) = ["A", "B", "a"] ∧
    ((caseNames.targetsOf 1).map (fun t => t.Name)).Nodup :=
  ⟨by decide,
   target_names_unique_within_mission [cat5] caseNames
    (ReachableOk.reachable
      (ReachableOk.step (.addTarget 1 ⟨"a", "Z", none⟩) Oracle.allOk 11 reachableOk_created
        (by decide))) 1⟩

/-- C30. `ValidateID idStr paramName` returns the number `v` exactly when
`idStr` is a base-10 integer literal of value `v` (an optional sign `+` or
`-` followed by one or more decimal digits, leading zeros allowed) and `v`
lies between 1 and 2147483647; the value returned is this number, which the
conversion to `int32` leaves as it is. In every other case it returns an
error: "missing ... parameter" for the empty string, "must be a valid
integer" for a string that is no integer and for a value above 2147483647,
"must be a positive integer" for zero and for a negative number. -/
theorem ValidateID_accepts_positive_int32 (idStr paramName : String) :
    (∀ v, ValidateID idStr paramName = .ok v ↔
      (IsDecimalLiteral idStr v ∧ 1 ≤ v ∧ v ≤ 2147483647)) ∧
    ((∀ v, ¬ (IsDecimalLiteral idStr v ∧ 1 ≤ v ∧ v ≤ 2147483647)) →
      ∃ e, ValidateID idStr paramName = .error e) ∧
    ValidateID "" paramName = .error (.missing paramName) ∧
    ValidateID "abc" paramName = .error (.invalidInteger paramName) ∧
    ValidateID "12a" paramName = .error (.invalidInteger paramName) ∧
    ValidateID "0" paramName = .error (.notPositive paramName) ∧
    ValidateID "-3" paramName = .error (.notPositive paramName) ∧
    ValidateID "2147483648" paramName = .error (.invalidInteger paramName) ∧
    ValidateID "99999999999999999999999" paramName = .error (.invalidInteger paramName) ∧
    ValidateID "2147483647" paramName = .ok 2147483647 ∧
    ValidateID "1" paramName = .ok 1 ∧
    ValidateID "+007" paramName = .ok 7 := by
  refine ⟨fun v => ValidateID_ok_iff idStr paramName v, ?_, rfl, rfl, rfl, rfl, rfl, rfl, rfl,
    rfl, rfl, rfl⟩
  intro hno
  cases h : ValidateID idStr paramName with
  | error e => exact ⟨e, rfl⟩
  | ok v => exact absurd ((ValidateID_ok_iff idStr paramName v).mp h) (hno v)

end SpyCats
